import Mathlib

/-!
Offline-Raytracer: the CPU sampling loops, the integrator and the PPM formatter.

A shallow embedding of `src/cpu/main.cc`, `src/cpu/vec3.h`, `src/cpu/rtweekend.h` and
`src/cpu/color.h`.

* `float` is an exact ordered field `α` (instantiated at `ℚ` to compute and at `ℝ` where the
  square root matters); `std::sqrt` is the parameter `sqrt`.  What is proved over `α` is a fact
  of exact arithmetic.
* Where the rounding of IEEE single precision decides what the program does, the function is
  embedded a second time under the name of the source function followed by `_f32`, with every
  operation on `float` rounded to the nearest `float` (`to_float`), and evaluated at a
  concrete input.
* The order in which the arguments of a call are evaluated is left to the compiler: where the
  arguments call `rand()`, the order is the parameter `order`.
* The hidden state of `rand()` is made explicit: `RandState` is the sequence of values `rand()`
  is going to return together with the number of values already consumed.  Every function that
  may call `rand()` takes a `RandState` and returns the new one next to its result.
* `camera.h`, `hittable.h`, `material.h` and `ray.h` are not among the sources: the camera, the
  scene's `hit` and the materials' `scatter` are parameters.
-/

namespace Raytracer

/-! ## vec3.h -/

/-- The class `vec3`: `x`, `y`, `z` are `e[0]`, `e[1]`, `e[2]`. -/
@[ext]
structure vec3 (α : Type) where
  x : α
  y : α
  z : α
deriving DecidableEq

/-- The alias `using color = vec3`. -/
abbrev color (α : Type) := vec3 α

/-- The alias `using point3 = vec3`. -/
abbrev point3 (α : Type) := vec3 α

section Vec3

variable {α : Type} [LinearOrderedField α]

/-- The default constructor `vec3() : e{0, 0, 0}`. -/
instance : Zero (vec3 α) := ⟨⟨0, 0, 0⟩⟩

/-- The `operator+(const vec3 &u, const vec3 &v)`; `operator+=` adds the same way. -/
instance : Add (vec3 α) := ⟨fun u v => ⟨u.x + v.x, u.y + v.y, u.z + v.z⟩⟩

/-- The `operator-(const vec3 &u, const vec3 &v)`. -/
instance : Sub (vec3 α) := ⟨fun u v => ⟨u.x - v.x, u.y - v.y, u.z - v.z⟩⟩

/-- The unary `operator-()`. -/
instance : Neg (vec3 α) := ⟨fun v => ⟨-v.x, -v.y, -v.z⟩⟩

/-- The component-wise `operator*(const vec3 &u, const vec3 &v)`. -/
instance : Mul (vec3 α) := ⟨fun u v => ⟨u.x * v.x, u.y * v.y, u.z * v.z⟩⟩

/-- The scaling `operator*(float t, const vec3 &v)`. -/
instance : HMul α (vec3 α) (vec3 α) := ⟨fun t v => ⟨t * v.x, t * v.y, t * v.z⟩⟩

/-- The member `length_squared()`. -/
def vec3.length_squared (v : vec3 α) : α :=
  v.x * v.x + v.y * v.y + v.z * v.z

/-- The member `length()`: `sqrt(length_squared())`. -/
def vec3.length (sqrt : α → α) (v : vec3 α) : α :=
  sqrt v.length_squared

/-- The function `unit_vector`: each component divided by the length. -/
def unit_vector (sqrt : α → α) (v : vec3 α) : vec3 α :=
  ⟨v.x / v.length sqrt, v.y / v.length sqrt, v.z / v.length sqrt⟩

/-- The function `dot`. -/
def dot (u v : vec3 α) : α :=
  u.x * v.x + u.y * v.y + u.z * v.z

end Vec3

/-! ## rtweekend.h -/

/-- The state behind `rand()`: `seq n` is the value the `n`-th call returns, `pos` counts the
calls made so far. -/
structure RandState where
  seq : Nat → Nat
  pos : Nat

/-- One call of the C library's `rand()`. -/
def rand (g : RandState) : Nat × RandState :=
  (g.seq g.pos, ⟨g.seq, g.pos + 1⟩)

section Rtweekend

variable {α : Type} [LinearOrderedField α]

/-- The function `random_float()`: `rand() / (RAND_MAX + 1.0)`. `RAND_MAX` comes from
`<cstdlib>` and is a parameter. -/
def random_float (RAND_MAX : Nat) (g : RandState) : α × RandState :=
  (((rand g).1 : α) / ((RAND_MAX : α) + 1), (rand g).2)

/-- The function `clamp`. -/
def clamp (x min max : α) : α :=
  if x < min then min
  else if x > max then max
  else x

end Rtweekend

/-! ## The collaborators of main.cc whose headers are not among the sources -/

/-- Modelled from the spec: the class `ray` of `ray.h`, an origin and a direction ("origin +
direction"); `dir` is what `direction()` returns. -/
structure ray (α : Type) where
  orig : vec3 α
  dir : vec3 α

/-- Modelled from the spec: the struct `hit_record` of `hittable.h` (hit point, normal, material
reference, ray parameter, front-face flag). The material reference `mat_ptr` is a handle of
type `M`. -/
structure hit_record (α M : Type) where
  p : vec3 α
  normal : vec3 α
  mat_ptr : M
  t : α
  front_face : Bool

/-- Modelled from the spec: what `ray_color` uses of the scene. `hit r t_min t_max` is
`world.hit(r, t_min, t_max, rec)`: `some rec` when it returns true, `none` for a miss; the upper
bound is a `WithTop` because the caller passes `infinity`. `scatter m r rec` is the virtual call
`rec.mat_ptr->scatter(r, rec, attenuation, scattered)` on the material behind the handle `m`:
`some (attenuation, scattered)` when it returns true, `none` when the material absorbs. Both
receive the `rand()` state, so that any implementation is covered. -/
structure hittable (α M : Type) where
  hit : ray α → α → WithTop α → RandState → Option (hit_record α M) × RandState
  scatter : M → ray α → hit_record α M → RandState → Option (color α × ray α) × RandState

/-- Modelled from the spec: the one member of `camera` that main.cc calls, `get_ray(u, v)`. It
receives the `rand()` state because the lens offset is random. -/
structure camera (α : Type) where
  get_ray : α → α → RandState → ray α × RandState

/-! ## main.cc -/

/-- The macro `MAX_DEPTH`. -/
def MAX_DEPTH : Int := 50

/-- The macro `SAMPLES_PER_PIXEL`. -/
def SAMPLES_PER_PIXEL : Nat := 20

/-- The macro `ASPECT_RATIO`, `16.0f / 9.0f`. -/
def ASPECT_RATIO : ℚ := 16 / 9

/-- The macro `IMG_WIDTH`. -/
def IMG_WIDTH : Int := 120

/-- The macro `IMG_HEIGHT`, `static_cast<int>(IMG_WIDTH / ASPECT_RATIO)`: the quotient is
positive, so the cast is the floor. -/
def IMG_HEIGHT : Int := ⌊(IMG_WIDTH : ℚ) / ASPECT_RATIO⌋

section Integrator

variable {α M : Type} [LinearOrderedField α]

/-- The function `ray_color` of main.cc. The result is the color together with the `rand()`
state left behind by the calls to `hit` and `scatter`. -/
def ray_color (sqrt : α → α) (world : hittable α M) (r : ray α) (depth : Int)
    (g : RandState) : color α × RandState :=
  if depth ≤ 0 then
    (⟨0, 0, 0⟩, g)
  else
    match world.hit r 0.001 ⊤ g with
    | (some rec, g1) =>
      match world.scatter rec.mat_ptr r rec g1 with
      | (some (attenuation, scattered), g2) =>
        (attenuation * (ray_color sqrt world scattered (depth - 1) g2).1,
          (ray_color sqrt world scattered (depth - 1) g2).2)
      | (none, g2) => (⟨0, 0, 0⟩, g2)
    | (none, g1) =>
      let unit_direction := unit_vector sqrt r.dir
      let t := 0.5 * (unit_direction.y + 1.0)
      (((1.0 : α) - t) * (⟨1.0, 1.0, 1.0⟩ : color α) + t * (⟨0.5, 0.7, 1.0⟩ : color α), g1)
termination_by depth.toNat
decreasing_by all_goals omega

end Integrator

section Sampling

variable {α M : Type} [LinearOrderedField α]

/-- A counted loop `for (s = s0; s < N; s += step) body`, for a body that does not read `s`. -/
def for_loop {β : Type} (step : Nat) (hstep : 0 < step) (N : Nat) (body : β → β)
    (s : Nat) (acc : β) : β :=
  if s < N then for_loop step hstep N body (s + step) (body acc) else acc
termination_by N - s
decreasing_by omega

/-- The statement `auto u = (i + random_float()) / (IMG_WIDTH - 1);`. -/
def draw_u (RAND_MAX : Nat) (i : Int) (g : RandState) : α × RandState :=
  (((i : α) + (random_float RAND_MAX g : α × RandState).1) / (((IMG_WIDTH - 1 : Int) : α)),
    (random_float RAND_MAX g : α × RandState).2)

/-- The statement `auto v = (j + random_float()) / (IMG_HEIGHT - 1);`. -/
def draw_v (RAND_MAX : Nat) (j : Int) (g : RandState) : α × RandState :=
  (((j : α) + (random_float RAND_MAX g : α × RandState).1) / (((IMG_HEIGHT - 1 : Int) : α)),
    (random_float RAND_MAX g : α × RandState).2)

/-- The slot of pixel `(i, j)`: the subscript `((IMG_HEIGHT - j - 1) * IMG_WIDTH) + i` of every
variant's final assignment. -/
def pixel_index (i j : Int) : Int :=
  ((IMG_HEIGHT - j - 1) * IMG_WIDTH) + i

variable (sqrt : α → α) (RAND_MAX : Nat) (cam : camera α) (world : hittable α M) (i j : Int)

/-- One sample with one accumulator: the body of the loop of `ray_trace_unopt`, which is also,
statement for statement, the body of the remainder block or loop of the unrolled variants. -/
def sample_body (acc : color α × RandState) : color α × RandState :=
  let u1 := draw_u RAND_MAX i acc.2
  let v1 := draw_v RAND_MAX j u1.2
  let r1 := cam.get_ray u1.1 v1.1 v1.2
  let c1 := ray_color sqrt world r1.1 MAX_DEPTH r1.2
  (acc.1 + c1.1, c1.2)

/-- The remainder body of the two-accumulator variants: one sample added to `pixel_color1`. -/
def sample_body_a2 (acc : color α × color α × RandState) : color α × color α × RandState :=
  let u1 := draw_u RAND_MAX i acc.2.2
  let v1 := draw_v RAND_MAX j u1.2
  let r1 := cam.get_ray u1.1 v1.1 v1.2
  let c1 := ray_color sqrt world r1.1 MAX_DEPTH r1.2
  (acc.1 + c1.1, acc.2.1, c1.2)

/-- The body of the main loop of `ray_trace_u2`. -/
def ray_trace_u2_body (acc : color α × RandState) : color α × RandState :=
  let u1 := draw_u RAND_MAX i acc.2
  let u2 := draw_u RAND_MAX i u1.2
  let v1 := draw_v RAND_MAX j u2.2
  let v2 := draw_v RAND_MAX j v1.2
  let r1 := cam.get_ray u1.1 v1.1 v2.2
  let r2 := cam.get_ray u2.1 v2.1 r1.2
  let c1 := ray_color sqrt world r1.1 MAX_DEPTH r2.2
  let c2 := ray_color sqrt world r2.1 MAX_DEPTH c1.2
  (acc.1 + c1.1 + c2.1, c2.2)

/-- The body of the main loop of `ray_trace_u4`. -/
def ray_trace_u4_body (acc : color α × RandState) : color α × RandState :=
  let u1 := draw_u RAND_MAX i acc.2
  let u2 := draw_u RAND_MAX i u1.2
  let u3 := draw_u RAND_MAX i u2.2
  let u4 := draw_u RAND_MAX i u3.2
  let v1 := draw_v RAND_MAX j u4.2
  let v2 := draw_v RAND_MAX j v1.2
  let v3 := draw_v RAND_MAX j v2.2
  let v4 := draw_v RAND_MAX j v3.2
  let r1 := cam.get_ray u1.1 v1.1 v4.2
  let r2 := cam.get_ray u2.1 v2.1 r1.2
  let r3 := cam.get_ray u3.1 v3.1 r2.2
  let r4 := cam.get_ray u4.1 v4.1 r3.2
  let c1 := ray_color sqrt world r1.1 MAX_DEPTH r4.2
  let c2 := ray_color sqrt world r2.1 MAX_DEPTH c1.2
  let c3 := ray_color sqrt world r3.1 MAX_DEPTH c2.2
  let c4 := ray_color sqrt world r4.1 MAX_DEPTH c3.2
  (acc.1 + c1.1 + c2.1 + c3.1 + c4.1, c4.2)

/-- The body of the main loop of `ray_trace_u8`. -/
def ray_trace_u8_body (acc : color α × RandState) : color α × RandState :=
  let u1 := draw_u RAND_MAX i acc.2
  let u2 := draw_u RAND_MAX i u1.2
  let u3 := draw_u RAND_MAX i u2.2
  let u4 := draw_u RAND_MAX i u3.2
  let u5 := draw_u RAND_MAX i u4.2
  let u6 := draw_u RAND_MAX i u5.2
  let u7 := draw_u RAND_MAX i u6.2
  let u8 := draw_u RAND_MAX i u7.2
  let v1 := draw_v RAND_MAX j u8.2
  let v2 := draw_v RAND_MAX j v1.2
  let v3 := draw_v RAND_MAX j v2.2
  let v4 := draw_v RAND_MAX j v3.2
  let v5 := draw_v RAND_MAX j v4.2
  let v6 := draw_v RAND_MAX j v5.2
  let v7 := draw_v RAND_MAX j v6.2
  let v8 := draw_v RAND_MAX j v7.2
  let r1 := cam.get_ray u1.1 v1.1 v8.2
  let r2 := cam.get_ray u2.1 v2.1 r1.2
  let r3 := cam.get_ray u3.1 v3.1 r2.2
  let r4 := cam.get_ray u4.1 v4.1 r3.2
  let r5 := cam.get_ray u5.1 v5.1 r4.2
  let r6 := cam.get_ray u6.1 v6.1 r5.2
  let r7 := cam.get_ray u7.1 v7.1 r6.2
  let r8 := cam.get_ray u8.1 v8.1 r7.2
  let c1 := ray_color sqrt world r1.1 MAX_DEPTH r8.2
  let c2 := ray_color sqrt world r2.1 MAX_DEPTH c1.2
  let c3 := ray_color sqrt world r3.1 MAX_DEPTH c2.2
  let c4 := ray_color sqrt world r4.1 MAX_DEPTH c3.2
  let c5 := ray_color sqrt world r5.1 MAX_DEPTH c4.2
  let c6 := ray_color sqrt world r6.1 MAX_DEPTH c5.2
  let c7 := ray_color sqrt world r7.1 MAX_DEPTH c6.2
  let c8 := ray_color sqrt world r8.1 MAX_DEPTH c7.2
  (acc.1 + c1.1 + c2.1 + c3.1 + c4.1 + c5.1 + c6.1 + c7.1 + c8.1, c8.2)

/-- The body of the main loop of `ray_trace_u2_a2`. -/
def ray_trace_u2_a2_body (acc : color α × color α × RandState) :
    color α × color α × RandState :=
  let u1 := draw_u RAND_MAX i acc.2.2
  let u2 := draw_u RAND_MAX i u1.2
  let v1 := draw_v RAND_MAX j u2.2
  let v2 := draw_v RAND_MAX j v1.2
  let r1 := cam.get_ray u1.1 v1.1 v2.2
  let r2 := cam.get_ray u2.1 v2.1 r1.2
  let c1 := ray_color sqrt world r1.1 MAX_DEPTH r2.2
  let c2 := ray_color sqrt world r2.1 MAX_DEPTH c1.2
  (acc.1 + c1.1,
    acc.2.1 + c2.1, c2.2)

/-- The body of the main loop of `ray_trace_u4_a2`. -/
def ray_trace_u4_a2_body (acc : color α × color α × RandState) :
    color α × color α × RandState :=
  let u1 := draw_u RAND_MAX i acc.2.2
  let u2 := draw_u RAND_MAX i u1.2
  let u3 := draw_u RAND_MAX i u2.2
  let u4 := draw_u RAND_MAX i u3.2
  let v1 := draw_v RAND_MAX j u4.2
  let v2 := draw_v RAND_MAX j v1.2
  let v3 := draw_v RAND_MAX j v2.2
  let v4 := draw_v RAND_MAX j v3.2
  let r1 := cam.get_ray u1.1 v1.1 v4.2
  let r2 := cam.get_ray u2.1 v2.1 r1.2
  let r3 := cam.get_ray u3.1 v3.1 r2.2
  let r4 := cam.get_ray u4.1 v4.1 r3.2
  let c1 := ray_color sqrt world r1.1 MAX_DEPTH r4.2
  let c2 := ray_color sqrt world r2.1 MAX_DEPTH c1.2
  let c3 := ray_color sqrt world r3.1 MAX_DEPTH c2.2
  let c4 := ray_color sqrt world r4.1 MAX_DEPTH c3.2
  (acc.1 + c1.1 + c2.1,
    acc.2.1 + c3.1 + c4.1, c4.2)

/-- The body of the main loop of `ray_trace_u8_a2`. -/
def ray_trace_u8_a2_body (acc : color α × color α × RandState) :
    color α × color α × RandState :=
  let u1 := draw_u RAND_MAX i acc.2.2
  let u2 := draw_u RAND_MAX i u1.2
  let u3 := draw_u RAND_MAX i u2.2
  let u4 := draw_u RAND_MAX i u3.2
  let u5 := draw_u RAND_MAX i u4.2
  let u6 := draw_u RAND_MAX i u5.2
  let u7 := draw_u RAND_MAX i u6.2
  let u8 := draw_u RAND_MAX i u7.2
  let v1 := draw_v RAND_MAX j u8.2
  let v2 := draw_v RAND_MAX j v1.2
  let v3 := draw_v RAND_MAX j v2.2
  let v4 := draw_v RAND_MAX j v3.2
  let v5 := draw_v RAND_MAX j v4.2
  let v6 := draw_v RAND_MAX j v5.2
  let v7 := draw_v RAND_MAX j v6.2
  let v8 := draw_v RAND_MAX j v7.2
  let r1 := cam.get_ray u1.1 v1.1 v8.2
  let r2 := cam.get_ray u2.1 v2.1 r1.2
  let r3 := cam.get_ray u3.1 v3.1 r2.2
  let r4 := cam.get_ray u4.1 v4.1 r3.2
  let r5 := cam.get_ray u5.1 v5.1 r4.2
  let r6 := cam.get_ray u6.1 v6.1 r5.2
  let r7 := cam.get_ray u7.1 v7.1 r6.2
  let r8 := cam.get_ray u8.1 v8.1 r7.2
  let c1 := ray_color sqrt world r1.1 MAX_DEPTH r8.2
  let c2 := ray_color sqrt world r2.1 MAX_DEPTH c1.2
  let c3 := ray_color sqrt world r3.1 MAX_DEPTH c2.2
  let c4 := ray_color sqrt world r4.1 MAX_DEPTH c3.2
  let c5 := ray_color sqrt world r5.1 MAX_DEPTH c4.2
  let c6 := ray_color sqrt world r6.1 MAX_DEPTH c5.2
  let c7 := ray_color sqrt world r7.1 MAX_DEPTH c6.2
  let c8 := ray_color sqrt world r8.1 MAX_DEPTH c7.2
  (acc.1 + c1.1 + c2.1 + c3.1 + c4.1,
    acc.2.1 + c5.1 + c6.1 + c7.1 + c8.1, c8.2)

/-- The function `ray_trace_unopt` ("No loop unrolling or accumulators"), with `N` for
`SAMPLES_PER_PIXEL`. The result is the buffer after the assignment and the `rand()` state. -/
def ray_trace_unopt (N : Nat) (pixel_colors : Int → color α) (g : RandState) :
    (Int → color α) × RandState :=
  let fin := for_loop 1 (by decide) N (sample_body sqrt RAND_MAX cam world i j) 0
    ((⟨0, 0, 0⟩ : color α), g)
  (Function.update pixel_colors (pixel_index i j) ⟨fin.1.x, fin.1.y, fin.1.z⟩, fin.2)

/-- The function `ray_trace_u2` ("Loop unrolling x2"). -/
def ray_trace_u2 (N : Nat) (pixel_colors : Int → color α) (g : RandState) :
    (Int → color α) × RandState :=
  let main := for_loop 2 (by decide) N (ray_trace_u2_body sqrt RAND_MAX cam world i j) 0
    ((⟨0, 0, 0⟩ : color α), g)
  let fin := if N % 2 ≠ 0 then sample_body sqrt RAND_MAX cam world i j main else main
  (Function.update pixel_colors (pixel_index i j) ⟨fin.1.x, fin.1.y, fin.1.z⟩, fin.2)

/-- The function `ray_trace_u4` ("Loop unrolling x4"). -/
def ray_trace_u4 (N : Nat) (pixel_colors : Int → color α) (g : RandState) :
    (Int → color α) × RandState :=
  let main := for_loop 4 (by decide) N (ray_trace_u4_body sqrt RAND_MAX cam world i j) 0
    ((⟨0, 0, 0⟩ : color α), g)
  let fin := for_loop 1 (by decide) (N % 4) (sample_body sqrt RAND_MAX cam world i j) 0 main
  (Function.update pixel_colors (pixel_index i j) ⟨fin.1.x, fin.1.y, fin.1.z⟩, fin.2)

/-- The function `ray_trace_u8` ("Loop unrolling x8"). -/
def ray_trace_u8 (N : Nat) (pixel_colors : Int → color α) (g : RandState) :
    (Int → color α) × RandState :=
  let main := for_loop 8 (by decide) N (ray_trace_u8_body sqrt RAND_MAX cam world i j) 0
    ((⟨0, 0, 0⟩ : color α), g)
  let fin := for_loop 1 (by decide) (N % 8) (sample_body sqrt RAND_MAX cam world i j) 0 main
  (Function.update pixel_colors (pixel_index i j) ⟨fin.1.x, fin.1.y, fin.1.z⟩, fin.2)

/-- The function `ray_trace_u2_a2` ("Loop unrolling x2, 2 accumulators"). -/
def ray_trace_u2_a2 (N : Nat) (pixel_colors : Int → color α) (g : RandState) :
    (Int → color α) × RandState :=
  let main := for_loop 2 (by decide) N (ray_trace_u2_a2_body sqrt RAND_MAX cam world i j) 0
    ((⟨0, 0, 0⟩ : color α), (⟨0, 0, 0⟩ : color α), g)
  let fin := if N % 2 ≠ 0 then sample_body_a2 sqrt RAND_MAX cam world i j main else main
  (Function.update pixel_colors (pixel_index i j)
    ⟨fin.1.x + fin.2.1.x, fin.1.y + fin.2.1.y, fin.1.z + fin.2.1.z⟩, fin.2.2)

/-- The function `ray_trace_u4_a2` ("Loop unrolling x4, 2 accumulators"). -/
def ray_trace_u4_a2 (N : Nat) (pixel_colors : Int → color α) (g : RandState) :
    (Int → color α) × RandState :=
  let main := for_loop 4 (by decide) N (ray_trace_u4_a2_body sqrt RAND_MAX cam world i j) 0
    ((⟨0, 0, 0⟩ : color α), (⟨0, 0, 0⟩ : color α), g)
  let fin := for_loop 1 (by decide) (N % 4) (sample_body_a2 sqrt RAND_MAX cam world i j) 0 main
  (Function.update pixel_colors (pixel_index i j)
    ⟨fin.1.x + fin.2.1.x, fin.1.y + fin.2.1.y, fin.1.z + fin.2.1.z⟩, fin.2.2)

/-- The function `ray_trace_u8_a2` ("Loop unrolling x8, 2 accumulators"). -/
def ray_trace_u8_a2 (N : Nat) (pixel_colors : Int → color α) (g : RandState) :
    (Int → color α) × RandState :=
  let main := for_loop 8 (by decide) N (ray_trace_u8_a2_body sqrt RAND_MAX cam world i j) 0
    ((⟨0, 0, 0⟩ : color α), (⟨0, 0, 0⟩ : color α), g)
  let fin := for_loop 1 (by decide) (N % 8) (sample_body_a2 sqrt RAND_MAX cam world i j) 0 main
  (Function.update pixel_colors (pixel_index i j)
    ⟨fin.1.x + fin.2.1.x, fin.1.y + fin.2.1.y, fin.1.z + fin.2.1.z⟩, fin.2.2)

end Sampling

section Driver

variable {α M : Type} [LinearOrderedField α]

/-- The type `ray_function`, `void (*)(camera &, hittable_list &, color[], int, int)`, with
the buffer and the `rand()` state it changes returned as the result. -/
abbrev ray_function (α M : Type) :=
  camera α → hittable α M → (Int → color α) → Int → Int → RandState →
    (Int → color α) × RandState

/-- The table `functions[7]` of `main`, for `SAMPLES_PER_PIXEL = N`. -/
def functions (sqrt : α → α) (RAND_MAX : Nat) (N : Nat) : List (ray_function α M) :=
  [fun cam world pixel_colors i j g => ray_trace_unopt sqrt RAND_MAX cam world i j N pixel_colors g,
   fun cam world pixel_colors i j g => ray_trace_u2 sqrt RAND_MAX cam world i j N pixel_colors g,
   fun cam world pixel_colors i j g => ray_trace_u4 sqrt RAND_MAX cam world i j N pixel_colors g,
   fun cam world pixel_colors i j g => ray_trace_u8 sqrt RAND_MAX cam world i j N pixel_colors g,
   fun cam world pixel_colors i j g =>
     ray_trace_u2_a2 sqrt RAND_MAX cam world i j N pixel_colors g,
   fun cam world pixel_colors i j g =>
     ray_trace_u4_a2 sqrt RAND_MAX cam world i j N pixel_colors g,
   fun cam world pixel_colors i j g =>
     ray_trace_u8_a2 sqrt RAND_MAX cam world i j N pixel_colors g]

/-- The function `driver` with `use_threads = 0`, the serial pass: `j` runs from
`IMG_HEIGHT - 1` down to `0`, and for each `j`, `i` runs from `0` up to `IMG_WIDTH - 1`. The
label `name` only goes to the log. -/
def driver (func : ray_function α M) (cam : camera α) (world : hittable α M)
    (pixel_colors : Int → color α) (g : RandState) : (Int → color α) × RandState :=
  (List.range IMG_HEIGHT.toNat).reverse.foldl (fun st (j : Nat) =>
    (List.range IMG_WIDTH.toNat).foldl (fun st (i : Nat) =>
      func cam world st.1 (i : Int) (j : Int) st.2) st) (pixel_colors, g)

/-- The pixels `(i, j)` in the order in which the serial `driver` reaches them. -/
def pixel_order : List (Int × Int) :=
  (List.range IMG_HEIGHT.toNat).reverse.flatMap (fun (j : Nat) =>
    (List.range IMG_WIDTH.toNat).map (fun (i : Nat) => ((i : Int), (j : Int))))

/-- The calls `func(cam, world, pixel_colors, i, j)` for the pixels of a list, one after the
other. -/
def invoke_all (func : ray_function α M) (cam : camera α) (world : hittable α M)
    (pixels : List (Int × Int)) (pixel_colors : Int → color α) (g : RandState) :
    (Int → color α) × RandState :=
  pixels.foldl (fun st p => func cam world st.1 p.1 p.2 st.2) (pixel_colors, g)

end Driver

/-! ## color.h -/

section Color

variable {α : Type} [LinearOrderedField α] [FloorRing α]

/-- The conversion `static_cast<int>(x)` of a `float`: truncation toward zero. -/
def static_cast_int (x : α) : Int :=
  if 0 ≤ x then ⌊x⌋ else ⌈x⌉

/-- The function `write_color` of color.h. The stream `out` is the list of the lines written so
far, a line being its three integers. -/
def write_color (sqrt : α → α) (out : List (Int × Int × Int)) (pixel_color : color α)
    (samples_per_pixel : Int) : List (Int × Int × Int) :=
  let r := pixel_color.x
  let g := pixel_color.y
  let b := pixel_color.z
  let scale := (1.0 : α) / (samples_per_pixel : α)
  let r := sqrt (scale * r)
  let g := sqrt (scale * g)
  let b := sqrt (scale * b)
  out ++ [(static_cast_int (256 * clamp r 0.0 0.999),
           static_cast_int (256 * clamp g 0.0 0.999),
           static_cast_int (256 * clamp b 0.0 0.999))]

/-- The function `write_colors` of color.h: the loop `for (int i = 0; i < len; i++)` over the
buffer cells, with the body of `write_color` repeated in it. -/
def write_colors (sqrt : α → α) (out : List (Int × Int × Int)) (pixel_colors : Int → color α)
    (len : Int) (samples_per_pixel : Int) : List (Int × Int × Int) :=
  (List.range len.toNat).foldl (fun out (i : Nat) =>
    let pixel_color := pixel_colors (i : Int)
    let r := pixel_color.x
    let g := pixel_color.y
    let b := pixel_color.z
    let scale := (1.0 : α) / (samples_per_pixel : α)
    let r := sqrt (scale * r)
    let g := sqrt (scale * g)
    let b := sqrt (scale * b)
    out ++ [(static_cast_int (256 * clamp r 0.0 0.999),
             static_cast_int (256 * clamp g 0.0 0.999),
             static_cast_int (256 * clamp b 0.0 0.999))]) out

end Color

/-! ## Concrete scenes, cameras and random sequences used to evaluate the code -/

/-- A scene with zero surfaces: every `hit` is a miss, and nothing is ever scattered. -/
def empty_world (α : Type) : hittable α Unit :=
  ⟨fun _ _ _ g => (none, g), fun _ _ _ g => (none, g)⟩

/-- A closed scene of perfectly absorbing matter: every ray is hit at its origin and the
material absorbs it. -/
def absorbing_world (α : Type) [LinearOrderedField α] : hittable α Unit :=
  ⟨fun r _ _ g => (some ⟨r.orig, ⟨0, 1, 0⟩, (), 1, true⟩, g), fun _ _ _ g => (none, g)⟩

/-- A closed scene of mirrors: every ray is hit at its origin and scattered straight up, with
attenuation `(1/2, 1/2, 1/2)`. -/
def mirror_world (α : Type) [LinearOrderedField α] : hittable α Unit :=
  ⟨fun r _ _ g => (some ⟨r.orig, ⟨0, 1, 0⟩, (), 1, true⟩, g),
   fun _ _ rec g => (some (⟨1 / 2, 1 / 2, 1 / 2⟩, ⟨rec.p, ⟨0, 1, 0⟩⟩), g)⟩

/-- The `rand()` state that returns `0` forever. -/
def zero_rand : RandState := ⟨fun _ => 0, 0⟩

/-- The color `ray_color` returns on a miss, as a function of the ray direction: the last
three lines of `ray_color`. -/
def sky {α : Type} [LinearOrderedField α] (sqrt : α → α) (d : vec3 α) : color α :=
  let t := 0.5 * ((unit_vector sqrt d).y + 1.0)
  ((1.0 : α) - t) * (⟨1.0, 1.0, 1.0⟩ : color α) + t * (⟨0.5, 0.7, 1.0⟩ : color α)

/-- The relation between the state of a two-accumulator loop and the state of the
one-accumulator loop: same `rand()` state, and the two running sums add up to the one. -/
def acc_rel {α : Type} [LinearOrderedField α] (a : color α × color α × RandState)
    (b : color α × RandState) : Prop :=
  a.1 + a.2.1 = b.1 ∧ a.2.2 = b.2

/-- A test camera: it consumes no random value, and its ray leaves the origin along the `y`
axis with the direction `(0, 264*v - 1, 0)`. -/
def test_camera (α : Type) [LinearOrderedField α] : camera α :=
  ⟨fun _ v g => (⟨⟨0, 0, 0⟩, ⟨0, 264 * v - 1, 0⟩⟩, g)⟩

/-- The `rand()` state whose second value is `16384` and whose other values are `0`. -/
def one_half_rand : RandState := ⟨fun n => if n = 1 then 16384 else 0, 0⟩

/-- The value of `(i + random_float()) / (IMG_WIDTH - 1)` when `rand()` returns `r`. -/
def jitter_u {α : Type} [LinearOrderedField α] (RAND_MAX : Nat) (i : Int) (r : Nat) : α :=
  ((i : α) + (r : α) / ((RAND_MAX : α) + 1)) / (((IMG_WIDTH - 1 : Int) : α))

/-- The value of `(j + random_float()) / (IMG_HEIGHT - 1)` when `rand()` returns `r`. -/
def jitter_v {α : Type} [LinearOrderedField α] (RAND_MAX : Nat) (j : Int) (r : Nat) : α :=
  ((j : α) + (r : α) / ((RAND_MAX : α) + 1)) / (((IMG_HEIGHT - 1 : Int) : α))

/-- The `rand()` state whose values number 1, 2 and 18 (counted from 0) are `16384` and whose
other values are `0`: value 1 is a `v` of `ray_trace_unopt` only, values 2 and 18 are a `v` of
`ray_trace_u2` only. -/
def mixed_rand : RandState := ⟨fun n => if n = 1 ∨ n = 2 ∨ n = 18 then 16384 else 0, 0⟩

/-! ## vec3.h and rtweekend.h: random vectors, reflection and refraction -/

/-- The order in which the three arguments `a`, `b`, `c` of a call `f(a, b, c)` are evaluated.
C++ leaves it to the compiler. The name of a constructor lists the arguments in the order of
their evaluation: `abc` is left to right, `cba` is right to left. -/
inductive call_order
  | abc
  | acb
  | bac
  | bca
  | cab
  | cba
deriving DecidableEq

/-- The turns (`0`, `1` or `2`) at which the first, the second and the third argument of the
call are evaluated. -/
def call_order.turns : call_order → Nat × Nat × Nat
  | .abc => (0, 1, 2)
  | .acb => (0, 2, 1)
  | .bac => (1, 0, 2)
  | .bca => (2, 0, 1)
  | .cab => (1, 2, 0)
  | .cba => (2, 1, 0)

section RandomVectors

variable {α M : Type} [LinearOrderedField α]

/-- The overload `random_float(float min, float max)`: `min + (max - min) * random_float()`. -/
def random_float_range (RAND_MAX : Nat) (min max : α) (g : RandState) : α × RandState :=
  (min + (max - min) * (random_float RAND_MAX g : α × RandState).1,
    (random_float RAND_MAX g : α × RandState).2)

/-- The static member `vec3::random()`. The three calls of `random_float()` are the three
arguments of the constructor: the argument whose turn is `0` receives the first value drawn,
and so on. -/
def vec3.random (order : call_order) (RAND_MAX : Nat) (g : RandState) : vec3 α × RandState :=
  let first : α × RandState := random_float RAND_MAX g
  let second : α × RandState := random_float RAND_MAX first.2
  let third : α × RandState := random_float RAND_MAX second.2
  let value (turn : Nat) : α :=
    if turn = 0 then first.1 else if turn = 1 then second.1 else third.1
  (⟨value order.turns.1, value order.turns.2.1, value order.turns.2.2⟩, third.2)

/-- The static member `vec3::random(float min, float max)`. The three calls of
`random_float(min, max)` are the three arguments of the constructor: the argument whose turn
is `0` receives the first value drawn, and so on. -/
def vec3.random_range (order : call_order) (RAND_MAX : Nat) (min max : α) (g : RandState) :
    vec3 α × RandState :=
  let first := random_float_range RAND_MAX min max g
  let second := random_float_range RAND_MAX min max first.2
  let third := random_float_range RAND_MAX min max second.2
  let value (turn : Nat) : α :=
    if turn = 0 then first.1 else if turn = 1 then second.1 else third.1
  (⟨value order.turns.1, value order.turns.2.1, value order.turns.2.2⟩, third.2)

/-- The function `random_in_unit_sphere`: the loop `while (true)` with at most `fuel` rounds;
`none` when no candidate has been accepted within them. -/
def random_in_unit_sphere (order : call_order) (RAND_MAX : Nat) :
    Nat → RandState → Option (vec3 α × RandState)
  | 0, _ => none
  | fuel + 1, g =>
    let p : vec3 α × RandState := vec3.random_range order RAND_MAX (-1) 1 g
    if p.1.length_squared ≥ 1 then random_in_unit_sphere order RAND_MAX fuel p.2
    else some p

/-- The function `random_in_unit_disk`: the loop `while (true)` with at most `fuel` rounds;
`none` when no candidate has been accepted within them. Of the arguments of
`vec3(random_float(-1, 1), random_float(-1, 1), 0)` the first two call `rand()`: the one with
the earlier turn receives the first value drawn. -/
def random_in_unit_disk (order : call_order) (RAND_MAX : Nat) :
    Nat → RandState → Option (vec3 α × RandState)
  | 0, _ => none
  | fuel + 1, g =>
    let first := random_float_range RAND_MAX (-1 : α) 1 g
    let second := random_float_range RAND_MAX (-1 : α) 1 first.2
    let p : vec3 α :=
      if order.turns.1 < order.turns.2.1 then ⟨first.1, second.1, 0⟩
      else ⟨second.1, first.1, 0⟩
    if p.length_squared ≥ 1 then random_in_unit_disk order RAND_MAX fuel second.2
    else some (p, second.2)

/-- The function `random_unit_vector`: `unit_vector(random_in_unit_sphere())`. -/
def random_unit_vector (sqrt : α → α) (order : call_order) (RAND_MAX : Nat) (fuel : Nat)
    (g : RandState) : Option (vec3 α × RandState) :=
  (random_in_unit_sphere order RAND_MAX fuel g).map (fun p => (unit_vector sqrt p.1, p.2))

/-- A division in which a zero divisor is an error. -/
def checked_div (a b : α) : Option α :=
  if b = 0 then none else some (a / b)

/-- The function `unit_vector` with its three divisions checked: `none` when one of them
divides by zero. -/
def unit_vector_checked (sqrt : α → α) (v : vec3 α) : Option (vec3 α) :=
  match checked_div v.x (v.length sqrt), checked_div v.y (v.length sqrt),
      checked_div v.z (v.length sqrt) with
  | some x, some y, some z => some ⟨x, y, z⟩
  | _, _, _ => none

/-- The function `random_unit_vector` with the divisions of `unit_vector` checked: the outer
`none` is a loop that has not returned within `fuel` rounds, the inner `none` a division by
zero. -/
def random_unit_vector_checked (sqrt : α → α) (order : call_order) (RAND_MAX : Nat)
    (fuel : Nat) (g : RandState) : Option (Option (vec3 α) × RandState) :=
  (random_in_unit_sphere order RAND_MAX fuel g).map
    (fun p => (unit_vector_checked sqrt p.1, p.2))

/-- The function `reflect`: `v - 2 * dot(v, n) * n`. -/
def reflect (v n : vec3 α) : vec3 α :=
  v - (2 * dot v n) * n

/-- The local `cos_theta` of `refract`: `fmin(dot(-uv, n), 1.0)`. -/
def refract_cos_theta (uv n : vec3 α) : α :=
  min (dot (-uv) n) 1.0

/-- The local `r_out_perp` of `refract`. -/
def refract_r_out_perp (uv n : vec3 α) (etai_over_etat : α) : vec3 α :=
  etai_over_etat * (uv + refract_cos_theta uv n * n)

/-- The function `refract`. -/
def refract (sqrt : α → α) (uv n : vec3 α) (etai_over_etat : α) : vec3 α :=
  let cos_theta := min (dot (-uv) n) 1.0
  let r_out_perp := etai_over_etat * (uv + cos_theta * n)
  let r_out_parallel := (-(sqrt (abs (1.0 - r_out_perp.length_squared)))) * n
  r_out_perp + r_out_parallel

/-- A square root in which a negative argument is an error. -/
def checked_sqrt (sqrt : α → α) (x : α) : Option α :=
  if x < 0 then none else some (sqrt x)

/-- The function `refract` with its square root checked: `none` when the argument of the
square root is negative. -/
def refract_checked (sqrt : α → α) (uv n : vec3 α) (etai_over_etat : α) : Option (vec3 α) :=
  let cos_theta := min (dot (-uv) n) 1.0
  let r_out_perp := etai_over_etat * (uv + cos_theta * n)
  match checked_sqrt sqrt (abs (1.0 - r_out_perp.length_squared)) with
  | some s => some (r_out_perp + (-s) * n)
  | none => none

/-- The function `ray_color` with a bound on the nesting of its calls: `fuel` is the number of
recursive calls still allowed, `none` the answer when one more would be needed. -/
def ray_color_fuel (sqrt : α → α) (world : hittable α M) :
    Nat → ray α → Int → RandState → Option (color α × RandState)
  | fuel, r, depth, g =>
    if depth ≤ 0 then
      some (⟨0, 0, 0⟩, g)
    else
      match world.hit r 0.001 ⊤ g with
      | (some rec, g1) =>
        match world.scatter rec.mat_ptr r rec g1 with
        | (some (attenuation, scattered), g2) =>
          match fuel with
          | 0 => none
          | fuel + 1 =>
            (ray_color_fuel sqrt world fuel scattered (depth - 1) g2).map
              (fun c => (attenuation * c.1, c.2))
        | (none, g2) => some (⟨0, 0, 0⟩, g2)
      | (none, g1) =>
        let unit_direction := unit_vector sqrt r.dir
        let t := 0.5 * (unit_direction.y + 1.0)
        some (((1.0 : α) - t) * (⟨1.0, 1.0, 1.0⟩ : color α) + t * (⟨0.5, 0.7, 1.0⟩ : color α), g1)

/-- A bounce chain: starting with ray `r` and `rand()` state `g`, the scene reports a hit and
the material scatters, once for each attenuation of the list in turn; `r'` and `g'` are the
last scattered ray and the state after the last `scatter` (`r` and `g` for the empty list). -/
def bounce_chain (world : hittable α M) :
    List (color α) → ray α → RandState → ray α → RandState → Prop
  | [], r, g, r', g' => r = r' ∧ g = g'
  | a :: rest, r, g, r', g' =>
    ∃ rec g1 scattered g2, world.hit r 0.001 ⊤ g = (some rec, g1) ∧
      world.scatter rec.mat_ptr r rec g1 = (some (a, scattered), g2) ∧
      bounce_chain world rest scattered g2 r' g'

/-- The `rand()` state that returns `16384` forever: every draw is `1/2` for
`RAND_MAX = 32767`. -/
def half_rand : RandState := ⟨fun _ => 16384, 0⟩

end RandomVectors

/-- The `m`-th candidate of `random_in_unit_sphere` started in state `g`: the value of
`vec3::random(-1, 1)` on the three draws from position `g.pos + 3*m`. -/
def sphere_candidate {α : Type} [LinearOrderedField α] (order : call_order) (RAND_MAX : Nat)
    (g : RandState) (m : Nat) : vec3 α :=
  (vec3.random_range order RAND_MAX (-1) 1 ⟨g.seq, g.pos + 3 * m⟩).1

/-- The `m`-th candidate of `random_in_unit_disk` started in state `g`: the two draws from
position `g.pos + 2*m`, mapped by `random_float(-1, 1)` and handed to `x` and `y` in the order
of evaluation, and a zero. -/
def disk_candidate {α : Type} [LinearOrderedField α] (order : call_order) (RAND_MAX : Nat)
    (g : RandState) (m : Nat) : vec3 α :=
  if order.turns.1 < order.turns.2.1 then
    ⟨(random_float_range RAND_MAX (-1 : α) 1 ⟨g.seq, g.pos + 2 * m⟩).1,
     (random_float_range RAND_MAX (-1 : α) 1 ⟨g.seq, g.pos + 2 * m + 1⟩).1, 0⟩
  else
    ⟨(random_float_range RAND_MAX (-1 : α) 1 ⟨g.seq, g.pos + 2 * m + 1⟩).1,
     (random_float_range RAND_MAX (-1 : α) 1 ⟨g.seq, g.pos + 2 * m⟩).1, 0⟩

/-- A scene with one mirror: a ray whose direction has `x = 1` is hit at its origin and
scattered straight up with attenuation `(1/2, 1/2, 1/2)`; every other ray misses. -/
def one_bounce_world (α : Type) [LinearOrderedField α] : hittable α Unit :=
  ⟨fun r _ _ g => if r.dir.x = 1 then (some ⟨r.orig, ⟨0, 1, 0⟩, (), 1, true⟩, g) else (none, g),
   fun _ _ rec g => (some (⟨1 / 2, 1 / 2, 1 / 2⟩, ⟨rec.p, ⟨0, 1, 0⟩⟩), g)⟩

/-- The function `ray_color` with the divisions of `unit_vector` checked: `none` when the miss
branch divides by zero. -/
def ray_color_checked {α M : Type} [LinearOrderedField α] (sqrt : α → α) (world : hittable α M)
    (r : ray α) (depth : Int) (g : RandState) : Option (color α × RandState) :=
  if depth ≤ 0 then
    some (⟨0, 0, 0⟩, g)
  else
    match world.hit r 0.001 ⊤ g with
    | (some rec, g1) =>
      match world.scatter rec.mat_ptr r rec g1 with
      | (some (attenuation, scattered), g2) =>
        (ray_color_checked sqrt world scattered (depth - 1) g2).map
          (fun c => (attenuation * c.1, c.2))
      | (none, g2) => some (⟨0, 0, 0⟩, g2)
    | (none, g1) =>
      (unit_vector_checked sqrt r.dir).map (fun unit_direction =>
        let t := 0.5 * (unit_direction.y + 1.0)
        (((1.0 : α) - t) * (⟨1.0, 1.0, 1.0⟩ : color α) + t * (⟨0.5, 0.7, 1.0⟩ : color α), g1))
termination_by depth.toNat
decreasing_by all_goals omega

/-- A color whose three components lie in `[0, 1]`. -/
def in_unit_range {α : Type} [LinearOrderedField α] (c : color α) : Prop :=
  (0 ≤ c.x ∧ c.x ≤ 1) ∧ (0 ≤ c.y ∧ c.y ≤ 1) ∧ (0 ≤ c.z ∧ c.z ≤ 1)

/-- A scene whose one material scatters into a ray without direction: a ray whose direction
has `x = 1` is hit at its origin and scattered with attenuation `(1, 1, 1)` and direction
`(0, 0, 0)`; every other ray misses. -/
def zero_scatter_world (α : Type) [LinearOrderedField α] : hittable α Unit :=
  ⟨fun r _ _ g => if r.dir.x = 1 then (some ⟨r.orig, ⟨0, 1, 0⟩, (), 1, true⟩, g) else (none, g),
   fun _ _ rec g => (some (⟨1, 1, 1⟩, ⟨rec.p, ⟨0, 0, 0⟩⟩), g)⟩

/-! ## Single precision

The values of a `float` and of a `double` are rational numbers, and an operation of the
program is the exact operation followed by the rounding of its result to the nearest value of
its type, ties to even, which is the IEEE default. Every operation is rounded on its own, as
in a program compiled without fused multiply-add. Infinities and NaN are no values of this
model: a division by zero is the error `none`, and overflow is left out, the evaluations
staying far inside the range of a `float`. -/

/-- The number of binary digits of `n`, counted in at most `fuel` steps. -/
def bit_length_aux : Nat → Nat → Nat
  | 0, _ => 0
  | fuel + 1, n => if n = 0 then 0 else bit_length_aux fuel (n / 2) + 1

/-- The number of binary digits of `n`: `0` for `0`, and `⌊log2 n⌋ + 1` otherwise. -/
def bit_length (n : Nat) : Nat := bit_length_aux n n

/-- The integer `⌊log2 (a / b)⌋` for positive `a` and `b`: the difference of the two bit
lengths or one less. -/
def floor_log2 (a b : Nat) : Int :=
  let e : Int := (bit_length a : Int) - (bit_length b : Int)
  if (if 0 ≤ e then b * 2 ^ e.toNat ≤ a else b ≤ a * 2 ^ (-e).toNat) then e else e - 1

/-- The fraction `a / b` rounded to the nearest integer, a tie going to the even one. -/
def round_half_even (a b : Nat) : Nat :=
  let q := a / b
  let r := a % b
  if 2 * r < b then q else if b < 2 * r then q + 1 else if q % 2 = 0 then q else q + 1

/-- The number `m * 2^s`. -/
def scale2 (m : Nat) (s : Int) : ℚ :=
  if 0 ≤ s then ((m * 2 ^ s.toNat : Nat) : ℚ) else mkRat (m : Int) (2 ^ (-s).toNat)

/-- Rounding to the nearest binary floating-point number with `p` significant bits and least
normal exponent `emin`, ties to even. `s` is the exponent of the last place: `p - 1` below the
exponent of `x`, and never below that of the subnormal numbers. -/
def round_to (p : Nat) (emin : Int) (x : ℚ) : ℚ :=
  if x = 0 then 0 else
  let a := x.num.natAbs
  let b := x.den
  let s : Int := max (floor_log2 a b) emin - ((p : Int) - 1)
  let m := if 0 ≤ s then round_half_even a (b * 2 ^ s.toNat)
    else round_half_even (a * 2 ^ (-s).toNat) b
  if x < 0 then -scale2 m s else scale2 m s

/-- The nearest `float`: IEEE binary32 has 24 significant bits and least normal exponent
`-126`. Every conversion to `float` and every operation on `float`s ends in it. -/
def to_float (x : ℚ) : ℚ := round_to 24 (-126) x

/-- The nearest `double`: IEEE binary64 has 53 significant bits and least normal exponent
`-1022`. -/
def to_double (x : ℚ) : ℚ := round_to 53 (-1022) x

/-- The integer `⌊√n⌋` by bisection, with `lo * lo ≤ n < hi * hi` throughout. -/
def isqrt_aux (n : Nat) : Nat → Nat → Nat → Nat
  | 0, lo, _ => lo
  | fuel + 1, lo, hi =>
    if hi ≤ lo + 1 then lo
    else if (lo + hi) / 2 * ((lo + hi) / 2) ≤ n then isqrt_aux n fuel ((lo + hi) / 2) hi
    else isqrt_aux n fuel lo ((lo + hi) / 2)

/-- The integer `⌊√n⌋`. -/
def isqrt (n : Nat) : Nat := isqrt_aux n (bit_length n + 1) 0 (n + 1)

/-- The square root rounded to the nearest binary floating-point number with `p` significant
bits, ties to even: with `s` the exponent of the last place of the root and `ya / yb` the
argument divided by `4^s`, the root divided by `2^s` lies between `n = ⌊√(ya / yb)⌋` and
`n + 1`, and it is compared with `n + 1/2` by the squares. -/
def sqrt_to (p : Nat) (emin : Int) (x : ℚ) : ℚ :=
  if x ≤ 0 then 0 else
  let a := x.num.natAbs
  let b := x.den
  let s : Int := max (floor_log2 a b / 2) emin - ((p : Int) - 1)
  let ya := if 0 ≤ s then a else a * 4 ^ (-s).toNat
  let yb := if 0 ≤ s then b * 4 ^ s.toNat else b
  let n := isqrt (ya / yb)
  let m := if 4 * ya < (2 * n + 1) ^ 2 * yb then n
    else if (2 * n + 1) ^ 2 * yb < 4 * ya then n + 1
    else if n % 2 = 0 then n else n + 1
  scale2 m s

/-- The function `std::sqrt` on a `float`, which IEEE requires to be correctly rounded. -/
def sqrt_float (x : ℚ) : ℚ := sqrt_to 24 (-126) x

/-- The member `length_squared()` in single precision: three products and two sums, each
rounded. -/
def vec3.length_squared_f32 (v : vec3 ℚ) : ℚ :=
  to_float (to_float (to_float (v.x * v.x) + to_float (v.y * v.y)) + to_float (v.z * v.z))

/-- The member `length()` in single precision. -/
def vec3.length_f32 (v : vec3 ℚ) : ℚ :=
  sqrt_float v.length_squared_f32

/-- The function `unit_vector` in single precision: `none` when the length is zero and the
three divisions are divisions by zero. -/
def unit_vector_f32 (v : vec3 ℚ) : Option (vec3 ℚ) :=
  if v.length_f32 = 0 then none
  else some ⟨to_float (v.x / v.length_f32), to_float (v.y / v.length_f32),
    to_float (v.z / v.length_f32)⟩

/-- The last two lines of `ray_color` in single precision, for the unit direction that
`unit_vector` has returned. The literals `0.5` and `1.0` are `double`s, so `t` and `1.0 - t`
are computed in double precision; they are converted to `float` when they are passed to
`operator*(float, const vec3 &)`, and the products and the sum are `float` operations. -/
def sky_f32 (unit_direction : vec3 ℚ) : color ℚ :=
  let t := to_double (0.5 * to_double (unit_direction.y + 1.0))
  let s := to_float (to_double (1.0 - t))
  let t := to_float t
  ⟨to_float (to_float (s * to_float 1.0) + to_float (t * to_float 0.5)),
   to_float (to_float (s * to_float 1.0) + to_float (t * to_float 0.7)),
   to_float (to_float (s * to_float 1.0) + to_float (t * to_float 1.0))⟩

/-- The function `ray_color` in single precision: `none` when the miss branch divides by
zero. The scene works on `float`s that are given as rational numbers. -/
def ray_color_f32 {M : Type} (world : hittable ℚ M) (r : ray ℚ) (depth : Int)
    (g : RandState) : Option (color ℚ × RandState) :=
  if depth ≤ 0 then
    some (⟨0, 0, 0⟩, g)
  else
    match world.hit r (to_float 0.001) ⊤ g with
    | (some rec, g1) =>
      match world.scatter rec.mat_ptr r rec g1 with
      | (some (attenuation, scattered), g2) =>
        (ray_color_f32 world scattered (depth - 1) g2).map (fun c =>
          ((⟨to_float (attenuation.x * c.1.x), to_float (attenuation.y * c.1.y),
            to_float (attenuation.z * c.1.z)⟩ : color ℚ), c.2))
      | (none, g2) => some (⟨0, 0, 0⟩, g2)
    | (none, g1) =>
      (unit_vector_f32 r.dir).map (fun unit_direction => (sky_f32 unit_direction, g1))
termination_by depth.toNat
decreasing_by all_goals omega

/-- One channel of `write_color` in single precision, for a sample count that is not zero:
`scale = 1.0f / (float)samples_per_pixel`, then `sqrt(scale * c)` and
`static_cast<int>(256 * clamp(..., 0.0, 0.999))`, where `clamp` takes `float`s. -/
def channel_f32 (c : ℚ) (samples_per_pixel : Int) : Int :=
  let scale := to_float (to_float 1.0 / to_float (samples_per_pixel : ℚ))
  let r := sqrt_float (to_float (scale * c))
  static_cast_int (to_float (256 * clamp r (to_float 0.0) (to_float 0.999)))

/-- The function `write_color` of color.h in single precision. -/
def write_color_f32 (out : List (Int × Int × Int)) (pixel_color : color ℚ)
    (samples_per_pixel : Int) : List (Int × Int × Int) :=
  out ++ [(channel_f32 pixel_color.x samples_per_pixel,
           channel_f32 pixel_color.y samples_per_pixel,
           channel_f32 pixel_color.z samples_per_pixel)]

/-- The function `write_colors` of color.h in single precision. -/
def write_colors_f32 (out : List (Int × Int × Int)) (pixel_colors : Int → color ℚ)
    (len : Int) (samples_per_pixel : Int) : List (Int × Int × Int) :=
  (List.range len.toNat).foldl (fun out (i : Nat) =>
    out ++ [(channel_f32 (pixel_colors (i : Int)).x samples_per_pixel,
             channel_f32 (pixel_colors (i : Int)).y samples_per_pixel,
             channel_f32 (pixel_colors (i : Int)).z samples_per_pixel)]) out

/-- The function `random_float()` in single precision: the quotient
`rand() / (RAND_MAX + 1.0)` is a `double`, and the `return` converts it to `float`. -/
def random_float_f32 (RAND_MAX : Nat) (g : RandState) : ℚ × RandState :=
  (to_float (to_double (((rand g).1 : ℚ) / to_double ((RAND_MAX : ℚ) + 1.0))), (rand g).2)

/-- The overload `random_float(float min, float max)` in single precision. -/
def random_float_range_f32 (RAND_MAX : Nat) (min max : ℚ) (g : RandState) : ℚ × RandState :=
  (to_float (min + to_float (to_float (max - min) * (random_float_f32 RAND_MAX g).1)),
    (random_float_f32 RAND_MAX g).2)

/-- The statement `auto u = (i + random_float()) / (IMG_WIDTH - 1);` in single precision:
both `int`s are converted to `float`. -/
def draw_u_f32 (RAND_MAX : Nat) (i : Int) (g : RandState) : ℚ × RandState :=
  (to_float (to_float (to_float (i : ℚ) + (random_float_f32 RAND_MAX g).1)
      / to_float (((IMG_WIDTH - 1 : Int) : ℚ))),
    (random_float_f32 RAND_MAX g).2)

/-- The static member `vec3::random(float min, float max)` in single precision. -/
def vec3.random_range_f32 (order : call_order) (RAND_MAX : Nat) (min max : ℚ)
    (g : RandState) : vec3 ℚ × RandState :=
  let first := random_float_range_f32 RAND_MAX min max g
  let second := random_float_range_f32 RAND_MAX min max first.2
  let third := random_float_range_f32 RAND_MAX min max second.2
  let value (turn : Nat) : ℚ :=
    if turn = 0 then first.1 else if turn = 1 then second.1 else third.1
  (⟨value order.turns.1, value order.turns.2.1, value order.turns.2.2⟩, third.2)

/-- The function `random_in_unit_sphere` in single precision, with at most `fuel` rounds. -/
def random_in_unit_sphere_f32 (order : call_order) (RAND_MAX : Nat) :
    Nat → RandState → Option (vec3 ℚ × RandState)
  | 0, _ => none
  | fuel + 1, g =>
    let p : vec3 ℚ × RandState := vec3.random_range_f32 order RAND_MAX (-1) 1 g
    if p.1.length_squared_f32 ≥ 1 then random_in_unit_sphere_f32 order RAND_MAX fuel p.2
    else some p

/-- The function `random_in_unit_disk` in single precision, with at most `fuel` rounds. -/
def random_in_unit_disk_f32 (order : call_order) (RAND_MAX : Nat) :
    Nat → RandState → Option (vec3 ℚ × RandState)
  | 0, _ => none
  | fuel + 1, g =>
    let first := random_float_range_f32 RAND_MAX (-1) 1 g
    let second := random_float_range_f32 RAND_MAX (-1) 1 first.2
    let p : vec3 ℚ :=
      if order.turns.1 < order.turns.2.1 then ⟨first.1, second.1, 0⟩
      else ⟨second.1, first.1, 0⟩
    if p.length_squared_f32 ≥ 1 then random_in_unit_disk_f32 order RAND_MAX fuel second.2
    else some (p, second.2)

/-- The `rand()` state whose first values are `2^31 - 2^7` and `2^30 + 2^19 - 2^7` and whose
other values are `2^30`: for `RAND_MAX = 2^31 - 1` the draws are `1 - 2^-24`,
`1/2 + 2^-12 - 2^-24` and then `1/2` forever, each of them a `float`. -/
def boundary_rand : RandState :=
  ⟨fun n => if n = 0 then 2147483520 else if n = 1 then 1074265984 else 1073741824, 0⟩

/-- The `rand()` state that returns `2^31 - 2^7` forever: for `RAND_MAX = 2^31 - 1` every draw
is `1 - 2^-24`, the largest `float` below 1. -/
def top_rand : RandState := ⟨fun _ => 2147483520, 0⟩

/-! ## Basic facts about the embedding -/

section Lemmas

variable {α M : Type} [LinearOrderedField α]

@[simp]
theorem vec3.add_def (u v : vec3 α) : u + v = ⟨u.x + v.x, u.y + v.y, u.z + v.z⟩ := rfl

@[simp]
theorem vec3.mul_def (u v : vec3 α) : u * v = ⟨u.x * v.x, u.y * v.y, u.z * v.z⟩ := rfl

@[simp]
theorem vec3.smul_def (t : α) (v : vec3 α) :
    (HMul.hMul t v : vec3 α) = ⟨t * v.x, t * v.y, t * v.z⟩ := rfl

@[simp]
theorem vec3.zero_def : (0 : vec3 α) = ⟨0, 0, 0⟩ := rfl

theorem ray_color_of_nonpos (sqrt : α → α) (world : hittable α M) (r : ray α) (depth : Int)
    (g : RandState) (h : depth ≤ 0) : ray_color sqrt world r depth g = (⟨0, 0, 0⟩, g) := by
  rw [ray_color]
  simp [h]

theorem ray_color_of_miss (sqrt : α → α) (world : hittable α M) (r : ray α) (depth : Int)
    (g g1 : RandState) (h : 0 < depth) (hm : world.hit r 0.001 ⊤ g = (none, g1)) :
    ray_color sqrt world r depth g = (sky sqrt r.dir, g1) := by
  rw [ray_color]
  simp [not_le.mpr h, hm, sky]

theorem ray_color_of_absorb (sqrt : α → α) (world : hittable α M) (r : ray α) (depth : Int)
    (g g1 g2 : RandState) (rec : hit_record α M) (h : 0 < depth)
    (hh : world.hit r 0.001 ⊤ g = (some rec, g1))
    (hs : world.scatter rec.mat_ptr r rec g1 = (none, g2)) :
    ray_color sqrt world r depth g = (⟨0, 0, 0⟩, g2) := by
  rw [ray_color]
  simp [not_le.mpr h, hh, hs]

theorem ray_color_of_scatter (sqrt : α → α) (world : hittable α M) (r : ray α) (depth : Int)
    (g g1 g2 : RandState) (rec : hit_record α M) (attenuation : color α) (scattered : ray α)
    (h : 0 < depth) (hh : world.hit r 0.001 ⊤ g = (some rec, g1))
    (hs : world.scatter rec.mat_ptr r rec g1 = (some (attenuation, scattered), g2)) :
    ray_color sqrt world r depth g =
      (attenuation * (ray_color sqrt world scattered (depth - 1) g2).1,
        (ray_color sqrt world scattered (depth - 1) g2).2) := by
  rw [ray_color]
  simp [not_le.mpr h, hh, hs]

end Lemmas

/-! ## The rounding of single precision at known values -/

/-- The rounding at values whose `float` is known by its bit pattern: `0.1f` is `0x3dcccccd`,
`0.7f` is `0x3f333333`, `0.999f` is `0x3f7fbe77`; `2^24 + 1` lies halfway between two `float`s
and goes to the even one, `2^24`, and `2^24 + 3` goes to `2^24 + 4`; `2^-150` is half of the
least positive `float` `2^-149` and goes to zero, `3 * 2^-150` goes to `2^-148`; the square
roots of `2` and of `3` are `0x3fb504f3` and `0x3fddb3d7`; and `0.1` as a `double` is
`0x3fb999999999999a`. -/
theorem to_float_known_values :
    to_float 0.1 = 13421773 / 2 ^ 27 ∧ to_float 0.7 = 11744051 / 2 ^ 24 ∧
    to_float 0.999 = 16760439 / 2 ^ 24 ∧
    to_float (2 ^ 24 + 1) = 2 ^ 24 ∧ to_float (2 ^ 24 + 3) = 2 ^ 24 + 4 ∧
    to_float (1 / 2 ^ 150) = 0 ∧ to_float (3 / 2 ^ 150) = 1 / 2 ^ 148 ∧
    sqrt_float 2 = 11863283 / 2 ^ 23 ∧ sqrt_float 3 = 14529495 / 2 ^ 23 ∧
    sqrt_float (1 / 4) = 1 / 2 ∧
    to_double 0.1 = 3602879701896397 / 2 ^ 55 := by
  decide!


/-! ## The integrator -/

section IntegratorClaims

variable {α M : Type} [LinearOrderedField α]

/-- C4: for every ray, every scene and every depth that is zero or negative, `ray_color` returns
exactly black `(0, 0, 0)`; the scene is not consulted: the result is the same for every scene
and the `rand()` state comes back untouched. -/
theorem ray_color_black_when_depth_exhausted (sqrt : α → α) (world : hittable α M) (r : ray α)
    (depth : Int) (g : RandState) (h : depth ≤ 0) :
    ray_color sqrt world r depth g = (⟨0, 0, 0⟩, g) :=
  ray_color_of_nonpos sqrt world r depth g h

theorem ray_color_black_when_depth_exhausted_witness :
    ((-3 : Int) ≤ 0 ∧
      ray_color (fun x : ℚ => x) (mirror_world ℚ) ⟨⟨0, 0, 0⟩, ⟨1, 2, 3⟩⟩ (-3) zero_rand
        = (⟨0, 0, 0⟩, zero_rand)) ∧
    ((0 : Int) ≤ 0 ∧
      ray_color (fun x : ℚ => x) (empty_world ℚ) ⟨⟨0, 0, 0⟩, ⟨1, 2, 3⟩⟩ 0 zero_rand
        = (⟨0, 0, 0⟩, zero_rand)) :=
  ⟨⟨by decide, ray_color_black_when_depth_exhausted _ _ _ _ _ (by decide)⟩,
   ⟨by decide, ray_color_black_when_depth_exhausted _ _ _ _ _ (by decide)⟩⟩

/-- C6: for every depth above zero and every ray that the scene reports as hit in
`(0.001, infinity)`: when the hit material's `scatter` absorbs, `ray_color` returns black;
otherwise it returns the component-wise product of the attenuation with
`ray_color(scattered, scene, depth - 1)`, for exactly the attenuation and the scattered ray
that `scatter` produced. -/
theorem ray_color_hit_cases (sqrt : α → α) (world : hittable α M) (r : ray α) (depth : Int)
    (g g1 : RandState) (rec : hit_record α M) (hd : 0 < depth)
    (hh : world.hit r 0.001 ⊤ g = (some rec, g1)) :
    (∀ g2, world.scatter rec.mat_ptr r rec g1 = (none, g2) →
      ray_color sqrt world r depth g = (⟨0, 0, 0⟩, g2)) ∧
    (∀ attenuation scattered g2,
      world.scatter rec.mat_ptr r rec g1 = (some (attenuation, scattered), g2) →
      (ray_color sqrt world r depth g).1 =
        ⟨attenuation.x * (ray_color sqrt world scattered (depth - 1) g2).1.x,
         attenuation.y * (ray_color sqrt world scattered (depth - 1) g2).1.y,
         attenuation.z * (ray_color sqrt world scattered (depth - 1) g2).1.z⟩ ∧
      (ray_color sqrt world r depth g).2 = (ray_color sqrt world scattered (depth - 1) g2).2) := by
  refine ⟨fun g2 hs => ray_color_of_absorb sqrt world r depth g g1 g2 rec hd hh hs, ?_⟩
  intro attenuation scattered g2 hs
  rw [ray_color_of_scatter sqrt world r depth g g1 g2 rec attenuation scattered hd hh hs]
  simp

theorem ray_color_hit_cases_witness :
    ((0 : Int) < 2 ∧
      ray_color (fun x : ℚ => x) (absorbing_world ℚ) ⟨⟨0, 0, 0⟩, ⟨1, 2, 3⟩⟩ 2 zero_rand
        = (⟨0, 0, 0⟩, zero_rand)) ∧
    ((0 : Int) < 2 ∧
      (ray_color (fun x : ℚ => x) (mirror_world ℚ) ⟨⟨0, 0, 0⟩, ⟨1, 2, 3⟩⟩ 2 zero_rand).1 =
        ⟨1 / 2 * (ray_color (fun x : ℚ => x) (mirror_world ℚ)
            ⟨⟨0, 0, 0⟩, ⟨0, 1, 0⟩⟩ (2 - 1) zero_rand).1.x,
         1 / 2 * (ray_color (fun x : ℚ => x) (mirror_world ℚ)
            ⟨⟨0, 0, 0⟩, ⟨0, 1, 0⟩⟩ (2 - 1) zero_rand).1.y,
         1 / 2 * (ray_color (fun x : ℚ => x) (mirror_world ℚ)
            ⟨⟨0, 0, 0⟩, ⟨0, 1, 0⟩⟩ (2 - 1) zero_rand).1.z⟩) :=
  ⟨⟨by decide,
    (ray_color_hit_cases (fun x : ℚ => x) (absorbing_world ℚ) ⟨⟨0, 0, 0⟩, ⟨1, 2, 3⟩⟩ 2
      zero_rand zero_rand ⟨⟨0, 0, 0⟩, ⟨0, 1, 0⟩, (), 1, true⟩ (by decide) rfl).1 zero_rand rfl⟩,
   ⟨by decide,
    ((ray_color_hit_cases (fun x : ℚ => x) (mirror_world ℚ) ⟨⟨0, 0, 0⟩, ⟨1, 2, 3⟩⟩ 2
      zero_rand zero_rand ⟨⟨0, 0, 0⟩, ⟨0, 1, 0⟩, (), 1, true⟩ (by decide) rfl).2
        ⟨1 / 2, 1 / 2, 1 / 2⟩ ⟨⟨0, 0, 0⟩, ⟨0, 1, 0⟩⟩ zero_rand rfl).1⟩⟩

theorem unit_vector_y_scale (c : ℝ) (hc : 0 < c) (d : vec3 ℝ) :
    (unit_vector Real.sqrt (c * d)).y = (unit_vector Real.sqrt d).y := by
  simp only [unit_vector, vec3.length, vec3.length_squared, vec3.smul_def]
  have h1 : c * d.x * (c * d.x) + c * d.y * (c * d.y) + c * d.z * (c * d.z)
      = c * c * (d.x * d.x + d.y * d.y + d.z * d.z) := by ring
  rw [h1, Real.sqrt_mul (mul_self_nonneg c), Real.sqrt_mul_self hc.le]
  exact mul_div_mul_left _ _ hc.ne.symm

theorem ray_color_f32_of_miss {M : Type} (world : hittable ℚ M) (r : ray ℚ) (depth : Int)
    (g g1 : RandState) (h : 0 < depth) (hm : world.hit r (to_float 0.001) ⊤ g = (none, g1)) :
    ray_color_f32 world r depth g
      = (unit_vector_f32 r.dir).map (fun unit_direction => (sky_f32 unit_direction, g1)) := by
  rw [ray_color_f32]
  simp [not_le.mpr h, hm]

/-- C5 (counterexample): in single precision the color of a miss depends on the length of the
direction. On the scene with zero surfaces, at depth 50, the rays with the directions
`(1, 1, 0)` and `(3, 3, 0) = 3 * (1, 1, 0)` get two different colors: `unit_vector` returns
`y = 11863283 / 2^24` for the first and `y = 2965821 / 2^22` for the second. -/
theorem miss_color_depends_on_length_in_single_precision :
    (⟨3, 3, 0⟩ : vec3 ℚ) = (3 : ℚ) * (⟨1, 1, 0⟩ : vec3 ℚ) ∧
    unit_vector_f32 ⟨1, 1, 0⟩ = some ⟨11863283 / 16777216, 11863283 / 16777216, 0⟩ ∧
    unit_vector_f32 ⟨3, 3, 0⟩ = some ⟨2965821 / 4194304, 2965821 / 4194304, 0⟩ ∧
    (ray_color_f32 (empty_world ℚ) ⟨⟨0, 0, 0⟩, ⟨1, 1, 0⟩⟩ MAX_DEPTH zero_rand).map Prod.fst
      = some ⟨2404273 / 4194304, 6240571 / 8388608, 1⟩ ∧
    (ray_color_f32 (empty_world ℚ) ⟨⟨0, 0, 0⟩, ⟨3, 3, 0⟩⟩ MAX_DEPTH zero_rand).map Prod.fst
      = some ⟨9617091 / 16777216, 12481141 / 16777216, 1⟩ ∧
    (ray_color_f32 (empty_world ℚ) ⟨⟨0, 0, 0⟩, ⟨1, 1, 0⟩⟩ MAX_DEPTH zero_rand).map Prod.fst
      ≠ (ray_color_f32 (empty_world ℚ) ⟨⟨0, 0, 0⟩, ⟨3, 3, 0⟩⟩ MAX_DEPTH zero_rand).map
          Prod.fst := by
  have h1 : (ray_color_f32 (empty_world ℚ) ⟨⟨0, 0, 0⟩, ⟨1, 1, 0⟩⟩ MAX_DEPTH zero_rand).map
      Prod.fst = some ⟨2404273 / 4194304, 6240571 / 8388608, 1⟩ := by
    rw [ray_color_f32_of_miss (empty_world ℚ) _ MAX_DEPTH zero_rand zero_rand (by decide) rfl]
    decide!
  have h3 : (ray_color_f32 (empty_world ℚ) ⟨⟨0, 0, 0⟩, ⟨3, 3, 0⟩⟩ MAX_DEPTH zero_rand).map
      Prod.fst = some ⟨9617091 / 16777216, 12481141 / 16777216, 1⟩ := by
    rw [ray_color_f32_of_miss (empty_world ℚ) _ MAX_DEPTH zero_rand zero_rand (by decide) rfl]
    decide!
  refine ⟨by decide!, by decide!, by decide!, h1, h3, ?_⟩
  rw [h1, h3]
  decide!

/-- C5 (amended): on a scene with zero surfaces (`hit` always reports a miss), for every depth
above zero and every ray, `ray_color` returns the value of its miss expression
`(1 - t)*(1, 1, 1) + t*(0.5, 0.7, 1.0)` with `t = 0.5*(unit_vector(d).y + 1)`, whatever the
function `sqrt` computes: the color is a function of the direction `d` alone and does not
depend on the ray origin or on the depth. In exact arithmetic, for every non-zero `d`, the
divisor `|d|` is not zero, `t = 0.5*(d.y/|d| + 1)`, and the color does not depend on the length
of `d` either: any ray whose direction is `c*d` with `c > 0` gets the same color at any
positive depth. -/
theorem ray_color_empty_scene_is_sky {M : Type} (world : hittable ℝ M)
    (hmiss : ∀ r tmin tmax g, (world.hit r tmin tmax g).1 = none)
    (r : ray ℝ) (depth : Int) (g : RandState) (hd : 0 < depth) :
    (∀ sqrt : ℝ → ℝ,
      (ray_color sqrt world r depth g).1 = sky sqrt r.dir ∧
      ∀ (r' : ray ℝ) (depth' : Int) (g' : RandState), 0 < depth' → r'.dir = r.dir →
        (ray_color sqrt world r' depth' g').1 = (ray_color sqrt world r depth g).1) ∧
    (r.dir ≠ ⟨0, 0, 0⟩ →
      Real.sqrt (r.dir.x ^ 2 + r.dir.y ^ 2 + r.dir.z ^ 2) ≠ 0 ∧
      (∃ t : ℝ, t = 0.5 * (r.dir.y / Real.sqrt (r.dir.x ^ 2 + r.dir.y ^ 2 + r.dir.z ^ 2) + 1) ∧
        (ray_color Real.sqrt world r depth g).1 =
          ⟨(1 - t) * 1 + t * 0.5, (1 - t) * 1 + t * 0.7, (1 - t) * 1 + t * 1.0⟩) ∧
      (∀ (r' : ray ℝ) (depth' : Int) (g' : RandState) (c : ℝ), 0 < depth' → 0 < c →
        r'.dir = c * r.dir →
        (ray_color Real.sqrt world r' depth' g').1
          = (ray_color Real.sqrt world r depth g).1)) := by
  have hsky : ∀ (sqrt : ℝ → ℝ) (q : ray ℝ) (n : Int) (s : RandState), 0 < n →
      (ray_color sqrt world q n s).1 = sky sqrt q.dir := by
    intro sqrt q n s hn
    have h1 := hmiss q 0.001 ⊤ s
    rcases hh : world.hit q 0.001 ⊤ s with ⟨o, s1⟩
    rw [hh] at h1
    simp only at h1
    subst h1
    rw [ray_color_of_miss sqrt world q n s s1 hn hh]
  refine ⟨fun sqrt => ⟨hsky sqrt r depth g hd, ?_⟩, fun hdir => ⟨?_, ⟨_, rfl, ?_⟩, ?_⟩⟩
  · intro r' depth' g' hd' hr
    rw [hsky sqrt r depth g hd, hsky sqrt r' depth' g' hd', hr]
  · intro h0
    have hsum : r.dir.x ^ 2 + r.dir.y ^ 2 + r.dir.z ^ 2 = 0 :=
      (Real.sqrt_eq_zero (by positivity)).mp h0
    have hx : r.dir.x = 0 := by nlinarith [sq_nonneg r.dir.x, sq_nonneg r.dir.y, sq_nonneg r.dir.z]
    have hy : r.dir.y = 0 := by nlinarith [sq_nonneg r.dir.x, sq_nonneg r.dir.y, sq_nonneg r.dir.z]
    have hz : r.dir.z = 0 := by nlinarith [sq_nonneg r.dir.x, sq_nonneg r.dir.y, sq_nonneg r.dir.z]
    apply hdir
    rcases hr : r.dir with ⟨a, b, c⟩
    rw [hr] at hx hy hz
    simp only at hx hy hz
    rw [hx, hy, hz]
  · rw [hsky Real.sqrt r depth g hd]
    simp only [sky, unit_vector, vec3.length, vec3.length_squared, vec3.smul_def, vec3.add_def,
      pow_two]
    norm_num
  · intro r' depth' g' c hd' hc hr
    rw [hsky Real.sqrt r depth g hd, hsky Real.sqrt r' depth' g' hd', hr]
    simp only [sky, unit_vector_y_scale c hc]

theorem ray_color_empty_scene_is_sky_witness :
    (0 : Int) < 50 ∧ (⟨0, 1, 0⟩ : vec3 ℝ) ≠ ⟨0, 0, 0⟩ ∧
    (∃ t : ℝ, t = 0.5 * ((1 : ℝ) / Real.sqrt ((0 : ℝ) ^ 2 + (1 : ℝ) ^ 2 + (0 : ℝ) ^ 2) + 1) ∧
      (ray_color Real.sqrt (empty_world ℝ) ⟨⟨0, 0, 0⟩, ⟨0, 1, 0⟩⟩ 50 zero_rand).1 =
        ⟨(1 - t) * 1 + t * 0.5, (1 - t) * 1 + t * 0.7, (1 - t) * 1 + t * 1.0⟩) :=
  ⟨by decide, by simp,
   ((ray_color_empty_scene_is_sky (empty_world ℝ) (fun _ _ _ _ => rfl)
      ⟨⟨0, 0, 0⟩, ⟨0, 1, 0⟩⟩ 50 zero_rand (by decide)).2 (by simp)).2.1⟩

end IntegratorClaims

/-! ## The sampling loops -/

section SamplingLemmas

variable {α M : Type} [LinearOrderedField α]

theorem for_loop_of_lt {β : Type} (step : Nat) (hstep : 0 < step) (N : Nat) (body : β → β)
    (s : Nat) (acc : β) (h : s < N) :
    for_loop step hstep N body s acc = for_loop step hstep N body (s + step) (body acc) := by
  rw [for_loop]
  simp [h]

theorem for_loop_of_ge {β : Type} (step : Nat) (hstep : 0 < step) (N : Nat) (body : β → β)
    (s : Nat) (acc : β) (h : N ≤ s) :
    for_loop step hstep N body s acc = acc := by
  rw [for_loop]
  simp [not_lt.mpr h]

/-- Two loops with the same bounds and step keep any relation that their bodies keep. -/
theorem for_loop_rel {β γ : Type} (R : β → γ → Prop) (step : Nat) (hstep : 0 < step) (N : Nat)
    (f : β → β) (f' : γ → γ) (hR : ∀ a b, R a b → R (f a) (f' b)) :
    ∀ (n s : Nat) (a : β) (b : γ), N - s = n → R a b →
      R (for_loop step hstep N f s a) (for_loop step hstep N f' s b) := by
  intro n
  induction n using Nat.strong_induction_on with
  | _ n ih =>
    intro s a b hn hab
    by_cases hs : s < N
    · rw [for_loop_of_lt step hstep N f s a hs, for_loop_of_lt step hstep N f' s b hs]
      exact ih (N - (s + step)) (by omega) (s + step) (f a) (f' b) rfl (hR a b hab)
    · rw [for_loop_of_ge step hstep N f s a (by omega),
        for_loop_of_ge step hstep N f' s b (by omega)]
      exact hab

variable (sqrt : α → α) (RAND_MAX : Nat) (cam : camera α) (world : hittable α M) (i j : Int)

theorem sample_body_a2_rel (a : color α × color α × RandState) (b : color α × RandState)
    (h : acc_rel a b) :
    acc_rel (sample_body_a2 sqrt RAND_MAX cam world i j a)
      (sample_body sqrt RAND_MAX cam world i j b) := by
  obtain ⟨a1, a2, ga⟩ := a
  obtain ⟨b1, gb⟩ := b
  obtain ⟨h1, h2⟩ := h
  simp only at h1 h2
  subst h1 h2
  refine ⟨?_, rfl⟩
  simp only [sample_body_a2, sample_body]
  ext <;> simp <;> ring

theorem ray_trace_u2_a2_body_rel (a : color α × color α × RandState) (b : color α × RandState)
    (h : acc_rel a b) :
    acc_rel (ray_trace_u2_a2_body sqrt RAND_MAX cam world i j a)
      (ray_trace_u2_body sqrt RAND_MAX cam world i j b) := by
  obtain ⟨a1, a2, ga⟩ := a
  obtain ⟨b1, gb⟩ := b
  obtain ⟨h1, h2⟩ := h
  simp only at h1 h2
  subst h1 h2
  refine ⟨?_, rfl⟩
  simp only [ray_trace_u2_a2_body, ray_trace_u2_body]
  ext <;> simp <;> ring

theorem ray_trace_u4_a2_body_rel (a : color α × color α × RandState) (b : color α × RandState)
    (h : acc_rel a b) :
    acc_rel (ray_trace_u4_a2_body sqrt RAND_MAX cam world i j a)
      (ray_trace_u4_body sqrt RAND_MAX cam world i j b) := by
  obtain ⟨a1, a2, ga⟩ := a
  obtain ⟨b1, gb⟩ := b
  obtain ⟨h1, h2⟩ := h
  simp only at h1 h2
  subst h1 h2
  refine ⟨?_, rfl⟩
  simp only [ray_trace_u4_a2_body, ray_trace_u4_body]
  ext <;> simp <;> ring

theorem ray_trace_u8_a2_body_rel (a : color α × color α × RandState) (b : color α × RandState)
    (h : acc_rel a b) :
    acc_rel (ray_trace_u8_a2_body sqrt RAND_MAX cam world i j a)
      (ray_trace_u8_body sqrt RAND_MAX cam world i j b) := by
  obtain ⟨a1, a2, ga⟩ := a
  obtain ⟨b1, gb⟩ := b
  obtain ⟨h1, h2⟩ := h
  simp only at h1 h2
  subst h1 h2
  refine ⟨?_, rfl⟩
  simp only [ray_trace_u8_a2_body, ray_trace_u8_body]
  ext <;> simp <;> ring

theorem acc_rel_start (g : RandState) :
    acc_rel (((⟨0, 0, 0⟩ : color α), (⟨0, 0, 0⟩ : color α), g))
      (((⟨0, 0, 0⟩ : color α), g)) := by
  refine ⟨?_, rfl⟩
  ext <;> simp

theorem acc_rel_write (a : color α × color α × RandState) (b : color α × RandState)
    (h : acc_rel a b) (pixel_colors : Int → color α) (k : Int) :
    (Function.update pixel_colors k
        (⟨a.1.x + a.2.1.x, a.1.y + a.2.1.y, a.1.z + a.2.1.z⟩ : color α), a.2.2)
      = (Function.update pixel_colors k (⟨b.1.x, b.1.y, b.1.z⟩ : color α), b.2) := by
  obtain ⟨h1, h2⟩ := h
  rw [← h1, h2]
  rfl

theorem ray_trace_u2_a2_eq (N : Nat) (pixel_colors : Int → color α) (g : RandState) :
    ray_trace_u2_a2 sqrt RAND_MAX cam world i j N pixel_colors g
      = ray_trace_u2 sqrt RAND_MAX cam world i j N pixel_colors g := by
  have hmain := for_loop_rel acc_rel 2 (by decide) N _ _
    (ray_trace_u2_a2_body_rel sqrt RAND_MAX cam world i j) N 0 _ _ rfl (acc_rel_start g)
  simp only [ray_trace_u2_a2, ray_trace_u2]
  apply acc_rel_write
  by_cases hN : N % 2 ≠ 0
  · rw [if_pos hN, if_pos hN]
    exact sample_body_a2_rel sqrt RAND_MAX cam world i j _ _ hmain
  · rw [if_neg hN, if_neg hN]
    exact hmain

theorem ray_trace_u4_a2_eq (N : Nat) (pixel_colors : Int → color α) (g : RandState) :
    ray_trace_u4_a2 sqrt RAND_MAX cam world i j N pixel_colors g
      = ray_trace_u4 sqrt RAND_MAX cam world i j N pixel_colors g := by
  have hmain := for_loop_rel acc_rel 4 (by decide) N _ _
    (ray_trace_u4_a2_body_rel sqrt RAND_MAX cam world i j) N 0 _ _ rfl (acc_rel_start g)
  simp only [ray_trace_u4_a2, ray_trace_u4]
  apply acc_rel_write
  exact for_loop_rel acc_rel 1 (by decide) (N % 4) _ _
    (sample_body_a2_rel sqrt RAND_MAX cam world i j) (N % 4) 0 _ _ rfl hmain

theorem ray_trace_u8_a2_eq (N : Nat) (pixel_colors : Int → color α) (g : RandState) :
    ray_trace_u8_a2 sqrt RAND_MAX cam world i j N pixel_colors g
      = ray_trace_u8 sqrt RAND_MAX cam world i j N pixel_colors g := by
  have hmain := for_loop_rel acc_rel 8 (by decide) N _ _
    (ray_trace_u8_a2_body_rel sqrt RAND_MAX cam world i j) N 0 _ _ rfl (acc_rel_start g)
  simp only [ray_trace_u8_a2, ray_trace_u8]
  apply acc_rel_write
  exact for_loop_rel acc_rel 1 (by decide) (N % 8) _ _
    (sample_body_a2_rel sqrt RAND_MAX cam world i j) (N % 8) 0 _ _ rfl hmain

/-- C3: for each unroll factor 2, 4 and 8, every pixel, every sample count and every `rand()`
sequence (and every camera and scene), the two-accumulator variant leaves exactly the buffer
and the `rand()` state that the one-accumulator variant with the same unroll factor leaves, in
exact arithmetic: splitting the running total into two sums that are added at the end does not
change what is written. -/
theorem two_accumulators_write_the_same_sum (N : Nat) (pixel_colors : Int → color α)
    (g : RandState) :
    ray_trace_u2_a2 sqrt RAND_MAX cam world i j N pixel_colors g
      = ray_trace_u2 sqrt RAND_MAX cam world i j N pixel_colors g ∧
    ray_trace_u4_a2 sqrt RAND_MAX cam world i j N pixel_colors g
      = ray_trace_u4 sqrt RAND_MAX cam world i j N pixel_colors g ∧
    ray_trace_u8_a2 sqrt RAND_MAX cam world i j N pixel_colors g
      = ray_trace_u8 sqrt RAND_MAX cam world i j N pixel_colors g :=
  ⟨ray_trace_u2_a2_eq sqrt RAND_MAX cam world i j N pixel_colors g,
   ray_trace_u4_a2_eq sqrt RAND_MAX cam world i j N pixel_colors g,
   ray_trace_u8_a2_eq sqrt RAND_MAX cam world i j N pixel_colors g⟩

/-- C2 (amended): for every pixel, every camera and every scene with its materials, whatever
they draw from `rand()`, every sample count and every `rand()` sequence consumed in program
order: in exact arithmetic the two variants with the same unroll factor, `ray_trace_u2` and
`ray_trace_u2_a2`, `ray_trace_u4` and `ray_trace_u4_a2`, `ray_trace_u8` and `ray_trace_u8_a2`,
write the same pixel sum to the slot of the pixel and leave `rand()` in the same state. -/
theorem same_unroll_factor_same_pixel_sum (N : Nat) (pixel_colors : Int → color α)
    (g : RandState) :
    ((ray_trace_u2 sqrt RAND_MAX cam world i j N pixel_colors g).1 (pixel_index i j)
        = (ray_trace_u2_a2 sqrt RAND_MAX cam world i j N pixel_colors g).1 (pixel_index i j) ∧
      (ray_trace_u2 sqrt RAND_MAX cam world i j N pixel_colors g).2
        = (ray_trace_u2_a2 sqrt RAND_MAX cam world i j N pixel_colors g).2) ∧
    ((ray_trace_u4 sqrt RAND_MAX cam world i j N pixel_colors g).1 (pixel_index i j)
        = (ray_trace_u4_a2 sqrt RAND_MAX cam world i j N pixel_colors g).1 (pixel_index i j) ∧
      (ray_trace_u4 sqrt RAND_MAX cam world i j N pixel_colors g).2
        = (ray_trace_u4_a2 sqrt RAND_MAX cam world i j N pixel_colors g).2) ∧
    ((ray_trace_u8 sqrt RAND_MAX cam world i j N pixel_colors g).1 (pixel_index i j)
        = (ray_trace_u8_a2 sqrt RAND_MAX cam world i j N pixel_colors g).1 (pixel_index i j) ∧
      (ray_trace_u8 sqrt RAND_MAX cam world i j N pixel_colors g).2
        = (ray_trace_u8_a2 sqrt RAND_MAX cam world i j N pixel_colors g).2) := by
  rw [ray_trace_u2_a2_eq, ray_trace_u4_a2_eq, ray_trace_u8_a2_eq]
  exact ⟨⟨rfl, rfl⟩, ⟨rfl, rfl⟩, ⟨rfl, rfl⟩⟩

end SamplingLemmas


/-! ## The formatter -/

section ColorClaims

theorem channel_eq (x : ℝ) (hx : 0 ≤ x) :
    static_cast_int (256 * clamp x 0.0 0.999) = min 255 ⌊256 * x⌋ := by
  unfold clamp static_cast_int
  have h0 : ¬ x < 0.0 := by norm_num; exact hx
  rw [if_neg h0]
  by_cases h1 : x > 0.999
  · rw [if_pos h1]
    have h2 : (0 : ℝ) ≤ 256 * 0.999 := by norm_num
    rw [if_pos h2]
    have h3 : ⌊(256 : ℝ) * 0.999⌋ = 255 := by
      rw [Int.floor_eq_iff]; norm_num
    have h4 : (255 : Int) ≤ ⌊256 * x⌋ := by
      rw [Int.le_floor]
      norm_num at h1 ⊢
      linarith
    rw [h3, min_eq_left h4]
  · rw [if_neg h1]
    have h2 : (0 : ℝ) ≤ 256 * x := by positivity
    rw [if_pos h2]
    have h4 : ⌊256 * x⌋ ≤ (255 : Int) := by
      have : ⌊256 * x⌋ < (256 : Int) := by
        rw [Int.floor_lt]
        norm_num at h1 ⊢
        linarith
      omega
    rw [min_eq_right h4]

theorem channel_eq_clamp (x : ℝ) (hx : 0 ≤ x) :
    min 255 ⌊256 * x⌋ = static_cast_int (clamp (256 * x) 0 255) := by
  unfold clamp static_cast_int
  have h0 : ¬ 256 * x < 0 := by linarith
  rw [if_neg h0]
  by_cases h1 : 256 * x > 255
  · rw [if_pos h1, if_pos (by norm_num)]
    have h4 : (255 : Int) ≤ ⌊256 * x⌋ := by
      rw [Int.le_floor]
      push_cast
      linarith
    rw [min_eq_left h4]
    have : ⌊(255 : ℝ)⌋ = 255 := by
      rw [Int.floor_eq_iff]; norm_num
    rw [this]
  · rw [if_neg h1, if_pos (by linarith)]
    have h4 : ⌊256 * x⌋ ≤ (255 : Int) := by
      have h5 : ((⌊256 * x⌋ : Int) : ℝ) ≤ 256 * x := Int.floor_le _
      have h6 : ((⌊256 * x⌋ : Int) : ℝ) ≤ 255 := by linarith
      exact_mod_cast h6
    rw [min_eq_right h4]

theorem write_colors_eq_map (f : Int → Int × Int × Int) (n : Nat) (out : List (Int × Int × Int)) :
    (List.range n).foldl (fun out (i : Nat) => out ++ [f (i : Int)]) out
      = out ++ (List.range n).map (fun (i : Nat) => f (i : Int)) := by
  induction n with
  | zero => simp
  | succ n ih => simp [List.range_succ, List.foldl_append, ih]

/-- C7 (counterexample): in single precision, for the color whose three channels are the
`float` `8191999 / 2^30` (bit pattern `0x3bf9fffe`) and the configured 20 samples, `write_color`
and `write_colors` print `5 5 5`, while `min(255, floor(256*sqrt(C/N)))` is `4`: the rounded
square root is `5/256`, and `256*sqrt(C/N)` is just below 5. -/
theorem write_color_prints_5_for_4_in_single_precision :
    ((0 : ℚ) ≤ 8191999 / 1073741824 ∧ (0 : Int) < 20) ∧
    write_color_f32 [] ⟨8191999 / 1073741824, 8191999 / 1073741824, 8191999 / 1073741824⟩ 20
      = [(5, 5, 5)] ∧
    write_colors_f32 []
        (fun _ => ⟨8191999 / 1073741824, 8191999 / 1073741824, 8191999 / 1073741824⟩) 1 20
      = [(5, 5, 5)] ∧
    min 255 ⌊256 * Real.sqrt ((8191999 / 1073741824 : ℝ) / ((20 : Int) : ℝ))⌋ = 4 := by
  refine ⟨by decide!, by decide!, by decide!, ?_⟩
  have h : ⌊256 * Real.sqrt ((8191999 / 1073741824 : ℝ) / ((20 : Int) : ℝ))⌋ = 4 := by
    rw [Int.floor_eq_iff]
    constructor
    · have h1 : (4 : ℝ) / 256 ≤ Real.sqrt ((8191999 / 1073741824 : ℝ) / ((20 : Int) : ℝ)) := by
        apply Real.le_sqrt_of_sq_le
        norm_num
      push_cast
      linarith
    · have h2 : Real.sqrt ((8191999 / 1073741824 : ℝ) / ((20 : Int) : ℝ)) < 5 / 256 := by
        rw [Real.sqrt_lt' (by norm_num)]
        norm_num
      push_cast
      linarith
  rw [h]
  decide

/-- C7 (amended): for every sample count `N > 0` and every color, each channel that
`write_color` and `write_colors` emit, `trunc(256 * clamp(r, 0, 0.999))` for the root
`r = sqrt(scale * C)` that the code has computed, is `min(255, floor(256*r))`, which is
`clamp(256*r, 0, 255)` taken as an integer, whenever `r` is not negative and whatever the
function `sqrt` computes. In exact arithmetic `r = sqrt(C/N)`: for non-negative channels the
channel emitted is `min(255, floor(256*sqrt(C/N)))`, which is `clamp(256*sqrt(C/N), 0, 255)`
taken as an integer. -/
theorem write_color_channels (N : Int) (_hN : 0 < N) :
    (∀ r : ℝ, 0 ≤ r →
      static_cast_int (256 * clamp r 0.0 0.999) = min 255 ⌊256 * r⌋ ∧
      min 255 ⌊256 * r⌋ = static_cast_int (clamp (256 * r) 0 255)) ∧
    (∀ (sqrt : ℝ → ℝ) (out : List (Int × Int × Int)) (C : color ℝ),
      0 ≤ sqrt (1.0 / (N : ℝ) * C.x) → 0 ≤ sqrt (1.0 / (N : ℝ) * C.y) →
      0 ≤ sqrt (1.0 / (N : ℝ) * C.z) →
      write_color sqrt out C N =
        out ++ [(min 255 ⌊256 * sqrt (1.0 / (N : ℝ) * C.x)⌋,
                 min 255 ⌊256 * sqrt (1.0 / (N : ℝ) * C.y)⌋,
                 min 255 ⌊256 * sqrt (1.0 / (N : ℝ) * C.z)⌋)]) ∧
    (∀ (out : List (Int × Int × Int)) (C : color ℝ), 0 ≤ C.x → 0 ≤ C.y → 0 ≤ C.z →
      write_color Real.sqrt out C N =
        out ++ [(min 255 ⌊256 * Real.sqrt (C.x / N)⌋, min 255 ⌊256 * Real.sqrt (C.y / N)⌋,
                 min 255 ⌊256 * Real.sqrt (C.z / N)⌋)]) ∧
    (∀ (out : List (Int × Int × Int)) (pixel_colors : Int → color ℝ) (len : Int),
      (∀ k : Int, 0 ≤ k → k < len →
        0 ≤ (pixel_colors k).x ∧ 0 ≤ (pixel_colors k).y ∧ 0 ≤ (pixel_colors k).z) →
      write_colors Real.sqrt out pixel_colors len N =
        out ++ (List.range len.toNat).map (fun (k : Nat) =>
          (min 255 ⌊256 * Real.sqrt ((pixel_colors k).x / N)⌋,
           min 255 ⌊256 * Real.sqrt ((pixel_colors k).y / N)⌋,
           min 255 ⌊256 * Real.sqrt ((pixel_colors k).z / N)⌋))) ∧
    (∀ c : ℝ, 0 ≤ c →
      min 255 ⌊256 * Real.sqrt (c / N)⌋ = static_cast_int (clamp (256 * Real.sqrt (c / N)) 0 255)) := by
  have hform : ∀ c : ℝ, static_cast_int (256 * clamp (Real.sqrt (1.0 / (N : ℝ) * c)) 0.0 0.999)
      = min 255 ⌊256 * Real.sqrt (c / N)⌋ := by
    intro c
    rw [channel_eq _ (Real.sqrt_nonneg _)]
    congr 4
    norm_num
    ring
  refine ⟨fun r hr => ⟨channel_eq r hr, channel_eq_clamp r hr⟩, ?_, ?_, ?_, ?_⟩
  · intro sqrt out C hx hy hz
    simp only [write_color, channel_eq _ hx, channel_eq _ hy, channel_eq _ hz]
  · intro out C _ _ _
    simp only [write_color, hform]
  · intro out pixel_colors len _
    simp only [write_colors, hform]
    exact write_colors_eq_map (fun k =>
      (min 255 ⌊256 * Real.sqrt ((pixel_colors k).x / N)⌋,
       min 255 ⌊256 * Real.sqrt ((pixel_colors k).y / N)⌋,
       min 255 ⌊256 * Real.sqrt ((pixel_colors k).z / N)⌋)) _ _
  · intro c _
    exact channel_eq_clamp _ (Real.sqrt_nonneg _)

theorem write_color_channels_witness :
    (0 : Int) < 20 ∧
    write_color Real.sqrt [] (⟨5, 20, 80⟩ : color ℝ) 20 =
      [] ++ [(min 255 ⌊256 * Real.sqrt ((5 : ℝ) / ((20 : Int) : ℝ))⌋,
              min 255 ⌊256 * Real.sqrt ((20 : ℝ) / ((20 : Int) : ℝ))⌋,
              min 255 ⌊256 * Real.sqrt ((80 : ℝ) / ((20 : Int) : ℝ))⌋)] :=
  ⟨by decide,
   (write_color_channels 20 (by decide)).2.2.1 [] ⟨5, 20, 80⟩ (by norm_num) (by norm_num)
     (by norm_num)⟩

end ColorClaims

/-! ## The pixel buffer -/

section BufferClaims

theorem IMG_HEIGHT_eq : IMG_HEIGHT = 67 := by
  unfold IMG_HEIGHT IMG_WIDTH ASPECT_RATIO
  rw [Int.floor_eq_iff]
  norm_num

theorem pixel_index_injective (i j i' j' : Int)
    (hi0 : 0 ≤ i) (hi : i < IMG_WIDTH) (hi0' : 0 ≤ i') (hi' : i' < IMG_WIDTH)
    (h : pixel_index i' j' = pixel_index i j) : i' = i ∧ j' = j := by
  simp only [pixel_index, IMG_HEIGHT_eq] at h
  unfold IMG_WIDTH at *
  constructor <;> omega

/-- C8: the buffer index `(IMG_HEIGHT - j - 1) * IMG_WIDTH + i` that every variant uses is, for
`0 <= i < IMG_WIDTH` and `0 <= j < IMG_HEIGHT`, within `[0, IMG_WIDTH*IMG_HEIGHT)`; it is
injective on the image (two different pixels never get the same slot); and it is row-major with
row 0 at the top: the quotient by `IMG_WIDTH` is `IMG_HEIGHT - 1 - j`, the remainder is `i`, and
the largest `j` lands in row 0. -/
theorem pixel_index_in_range_injective_row_major (i j : Int)
    (hi0 : 0 ≤ i) (hi : i < IMG_WIDTH) (hj0 : 0 ≤ j) (hj : j < IMG_HEIGHT) :
    (0 ≤ pixel_index i j ∧ pixel_index i j < IMG_WIDTH * IMG_HEIGHT) ∧
    (∀ i' j' : Int, 0 ≤ i' → i' < IMG_WIDTH → 0 ≤ j' → j' < IMG_HEIGHT →
      pixel_index i' j' = pixel_index i j → i' = i ∧ j' = j) ∧
    pixel_index i j / IMG_WIDTH = IMG_HEIGHT - 1 - j ∧
    pixel_index i j % IMG_WIDTH = i ∧
    pixel_index i (IMG_HEIGHT - 1) / IMG_WIDTH = 0 := by
  rw [IMG_HEIGHT_eq] at hj
  simp only [pixel_index, IMG_HEIGHT_eq]
  unfold IMG_WIDTH at *
  refine ⟨⟨by omega, by omega⟩, ?_, by omega, by omega, by omega⟩
  intro i' j' h1 h2 h3 h4 h5
  constructor <;> omega

theorem pixel_index_in_range_injective_row_major_witness :
    ((0 : Int) ≤ 119 ∧ (119 : Int) < IMG_WIDTH ∧ (0 : Int) ≤ 66 ∧ (66 : Int) < IMG_HEIGHT) ∧
    (0 ≤ pixel_index 119 66 ∧ pixel_index 119 66 < IMG_WIDTH * IMG_HEIGHT) ∧
    pixel_index 119 66 / IMG_WIDTH = IMG_HEIGHT - 1 - 66 ∧
    pixel_index 119 66 % IMG_WIDTH = 119 :=
  ⟨⟨by decide, by decide, by decide, by rw [IMG_HEIGHT_eq]; decide⟩,
   (pixel_index_in_range_injective_row_major 119 66 (by decide) (by decide) (by decide)
      (by rw [IMG_HEIGHT_eq]; decide)).1,
   (pixel_index_in_range_injective_row_major 119 66 (by decide) (by decide) (by decide)
      (by rw [IMG_HEIGHT_eq]; decide)).2.2.1,
   (pixel_index_in_range_injective_row_major 119 66 (by decide) (by decide) (by decide)
      (by rw [IMG_HEIGHT_eq]; decide)).2.2.2.1⟩

end BufferClaims


/-! ## The serial driver pass -/

section DriverLemmas

variable {α M : Type}

theorem driver_eq_invoke_all (func : ray_function α M) (cam : camera α) (world : hittable α M)
    (pixel_colors : Int → color α) (g : RandState) :
    driver func cam world pixel_colors g = invoke_all func cam world pixel_order pixel_colors g := by
  unfold driver invoke_all pixel_order
  generalize (List.range IMG_HEIGHT.toNat).reverse = rows
  generalize (pixel_colors, g) = st
  induction rows generalizing st with
  | nil => rfl
  | cons j rows ih =>
    rw [List.foldl_cons, List.flatMap_cons, List.foldl_append, List.foldl_map]
    exact ih _

theorem mem_pixel_order (i j : Int) :
    (i, j) ∈ pixel_order ↔ (0 ≤ i ∧ i < IMG_WIDTH) ∧ (0 ≤ j ∧ j < IMG_HEIGHT) := by
  unfold pixel_order
  rw [IMG_HEIGHT_eq]
  unfold IMG_WIDTH
  simp only [List.mem_flatMap, List.mem_reverse, List.mem_range, List.mem_map, Prod.mk.injEq]
  constructor
  · rintro ⟨b, hb, a, ha, rfl, rfl⟩
    simp at ha hb
    omega
  · rintro ⟨⟨h1, h2⟩, h3, h4⟩
    refine ⟨j.toNat, ?_, i.toNat, ?_, ?_, ?_⟩
    · simp; omega
    · simp; omega
    · omega
    · omega

theorem pixel_order_nodup : pixel_order.Nodup := by
  unfold pixel_order
  rw [List.nodup_flatMap]
  constructor
  · intro j _
    apply List.Nodup.map_on _ (List.nodup_range _)
    intro a _ b _ h
    simp only [Prod.mk.injEq, Nat.cast_inj] at h
    exact h.1
  · rw [List.pairwise_reverse]
    apply List.Pairwise.imp _ (List.nodup_range _)
    intro a b hab
    simp only [Function.onFun, List.Disjoint, List.mem_map]
    rintro p ⟨x, _, rfl⟩ ⟨y, _, h⟩
    simp only [Prod.mk.injEq, Nat.cast_inj] at h
    exact hab h.2

theorem pixel_index_inj_on_order (p q : Int × Int) (hp : p ∈ pixel_order) (hq : q ∈ pixel_order)
    (h : pixel_index p.1 p.2 = pixel_index q.1 q.2) : p = q := by
  obtain ⟨i, j⟩ := p
  obtain ⟨i', j'⟩ := q
  rw [mem_pixel_order] at hp hq
  have := pixel_index_injective i' j' i j hq.1.1 hq.1.2 hp.1.1 hp.1.2 h
  simp only [Prod.mk.injEq]
  exact this

theorem invoke_all_cons (func : ray_function α M) (cam : camera α) (world : hittable α M)
    (p : Int × Int) (pixels : List (Int × Int)) (buf : Int → color α) (g : RandState) :
    invoke_all func cam world (p :: pixels) buf g
      = invoke_all func cam world pixels (func cam world buf p.1 p.2 g).1
          (func cam world buf p.1 p.2 g).2 := rfl

theorem invoke_all_append (func : ray_function α M) (cam : camera α) (world : hittable α M)
    (before after : List (Int × Int)) (buf : Int → color α) (g : RandState) :
    invoke_all func cam world (before ++ after) buf g
      = invoke_all func cam world after (invoke_all func cam world before buf g).1
          (invoke_all func cam world before buf g).2 := by
  simp only [invoke_all, List.foldl_append]

theorem invoke_all_state (func : ray_function α M) (cam : camera α) (world : hittable α M)
    (hf : ∀ buf buf0 i j s, func cam world buf i j s =
      (Function.update buf (pixel_index i j) ((func cam world buf0 i j s).1 (pixel_index i j)),
        (func cam world buf0 i j s).2))
    (pixels : List (Int × Int)) :
    ∀ (buf buf' : Int → color α) (g : RandState),
      (invoke_all func cam world pixels buf g).2 = (invoke_all func cam world pixels buf' g).2 := by
  induction pixels with
  | nil => intro buf buf' g; rfl
  | cons p pixels ih =>
    intro buf buf' g
    have h2 : (func cam world buf p.1 p.2 g).2 = (func cam world buf' p.1 p.2 g).2 := by
      rw [hf buf buf' p.1 p.2 g]
    rw [invoke_all_cons, invoke_all_cons, h2]
    exact ih _ _ _

theorem invoke_all_frame (func : ray_function α M) (cam : camera α) (world : hittable α M)
    (hf : ∀ buf buf0 i j s, func cam world buf i j s =
      (Function.update buf (pixel_index i j) ((func cam world buf0 i j s).1 (pixel_index i j)),
        (func cam world buf0 i j s).2))
    (pixels : List (Int × Int)) (k : Int)
    (hk : ∀ p ∈ pixels, pixel_index p.1 p.2 ≠ k) :
    ∀ (buf : Int → color α) (g : RandState),
      (invoke_all func cam world pixels buf g).1 k = buf k := by
  induction pixels with
  | nil => intro buf g; rfl
  | cons p pixels ih =>
    intro buf g
    rw [invoke_all_cons, ih (fun q hq => hk q (List.mem_cons_of_mem _ hq)),
      hf buf buf p.1 p.2 g]
    exact Function.update_noteq (hk p (List.mem_cons_self _ _)).symm _ _

theorem invoke_all_value (func : ray_function α M) (cam : camera α) (world : hittable α M)
    (hf : ∀ buf buf0 i j s, func cam world buf i j s =
      (Function.update buf (pixel_index i j) ((func cam world buf0 i j s).1 (pixel_index i j)),
        (func cam world buf0 i j s).2))
    (before after : List (Int × Int)) (p : Int × Int)
    (hk : ∀ q ∈ after, pixel_index q.1 q.2 ≠ pixel_index p.1 p.2)
    (buf buf0 : Int → color α) (g : RandState) :
    (invoke_all func cam world (before ++ p :: after) buf g).1 (pixel_index p.1 p.2)
      = (func cam world buf0 p.1 p.2 (invoke_all func cam world before buf g).2).1
          (pixel_index p.1 p.2) := by
  rw [invoke_all_append, invoke_all_cons,
    invoke_all_frame func cam world hf after (pixel_index p.1 p.2) hk,
    hf _ buf0 p.1 p.2 _]
  simp

theorem functions_overwrite [LinearOrderedField α] (sqrt : α → α) (RAND_MAX : Nat) (N : Nat)
    (func : ray_function α M) (hfunc : func ∈ functions sqrt RAND_MAX N)
    (cam : camera α) (world : hittable α M) (buf buf0 : Int → color α) (i j : Int)
    (s : RandState) :
    func cam world buf i j s =
      (Function.update buf (pixel_index i j) ((func cam world buf0 i j s).1 (pixel_index i j)),
        (func cam world buf0 i j s).2) := by
  simp only [functions, List.mem_cons, List.mem_singleton, List.not_mem_nil, or_false] at hfunc
  rcases hfunc with rfl | rfl | rfl | rfl | rfl | rfl | rfl
  · simp only [ray_trace_unopt, Function.update_same]
  · simp only [ray_trace_u2, Function.update_same]
  · simp only [ray_trace_u4, Function.update_same]
  · simp only [ray_trace_u8, Function.update_same]
  · simp only [ray_trace_u2_a2, Function.update_same]
  · simp only [ray_trace_u4_a2, Function.update_same]
  · simp only [ray_trace_u8_a2, Function.update_same]

theorem pixel_order_after_ne (before after : List (Int × Int)) (p : Int × Int)
    (h : pixel_order = before ++ p :: after) :
    ∀ q ∈ after, pixel_index q.1 q.2 ≠ pixel_index p.1 p.2 := by
  intro q hq hidx
  have hnd := pixel_order_nodup
  rw [h] at hnd
  have hp : p ∈ pixel_order := by rw [h]; simp
  have hq' : q ∈ pixel_order := by rw [h]; simp [hq]
  have hqp : q = p := pixel_index_inj_on_order q p hq' hp hidx
  subst hqp
  have h1 := (List.nodup_append.mp hnd).2.1
  exact (List.nodup_cons.mp h1).1 hq

theorem slot_has_pixel (k : Int) (h0 : 0 ≤ k) (h1 : k < IMG_WIDTH * IMG_HEIGHT) :
    ∃ i j, (i, j) ∈ pixel_order ∧ pixel_index i j = k := by
  refine ⟨k % IMG_WIDTH, IMG_HEIGHT - 1 - k / IMG_WIDTH, ?_, ?_⟩
  · rw [mem_pixel_order]
    rw [IMG_HEIGHT_eq] at h1 ⊢
    unfold IMG_WIDTH at *
    omega
  · unfold pixel_index
    rw [IMG_HEIGHT_eq] at h1 ⊢
    unfold IMG_WIDTH at *
    omega

/-- C9: one complete serial `driver` pass with any of the seven variants of `functions` produces
a full image that does not depend on what the buffer held before. Each invocation overwrites
the slot of its own pixel with a value that does not depend on the buffer and leaves every
other slot as it was; the pass is one invocation for each pixel `(i, j)` with
`0 <= i < IMG_WIDTH` and `0 <= j < IMG_HEIGHT` and no other; after the pass the slot of every
pixel holds the sum its invocation computed from the `rand()` state left by the invocations
before it, every slot below `IMG_WIDTH*IMG_HEIGHT` is the slot of such a pixel, and two passes
from the same `rand()` state over different buffers leave the same image and the same state. -/
theorem driver_pass_writes_full_image [LinearOrderedField α] (sqrt : α → α) (RAND_MAX : Nat)
    (N : Nat) (func : ray_function α M) (hfunc : func ∈ functions sqrt RAND_MAX N)
    (cam : camera α) (world : hittable α M) (pixel_colors : Int → color α) (g : RandState) :
    (∀ (buf buf0 : Int → color α) (i j : Int) (s : RandState),
      func cam world buf i j s =
        (Function.update buf (pixel_index i j) ((func cam world buf0 i j s).1 (pixel_index i j)),
          (func cam world buf0 i j s).2)) ∧
    (driver func cam world pixel_colors g
        = invoke_all func cam world pixel_order pixel_colors g ∧
      pixel_order.Nodup ∧
      ∀ i j : Int, (i, j) ∈ pixel_order ↔ (0 ≤ i ∧ i < IMG_WIDTH) ∧ (0 ≤ j ∧ j < IMG_HEIGHT)) ∧
    (∀ (before after : List (Int × Int)) (p : Int × Int), pixel_order = before ++ p :: after →
      (driver func cam world pixel_colors g).1 (pixel_index p.1 p.2)
        = (func cam world pixel_colors p.1 p.2
            (invoke_all func cam world before pixel_colors g).2).1 (pixel_index p.1 p.2)) ∧
    (∀ k : Int, 0 ≤ k → k < IMG_WIDTH * IMG_HEIGHT →
      ∃ i j, (i, j) ∈ pixel_order ∧ pixel_index i j = k) ∧
    (∀ previous : Int → color α,
      (driver func cam world previous g).2 = (driver func cam world pixel_colors g).2 ∧
      ∀ k : Int, 0 ≤ k → k < IMG_WIDTH * IMG_HEIGHT →
        (driver func cam world previous g).1 k = (driver func cam world pixel_colors g).1 k) := by
  have hf := functions_overwrite sqrt RAND_MAX N func hfunc cam world
  have hval : ∀ (buf : Int → color α) (before after : List (Int × Int)) (p : Int × Int),
      pixel_order = before ++ p :: after →
      (driver func cam world buf g).1 (pixel_index p.1 p.2)
        = (func cam world pixel_colors p.1 p.2
            (invoke_all func cam world before pixel_colors g).2).1 (pixel_index p.1 p.2) := by
    intro buf before after p hsplit
    rw [driver_eq_invoke_all, hsplit,
      invoke_all_value func cam world hf before after p
        (pixel_order_after_ne before after p hsplit) buf pixel_colors g,
      invoke_all_state func cam world hf before buf pixel_colors g]
  refine ⟨hf, ⟨driver_eq_invoke_all _ _ _ _ _, pixel_order_nodup, mem_pixel_order⟩,
    hval pixel_colors, slot_has_pixel, ?_⟩
  intro previous
  refine ⟨?_, ?_⟩
  · rw [driver_eq_invoke_all, driver_eq_invoke_all]
    exact invoke_all_state func cam world hf pixel_order previous pixel_colors g
  · intro k h0 h1
    obtain ⟨i, j, hmem, hidx⟩ := slot_has_pixel k h0 h1
    obtain ⟨before, after, hsplit⟩ := List.append_of_mem hmem
    rw [← hidx]
    rw [hval previous before after (i, j) hsplit, hval pixel_colors before after (i, j) hsplit]

theorem driver_pass_writes_full_image_witness :
    ((fun cam world pixel_colors i j g =>
        ray_trace_u8_a2 (fun x : ℚ => x) 32767 cam world i j SAMPLES_PER_PIXEL pixel_colors g)
      ∈ (functions (fun x : ℚ => x) 32767 SAMPLES_PER_PIXEL : List (ray_function ℚ Unit))) ∧
    (driver (fun cam world pixel_colors i j g =>
        ray_trace_u8_a2 (fun x : ℚ => x) 32767 cam world i j SAMPLES_PER_PIXEL pixel_colors g)
      (test_camera ℚ) (empty_world ℚ) (fun _ => ⟨1, 1, 1⟩) zero_rand).2
      = (driver (fun cam world pixel_colors i j g =>
        ray_trace_u8_a2 (fun x : ℚ => x) 32767 cam world i j SAMPLES_PER_PIXEL pixel_colors g)
      (test_camera ℚ) (empty_world ℚ) (fun _ => ⟨0, 0, 0⟩) zero_rand).2 :=
  have hmem : (fun cam world pixel_colors i j g =>
        ray_trace_u8_a2 (fun x : ℚ => x) 32767 cam world i j SAMPLES_PER_PIXEL pixel_colors g)
      ∈ (functions (fun x : ℚ => x) 32767 SAMPLES_PER_PIXEL : List (ray_function ℚ Unit)) := by
    simp [functions]
  ⟨hmem,
   ((driver_pass_writes_full_image (fun x : ℚ => x) 32767 SAMPLES_PER_PIXEL _ hmem
      (test_camera ℚ) (empty_world ℚ) (fun _ => ⟨0, 0, 0⟩) zero_rand).2.2.2.2
        (fun _ => ⟨1, 1, 1⟩)).1⟩

end DriverLemmas


/-! ## The sampling loops when camera and integrator consume no random value -/

section PureSampling

variable {α M : Type} [LinearOrderedField α]

theorem draw_u_eq (RAND_MAX : Nat) (i : Int) (seq : Nat → Nat) (p : Nat) :
    (draw_u RAND_MAX i ⟨seq, p⟩ : α × RandState) = (jitter_u RAND_MAX i (seq p), ⟨seq, p + 1⟩) :=
  rfl

theorem draw_v_eq (RAND_MAX : Nat) (j : Int) (seq : Nat → Nat) (p : Nat) :
    (draw_v RAND_MAX j ⟨seq, p⟩ : α × RandState) = (jitter_v RAND_MAX j (seq p), ⟨seq, p + 1⟩) :=
  rfl

variable (sqrt : α → α) (RAND_MAX : Nat) (cam : camera α) (world : hittable α M) (i j : Int)
  (R : α → α → ray α) (C : ray α → color α)
  (hcam : ∀ u v g, cam.get_ray u v g = (R u v, g))
  (hint : ∀ r g, ray_color sqrt world r MAX_DEPTH g = (C r, g))

include hcam hint

theorem sample_body_pure (acc : color α) (seq : Nat → Nat) (p : Nat) :
    sample_body sqrt RAND_MAX cam world i j (acc, ⟨seq, p⟩)
      = (acc + C (R (jitter_u RAND_MAX i (seq p)) (jitter_v RAND_MAX j (seq (p + 1)))),
          ⟨seq, p + 2⟩) := by
  simp only [sample_body, draw_u_eq, draw_v_eq, hcam, hint]

theorem ray_trace_u2_body_pure (acc : color α) (seq : Nat → Nat) (p : Nat) :
    ray_trace_u2_body sqrt RAND_MAX cam world i j (acc, ⟨seq, p⟩)
      = (acc + C (R (jitter_u RAND_MAX i (seq p)) (jitter_v RAND_MAX j (seq (p + 2))))
             + C (R (jitter_u RAND_MAX i (seq (p + 1))) (jitter_v RAND_MAX j (seq (p + 3)))),
          ⟨seq, p + 4⟩) := by
  simp only [ray_trace_u2_body, draw_u_eq, draw_v_eq, hcam, hint]

theorem ray_trace_u4_body_pure (acc : color α) (seq : Nat → Nat) (p : Nat) :
    ray_trace_u4_body sqrt RAND_MAX cam world i j (acc, ⟨seq, p⟩)
      = (acc + C (R (jitter_u RAND_MAX i (seq p)) (jitter_v RAND_MAX j (seq (p + 4))))
             + C (R (jitter_u RAND_MAX i (seq (p + 1))) (jitter_v RAND_MAX j (seq (p + 5))))
             + C (R (jitter_u RAND_MAX i (seq (p + 2))) (jitter_v RAND_MAX j (seq (p + 6))))
             + C (R (jitter_u RAND_MAX i (seq (p + 3))) (jitter_v RAND_MAX j (seq (p + 7)))),
          ⟨seq, p + 8⟩) := by
  simp only [ray_trace_u4_body, draw_u_eq, draw_v_eq, hcam, hint]

theorem ray_trace_u8_body_pure (acc : color α) (seq : Nat → Nat) (p : Nat) :
    ray_trace_u8_body sqrt RAND_MAX cam world i j (acc, ⟨seq, p⟩)
      = (acc + C (R (jitter_u RAND_MAX i (seq p)) (jitter_v RAND_MAX j (seq (p + 8))))
             + C (R (jitter_u RAND_MAX i (seq (p + 1))) (jitter_v RAND_MAX j (seq (p + 9))))
             + C (R (jitter_u RAND_MAX i (seq (p + 2))) (jitter_v RAND_MAX j (seq (p + 10))))
             + C (R (jitter_u RAND_MAX i (seq (p + 3))) (jitter_v RAND_MAX j (seq (p + 11))))
             + C (R (jitter_u RAND_MAX i (seq (p + 4))) (jitter_v RAND_MAX j (seq (p + 12))))
             + C (R (jitter_u RAND_MAX i (seq (p + 5))) (jitter_v RAND_MAX j (seq (p + 13))))
             + C (R (jitter_u RAND_MAX i (seq (p + 6))) (jitter_v RAND_MAX j (seq (p + 14))))
             + C (R (jitter_u RAND_MAX i (seq (p + 7))) (jitter_v RAND_MAX j (seq (p + 15)))),
          ⟨seq, p + 16⟩) := by
  simp only [ray_trace_u8_body, draw_u_eq, draw_v_eq, hcam, hint]

end PureSampling


/-! ## The sampling loops evaluated at the configured sample count -/

section Evaluation

theorem ray_color_empty_world {α : Type} [LinearOrderedField α] (sqrt : α → α) (r : ray α)
    (g : RandState) :
    ray_color sqrt (empty_world α) r MAX_DEPTH g = (sky sqrt r.dir, g) :=
  ray_color_of_miss sqrt (empty_world α) r MAX_DEPTH g g (by decide) rfl

theorem sky_down :
    sky Real.sqrt (⟨0, 264 * jitter_v 32767 0 0 - 1, 0⟩ : vec3 ℝ) = ⟨1, 1, 1⟩ := by
  simp only [jitter_v, sky, unit_vector, vec3.length, vec3.length_squared, vec3.smul_def,
    vec3.add_def]
  norm_num

theorem sky_up :
    sky Real.sqrt (⟨0, 264 * jitter_v 32767 0 16384 - 1, 0⟩ : vec3 ℝ) = ⟨0.5, 0.7, 1⟩ := by
  simp only [jitter_v, sky, unit_vector, vec3.length, vec3.length_squared, vec3.smul_def,
    vec3.add_def, IMG_HEIGHT_eq]
  norm_num

theorem ray_trace_unopt_eval :
    ray_trace_unopt Real.sqrt 32767 (test_camera ℝ) (empty_world ℝ) 0 0 SAMPLES_PER_PIXEL
        (fun _ => 0) zero_rand
      = (Function.update (fun _ => 0) (pixel_index 0 0) ⟨20, 20, 20⟩, ⟨fun _ => 0, 40⟩) := by
  have hb := sample_body_pure Real.sqrt 32767 (test_camera ℝ) (empty_world ℝ) 0 0
    (fun _ v => ⟨⟨0, 0, 0⟩, ⟨0, 264 * v - 1, 0⟩⟩) (fun r => sky Real.sqrt r.dir)
    (fun _ _ _ => rfl) (fun r g => ray_color_empty_world Real.sqrt r g)
  simp only [ray_trace_unopt, SAMPLES_PER_PIXEL, zero_rand]
  simp [for_loop_of_lt, for_loop_of_ge, hb, sky_down]
  norm_num

theorem ray_trace_u2_eval :
    ray_trace_u2 Real.sqrt 32767 (test_camera ℝ) (empty_world ℝ) 0 0 SAMPLES_PER_PIXEL
        (fun _ => 0) zero_rand
      = (Function.update (fun _ => 0) (pixel_index 0 0) ⟨20, 20, 20⟩, ⟨fun _ => 0, 40⟩) := by
  have hb := ray_trace_u2_body_pure Real.sqrt 32767 (test_camera ℝ) (empty_world ℝ) 0 0
    (fun _ v => ⟨⟨0, 0, 0⟩, ⟨0, 264 * v - 1, 0⟩⟩) (fun r => sky Real.sqrt r.dir)
    (fun _ _ _ => rfl) (fun r g => ray_color_empty_world Real.sqrt r g)
  simp only [ray_trace_u2, SAMPLES_PER_PIXEL, zero_rand]
  simp [for_loop_of_lt, for_loop_of_ge, hb, sky_down]
  norm_num

theorem ray_trace_u4_eval :
    ray_trace_u4 Real.sqrt 32767 (test_camera ℝ) (empty_world ℝ) 0 0 SAMPLES_PER_PIXEL
        (fun _ => 0) zero_rand
      = (Function.update (fun _ => 0) (pixel_index 0 0) ⟨20, 20, 20⟩, ⟨fun _ => 0, 40⟩) := by
  have hb := ray_trace_u4_body_pure Real.sqrt 32767 (test_camera ℝ) (empty_world ℝ) 0 0
    (fun _ v => ⟨⟨0, 0, 0⟩, ⟨0, 264 * v - 1, 0⟩⟩) (fun r => sky Real.sqrt r.dir)
    (fun _ _ _ => rfl) (fun r g => ray_color_empty_world Real.sqrt r g)
  simp only [ray_trace_u4, SAMPLES_PER_PIXEL, zero_rand]
  simp [for_loop_of_lt, for_loop_of_ge, hb, sky_down]
  norm_num

theorem ray_trace_u8_eval :
    ray_trace_u8 Real.sqrt 32767 (test_camera ℝ) (empty_world ℝ) 0 0 SAMPLES_PER_PIXEL
        (fun _ => 0) zero_rand
      = (Function.update (fun _ => 0) (pixel_index 0 0) ⟨28, 28, 28⟩, ⟨fun _ => 0, 56⟩) := by
  have hb := ray_trace_u8_body_pure Real.sqrt 32767 (test_camera ℝ) (empty_world ℝ) 0 0
    (fun _ v => ⟨⟨0, 0, 0⟩, ⟨0, 264 * v - 1, 0⟩⟩) (fun r => sky Real.sqrt r.dir)
    (fun _ _ _ => rfl) (fun r g => ray_color_empty_world Real.sqrt r g)
  have hs := sample_body_pure Real.sqrt 32767 (test_camera ℝ) (empty_world ℝ) 0 0
    (fun _ v => ⟨⟨0, 0, 0⟩, ⟨0, 264 * v - 1, 0⟩⟩) (fun r => sky Real.sqrt r.dir)
    (fun _ _ _ => rfl) (fun r g => ray_color_empty_world Real.sqrt r g)
  simp only [ray_trace_u8, SAMPLES_PER_PIXEL, zero_rand]
  simp [for_loop_of_lt, for_loop_of_ge, hb, hs, sky_down]
  norm_num

/-- C1 (the code at the configured sample count): with `SAMPLES_PER_PIXEL = 20`, on a scene and
a camera for which every sample is white `(1, 1, 1)` and only the jitter consumes random
values, `ray_trace_unopt`, `ray_trace_u2`, `ray_trace_u4` and their two-accumulator forms
write the sum of 20 samples after 40 calls of `rand()`, but `ray_trace_u8` and
`ray_trace_u8_a2` write the sum of 28 samples after 56 calls: the main loop runs for
`s = 0, 8, 16` and the remainder loop adds `20 % 8 = 4` more. -/
theorem ray_trace_u8_takes_28_samples :
    (ray_trace_unopt Real.sqrt 32767 (test_camera ℝ) (empty_world ℝ) 0 0 SAMPLES_PER_PIXEL
        (fun _ => 0) zero_rand
      = (Function.update (fun _ => 0) (pixel_index 0 0) ⟨20, 20, 20⟩, ⟨fun _ => 0, 40⟩)) ∧
    (ray_trace_u2 Real.sqrt 32767 (test_camera ℝ) (empty_world ℝ) 0 0 SAMPLES_PER_PIXEL
        (fun _ => 0) zero_rand
      = (Function.update (fun _ => 0) (pixel_index 0 0) ⟨20, 20, 20⟩, ⟨fun _ => 0, 40⟩)) ∧
    (ray_trace_u4 Real.sqrt 32767 (test_camera ℝ) (empty_world ℝ) 0 0 SAMPLES_PER_PIXEL
        (fun _ => 0) zero_rand
      = (Function.update (fun _ => 0) (pixel_index 0 0) ⟨20, 20, 20⟩, ⟨fun _ => 0, 40⟩)) ∧
    (ray_trace_u8 Real.sqrt 32767 (test_camera ℝ) (empty_world ℝ) 0 0 SAMPLES_PER_PIXEL
        (fun _ => 0) zero_rand
      = (Function.update (fun _ => 0) (pixel_index 0 0) ⟨28, 28, 28⟩, ⟨fun _ => 0, 56⟩)) ∧
    (ray_trace_u2_a2 Real.sqrt 32767 (test_camera ℝ) (empty_world ℝ) 0 0 SAMPLES_PER_PIXEL
        (fun _ => 0) zero_rand
      = (Function.update (fun _ => 0) (pixel_index 0 0) ⟨20, 20, 20⟩, ⟨fun _ => 0, 40⟩)) ∧
    (ray_trace_u4_a2 Real.sqrt 32767 (test_camera ℝ) (empty_world ℝ) 0 0 SAMPLES_PER_PIXEL
        (fun _ => 0) zero_rand
      = (Function.update (fun _ => 0) (pixel_index 0 0) ⟨20, 20, 20⟩, ⟨fun _ => 0, 40⟩)) ∧
    (ray_trace_u8_a2 Real.sqrt 32767 (test_camera ℝ) (empty_world ℝ) 0 0 SAMPLES_PER_PIXEL
        (fun _ => 0) zero_rand
      = (Function.update (fun _ => 0) (pixel_index 0 0) ⟨28, 28, 28⟩, ⟨fun _ => 0, 56⟩)) := by
  refine ⟨ray_trace_unopt_eval, ray_trace_u2_eval, ray_trace_u4_eval, ray_trace_u8_eval,
    ?_, ?_, ?_⟩
  · rw [ray_trace_u2_a2_eq]; exact ray_trace_u2_eval
  · rw [ray_trace_u4_a2_eq]; exact ray_trace_u4_eval
  · rw [ray_trace_u8_a2_eq]; exact ray_trace_u8_eval

theorem ray_trace_unopt_eval_one_half :
    (ray_trace_unopt Real.sqrt 32767 (test_camera ℝ) (empty_world ℝ) 0 0 SAMPLES_PER_PIXEL
        (fun _ => 0) one_half_rand).1 (pixel_index 0 0) = ⟨19.5, 19.7, 20⟩ := by
  have hb := sample_body_pure Real.sqrt 32767 (test_camera ℝ) (empty_world ℝ) 0 0
    (fun _ v => ⟨⟨0, 0, 0⟩, ⟨0, 264 * v - 1, 0⟩⟩) (fun r => sky Real.sqrt r.dir)
    (fun _ _ _ => rfl) (fun r g => ray_color_empty_world Real.sqrt r g)
  simp only [ray_trace_unopt, SAMPLES_PER_PIXEL, one_half_rand]
  simp [for_loop_of_lt, for_loop_of_ge, hb, sky_down, sky_up]
  norm_num

theorem ray_trace_u2_eval_one_half :
    (ray_trace_u2 Real.sqrt 32767 (test_camera ℝ) (empty_world ℝ) 0 0 SAMPLES_PER_PIXEL
        (fun _ => 0) one_half_rand).1 (pixel_index 0 0) = ⟨20, 20, 20⟩ := by
  have hb := ray_trace_u2_body_pure Real.sqrt 32767 (test_camera ℝ) (empty_world ℝ) 0 0
    (fun _ v => ⟨⟨0, 0, 0⟩, ⟨0, 264 * v - 1, 0⟩⟩) (fun r => sky Real.sqrt r.dir)
    (fun _ _ _ => rfl) (fun r g => ray_color_empty_world Real.sqrt r g)
  simp only [ray_trace_u2, SAMPLES_PER_PIXEL, one_half_rand]
  simp [for_loop_of_lt, for_loop_of_ge, hb, sky_down, sky_up]
  norm_num

theorem ray_trace_unopt_eval_mixed :
    (ray_trace_unopt Real.sqrt 32767 (test_camera ℝ) (empty_world ℝ) 0 0 SAMPLES_PER_PIXEL
        (fun _ => 0) mixed_rand).1 (pixel_index 0 0) = ⟨19.5, 19.7, 20⟩ := by
  have hb := sample_body_pure Real.sqrt 32767 (test_camera ℝ) (empty_world ℝ) 0 0
    (fun _ v => ⟨⟨0, 0, 0⟩, ⟨0, 264 * v - 1, 0⟩⟩) (fun r => sky Real.sqrt r.dir)
    (fun _ _ _ => rfl) (fun r g => ray_color_empty_world Real.sqrt r g)
  simp only [ray_trace_unopt, SAMPLES_PER_PIXEL, mixed_rand]
  simp [for_loop_of_lt, for_loop_of_ge, hb, sky_down, sky_up]
  norm_num

theorem ray_trace_u2_eval_mixed :
    (ray_trace_u2 Real.sqrt 32767 (test_camera ℝ) (empty_world ℝ) 0 0 SAMPLES_PER_PIXEL
        (fun _ => 0) mixed_rand).1 (pixel_index 0 0) = ⟨19, 19.4, 20⟩ := by
  have hb := ray_trace_u2_body_pure Real.sqrt 32767 (test_camera ℝ) (empty_world ℝ) 0 0
    (fun _ v => ⟨⟨0, 0, 0⟩, ⟨0, 264 * v - 1, 0⟩⟩) (fun r => sky Real.sqrt r.dir)
    (fun _ _ _ => rfl) (fun r g => ray_color_empty_world Real.sqrt r g)
  simp only [ray_trace_u2, SAMPLES_PER_PIXEL, mixed_rand]
  simp [for_loop_of_lt, for_loop_of_ge, hb, sky_down, sky_up]
  norm_num

theorem ray_trace_u4_eval_mixed :
    (ray_trace_u4 Real.sqrt 32767 (test_camera ℝ) (empty_world ℝ) 0 0 SAMPLES_PER_PIXEL
        (fun _ => 0) mixed_rand).1 (pixel_index 0 0) = ⟨20, 20, 20⟩ := by
  have hb := ray_trace_u4_body_pure Real.sqrt 32767 (test_camera ℝ) (empty_world ℝ) 0 0
    (fun _ v => ⟨⟨0, 0, 0⟩, ⟨0, 264 * v - 1, 0⟩⟩) (fun r => sky Real.sqrt r.dir)
    (fun _ _ _ => rfl) (fun r g => ray_color_empty_world Real.sqrt r g)
  simp only [ray_trace_u4, SAMPLES_PER_PIXEL, mixed_rand]
  simp [for_loop_of_lt, for_loop_of_ge, hb, sky_down, sky_up]
  norm_num

theorem ray_trace_u8_eval_mixed :
    (ray_trace_u8 Real.sqrt 32767 (test_camera ℝ) (empty_world ℝ) 0 0 SAMPLES_PER_PIXEL
        (fun _ => 0) mixed_rand).1 (pixel_index 0 0) = ⟨28, 28, 28⟩ := by
  have hb := ray_trace_u8_body_pure Real.sqrt 32767 (test_camera ℝ) (empty_world ℝ) 0 0
    (fun _ v => ⟨⟨0, 0, 0⟩, ⟨0, 264 * v - 1, 0⟩⟩) (fun r => sky Real.sqrt r.dir)
    (fun _ _ _ => rfl) (fun r g => ray_color_empty_world Real.sqrt r g)
  have hs := sample_body_pure Real.sqrt 32767 (test_camera ℝ) (empty_world ℝ) 0 0
    (fun _ v => ⟨⟨0, 0, 0⟩, ⟨0, 264 * v - 1, 0⟩⟩) (fun r => sky Real.sqrt r.dir)
    (fun _ _ _ => rfl) (fun r g => ray_color_empty_world Real.sqrt r g)
  simp only [ray_trace_u8, SAMPLES_PER_PIXEL, mixed_rand]
  simp [for_loop_of_lt, for_loop_of_ge, hb, hs, sky_down, sky_up]
  norm_num

/-- C2 (counterexample): at the configured 20 samples, for pixel `(0, 0)`, a camera and an empty
scene that consume no random value, and `RAND_MAX = 32767`, the variants do not write the same
sum on the same `rand()` sequence. On `0, 16384, 0, 0, ...` (draws `0, 1/2, 0, 0, ...`)
`ray_trace_unopt` writes `(19.5, 19.7, 20)` and `ray_trace_u2` writes `(20, 20, 20)`: the
second draw is the `v` of the first sample in the plain loop and the `u` of the second sample
in the unrolled one. On the sequence whose values number 1, 2 and 18 are `16384` and whose
other values are `0`, `ray_trace_unopt`, `ray_trace_u2`, `ray_trace_u4` and `ray_trace_u8`
write four different sums. -/
theorem variants_differ_on_same_sequence :
    (ray_trace_unopt Real.sqrt 32767 (test_camera ℝ) (empty_world ℝ) 0 0 SAMPLES_PER_PIXEL
        (fun _ => 0) one_half_rand).1 (pixel_index 0 0)
      ≠ (ray_trace_u2 Real.sqrt 32767 (test_camera ℝ) (empty_world ℝ) 0 0 SAMPLES_PER_PIXEL
        (fun _ => 0) one_half_rand).1 (pixel_index 0 0) ∧
    (ray_trace_unopt Real.sqrt 32767 (test_camera ℝ) (empty_world ℝ) 0 0 SAMPLES_PER_PIXEL
        (fun _ => 0) mixed_rand).1 (pixel_index 0 0) = ⟨19.5, 19.7, 20⟩ ∧
    (ray_trace_u2 Real.sqrt 32767 (test_camera ℝ) (empty_world ℝ) 0 0 SAMPLES_PER_PIXEL
        (fun _ => 0) mixed_rand).1 (pixel_index 0 0) = ⟨19, 19.4, 20⟩ ∧
    (ray_trace_u4 Real.sqrt 32767 (test_camera ℝ) (empty_world ℝ) 0 0 SAMPLES_PER_PIXEL
        (fun _ => 0) mixed_rand).1 (pixel_index 0 0) = ⟨20, 20, 20⟩ ∧
    (ray_trace_u8 Real.sqrt 32767 (test_camera ℝ) (empty_world ℝ) 0 0 SAMPLES_PER_PIXEL
        (fun _ => 0) mixed_rand).1 (pixel_index 0 0) = ⟨28, 28, 28⟩ := by
  refine ⟨?_, ray_trace_unopt_eval_mixed, ray_trace_u2_eval_mixed, ray_trace_u4_eval_mixed,
    ray_trace_u8_eval_mixed⟩
  rw [ray_trace_unopt_eval_one_half, ray_trace_u2_eval_one_half]
  intro h
  have hz := congrArg vec3.x h
  norm_num at hz

end Evaluation


/-! ## The jittered image coordinates -/

section Jitter

/-- C10 (counterexample): with the draw `1/2` (`rand()` returns `16384` for
`RAND_MAX = 32767`), in the last column, `i = 119`, the `u` that the sampling loops pass to
`get_ray` is `239/238`, and in the top row, `j = 66`, the `v` is `133/132`: both are above 1. -/
theorem jittered_u_above_one :
    ((0 : Int) ≤ 119 ∧ (119 : Int) < IMG_WIDTH) ∧
    ((0 : ℚ) ≤ (random_float 32767 ⟨fun _ => 16384, 0⟩ : ℚ × RandState).1 ∧
      (random_float 32767 ⟨fun _ => 16384, 0⟩ : ℚ × RandState).1 < 1) ∧
    (draw_u 32767 119 ⟨fun _ => 16384, 0⟩ : ℚ × RandState).1 = 239 / 238 ∧
    ¬ ((draw_u 32767 119 ⟨fun _ => 16384, 0⟩ : ℚ × RandState).1 ≤ 1) ∧
    ((0 : Int) ≤ 66 ∧ (66 : Int) < IMG_HEIGHT) ∧
    (draw_v 32767 66 ⟨fun _ => 16384, 0⟩ : ℚ × RandState).1 = 133 / 132 ∧
    ¬ ((draw_v 32767 66 ⟨fun _ => 16384, 0⟩ : ℚ × RandState).1 ≤ 1) := by
  refine ⟨⟨by decide, by decide⟩, ?_, ?_, ?_, ⟨by decide, by rw [IMG_HEIGHT_eq]; decide⟩,
    ?_, ?_⟩
  · simp only [random_float, rand]
    norm_num
  · simp only [draw_u, random_float, rand, IMG_WIDTH]
    norm_num
  · simp only [draw_u, random_float, rand, IMG_WIDTH]
    norm_num
  · simp only [draw_v, random_float, rand, IMG_HEIGHT_eq]
    norm_num
  · simp only [draw_v, random_float, rand, IMG_HEIGHT_eq]
    norm_num

/-- C10 (amended): for every pixel `(i, j)` with `0 <= i < IMG_WIDTH` and
`0 <= j < IMG_HEIGHT` and every random draw in `[0, 1)`, and for a draw equal to 1 as well,
the jittered coordinates `u = (i + draw)/(IMG_WIDTH - 1)` and `v = (j + draw)/(IMG_HEIGHT - 1)`
are not negative, `u` is at most 1 in every column but the last, `i = IMG_WIDTH - 1`, and `v`
is at most 1 in every row but the top one, `j = IMG_HEIGHT - 1`. -/
theorem jittered_coordinates_range {α : Type} [LinearOrderedField α] (RAND_MAX : Nat)
    (i j : Int) (g g' : RandState)
    (hi0 : 0 ≤ i) (hi : i < IMG_WIDTH) (hj0 : 0 ≤ j) (hj : j < IMG_HEIGHT)
    (hd : 0 ≤ (random_float RAND_MAX g : α × RandState).1 ∧
      (random_float RAND_MAX g : α × RandState).1 ≤ 1)
    (hd' : 0 ≤ (random_float RAND_MAX g' : α × RandState).1 ∧
      (random_float RAND_MAX g' : α × RandState).1 ≤ 1) :
    (0 ≤ (draw_u RAND_MAX i g : α × RandState).1 ∧
      (i < IMG_WIDTH - 1 → (draw_u RAND_MAX i g : α × RandState).1 ≤ 1)) ∧
    (0 ≤ (draw_v RAND_MAX j g' : α × RandState).1 ∧
      (j < IMG_HEIGHT - 1 → (draw_v RAND_MAX j g' : α × RandState).1 ≤ 1)) := by
  rw [IMG_HEIGHT_eq] at hj ⊢
  unfold IMG_WIDTH at hi ⊢
  simp only [draw_u, draw_v, IMG_HEIGHT_eq, IMG_WIDTH]
  generalize (random_float RAND_MAX g : α × RandState).1 = d at hd ⊢
  generalize (random_float RAND_MAX g' : α × RandState).1 = d' at hd' ⊢
  have hi0' : (0 : α) ≤ (i : α) := by exact_mod_cast hi0
  have hj0' : (0 : α) ≤ (j : α) := by exact_mod_cast hj0
  push_cast
  refine ⟨⟨?_, ?_⟩, ?_, ?_⟩
  · apply div_nonneg <;> linarith
  · intro h
    rw [div_le_one (by norm_num)]
    have : i ≤ 118 := by omega
    have : (i : α) ≤ 118 := by exact_mod_cast this
    linarith
  · apply div_nonneg <;> linarith
  · intro h
    rw [div_le_one (by norm_num)]
    have : j ≤ 65 := by omega
    have : (j : α) ≤ 65 := by exact_mod_cast this
    linarith

theorem jittered_coordinates_range_witness :
    ((0 : Int) ≤ 118 ∧ (118 : Int) < IMG_WIDTH ∧ (0 : Int) ≤ 65 ∧ (65 : Int) < IMG_HEIGHT) ∧
    ((0 : ℚ) ≤ (random_float 32767 ⟨fun _ => 16384, 0⟩ : ℚ × RandState).1 ∧
      (random_float 32767 ⟨fun _ => 16384, 0⟩ : ℚ × RandState).1 ≤ 1) ∧
    ((118 : Int) < IMG_WIDTH - 1 ∧ (65 : Int) < IMG_HEIGHT - 1) ∧
    (0 ≤ (draw_u 32767 118 ⟨fun _ => 16384, 0⟩ : ℚ × RandState).1 ∧
      (draw_u 32767 118 ⟨fun _ => 16384, 0⟩ : ℚ × RandState).1 ≤ 1) ∧
    (0 ≤ (draw_v 32767 65 ⟨fun _ => 16384, 0⟩ : ℚ × RandState).1 ∧
      (draw_v 32767 65 ⟨fun _ => 16384, 0⟩ : ℚ × RandState).1 ≤ 1) :=
  have hd : (0 : ℚ) ≤ (random_float 32767 ⟨fun _ => 16384, 0⟩ : ℚ × RandState).1 ∧
      (random_float 32767 ⟨fun _ => 16384, 0⟩ : ℚ × RandState).1 ≤ 1 := by
    simp only [random_float, rand]
    norm_num
  have hj : (65 : Int) < IMG_HEIGHT := by rw [IMG_HEIGHT_eq]; decide
  have hj1 : (65 : Int) < IMG_HEIGHT - 1 := by rw [IMG_HEIGHT_eq]; decide
  ⟨⟨by decide, by decide, by decide, hj⟩, hd, ⟨by decide, hj1⟩,
   ⟨(jittered_coordinates_range 32767 118 65 ⟨fun _ => 16384, 0⟩ ⟨fun _ => 16384, 0⟩
      (by decide) (by decide) (by decide) hj hd hd).1.1,
    (jittered_coordinates_range 32767 118 65 ⟨fun _ => 16384, 0⟩ ⟨fun _ => 16384, 0⟩
      (by decide) (by decide) (by decide) hj hd hd).1.2 (by decide)⟩,
   ⟨(jittered_coordinates_range 32767 118 65 ⟨fun _ => 16384, 0⟩ ⟨fun _ => 16384, 0⟩
      (by decide) (by decide) (by decide) hj hd hd).2.1,
    (jittered_coordinates_range 32767 118 65 ⟨fun _ => 16384, 0⟩ ⟨fun _ => 16384, 0⟩
      (by decide) (by decide) (by decide) hj hd hd).2.2 hj1⟩⟩

/-- In single precision `u` can exceed `IMG_WIDTH/(IMG_WIDTH - 1)` in the last column: for
`RAND_MAX = 2^31 - 1` and `rand() = 2^31 - 2^7` (the draw `1 - 2^-24`) the sum `119 + draw` is
rounded to `120`, and the quotient `120/119` to the `float` above it. -/
theorem draw_u_f32_last_column :
    (draw_u_f32 2147483647 119 top_rand).1 = 8459101 / 8388608 ∧
    (120 : ℚ) / 119 < (draw_u_f32 2147483647 119 top_rand).1 := by
  decide!

end Jitter

/-! ## The sky gradient -/

section Gradient

theorem ray_color_of_always_miss {α M : Type} [LinearOrderedField α] (sqrt : α → α)
    (world : hittable α M) (hmiss : ∀ r tmin tmax g, (world.hit r tmin tmax g).1 = none)
    (r : ray α) (depth : Int) (g : RandState) (hd : 0 < depth) :
    (ray_color sqrt world r depth g).1 = sky sqrt r.dir := by
  have h1 := hmiss r 0.001 ⊤ g
  rcases hh : world.hit r 0.001 ⊤ g with ⟨o, g1⟩
  rw [hh] at h1
  simp only at h1
  subst h1
  rw [ray_color_of_miss sqrt world r depth g g1 hd hh]

theorem sky_of_up : sky Real.sqrt (⟨0, 1, 0⟩ : vec3 ℝ) = ⟨0.5, 0.7, 1.0⟩ := by
  simp only [sky, unit_vector, vec3.length, vec3.length_squared, vec3.smul_def, vec3.add_def]
  norm_num

theorem sky_of_down : sky Real.sqrt (⟨0, -1, 0⟩ : vec3 ℝ) = ⟨1, 1, 1⟩ := by
  simp only [sky, unit_vector, vec3.length, vec3.length_squared, vec3.smul_def, vec3.add_def]
  norm_num

theorem sky_of_level (d : vec3 ℝ) (hy : d.y = 0) : sky Real.sqrt d = ⟨0.75, 0.85, 1.0⟩ := by
  simp only [sky, unit_vector, vec3.length, vec3.length_squared, vec3.smul_def, vec3.add_def,
    hy]
  norm_num

/-- C11 (counterexample): on the scene with zero surfaces, at depth 50, the horizon-aligned ray
with direction `(1, 0, 0)` gets `(0.75, 0.85, 1.0)`, which is not white. -/
theorem horizon_ray_is_not_white :
    (ray_color Real.sqrt (empty_world ℝ) ⟨⟨0, 0, 0⟩, ⟨1, 0, 0⟩⟩ MAX_DEPTH zero_rand).1
      = ⟨0.75, 0.85, 1.0⟩ ∧
    (ray_color Real.sqrt (empty_world ℝ) ⟨⟨0, 0, 0⟩, ⟨1, 0, 0⟩⟩ MAX_DEPTH zero_rand).1
      ≠ ⟨1, 1, 1⟩ := by
  have h : (ray_color Real.sqrt (empty_world ℝ) ⟨⟨0, 0, 0⟩, ⟨1, 0, 0⟩⟩ MAX_DEPTH zero_rand).1
      = ⟨0.75, 0.85, 1.0⟩ := by
    rw [ray_color_empty_world]
    exact sky_of_level _ rfl
  refine ⟨h, ?_⟩
  rw [h]
  intro h1
  have h2 := congrArg vec3.x h1
  norm_num at h2

/-- C11 (amended): on a scene with zero surfaces and any depth above zero, `ray_color` renders
a vertical gradient whose ends are: a ray pointing straight up (direction `(0, 1, 0)`) gets
exactly `(0.5, 0.7, 1.0)`, a ray pointing straight down (direction `(0, -1, 0)`) gets white
`(1, 1, 1)`, and a horizon-aligned ray (a direction with zero vertical component and squared
length at least `2^-100`) gets the midpoint `(0.75, 0.85, 1.0)`. -/
theorem sky_gradient_ends {M : Type} (world : hittable ℝ M)
    (hmiss : ∀ r tmin tmax g, (world.hit r tmin tmax g).1 = none)
    (r : ray ℝ) (depth : Int) (g : RandState) (hd : 0 < depth) :
    (r.dir = ⟨0, 1, 0⟩ → (ray_color Real.sqrt world r depth g).1 = ⟨0.5, 0.7, 1.0⟩) ∧
    (r.dir = ⟨0, -1, 0⟩ → (ray_color Real.sqrt world r depth g).1 = ⟨1, 1, 1⟩) ∧
    (r.dir.y = 0 → 1 / 2 ^ 100 ≤ r.dir.length_squared →
      (ray_color Real.sqrt world r depth g).1 = ⟨0.75, 0.85, 1.0⟩) := by
  rw [ray_color_of_always_miss Real.sqrt world hmiss r depth g hd]
  refine ⟨?_, ?_, ?_⟩
  · intro h
    rw [h]
    exact sky_of_up
  · intro h
    rw [h]
    exact sky_of_down
  · intro h _
    exact sky_of_level _ h

theorem sky_gradient_ends_witness :
    (0 : Int) < 50 ∧ (1 : ℝ) / 2 ^ 100 ≤ (⟨3, 0, 4⟩ : vec3 ℝ).length_squared ∧
    (ray_color Real.sqrt (empty_world ℝ) ⟨⟨0, 0, 0⟩, ⟨0, 1, 0⟩⟩ 50 zero_rand).1
      = ⟨0.5, 0.7, 1.0⟩ ∧
    (ray_color Real.sqrt (empty_world ℝ) ⟨⟨0, 0, 0⟩, ⟨0, -1, 0⟩⟩ 50 zero_rand).1
      = ⟨1, 1, 1⟩ ∧
    (ray_color Real.sqrt (empty_world ℝ) ⟨⟨0, 0, 0⟩, ⟨3, 0, 4⟩⟩ 50 zero_rand).1
      = ⟨0.75, 0.85, 1.0⟩ :=
  have h : (1 : ℝ) / 2 ^ 100 ≤ (⟨3, 0, 4⟩ : vec3 ℝ).length_squared := by
    norm_num [vec3.length_squared]
  ⟨by decide, h,
   (sky_gradient_ends (empty_world ℝ) (fun _ _ _ _ => rfl) ⟨⟨0, 0, 0⟩, ⟨0, 1, 0⟩⟩ 50 zero_rand
     (by decide)).1 rfl,
   (sky_gradient_ends (empty_world ℝ) (fun _ _ _ _ => rfl) ⟨⟨0, 0, 0⟩, ⟨0, -1, 0⟩⟩ 50 zero_rand
     (by decide)).2.1 rfl,
   (sky_gradient_ends (empty_world ℝ) (fun _ _ _ _ => rfl) ⟨⟨0, 0, 0⟩, ⟨3, 0, 4⟩⟩ 50 zero_rand
     (by decide)).2.2 rfl h⟩

end Gradient

/-! ## Random numbers -/

section RandomClaims

variable {α : Type} [LinearOrderedField α]

theorem random_float_bounds (RAND_MAX : Nat) (g : RandState) (h : (rand g).1 ≤ RAND_MAX) :
    0 ≤ (random_float RAND_MAX g : α × RandState).1 ∧
      (random_float RAND_MAX g : α × RandState).1 < 1 := by
  simp only [random_float]
  have hpos : (0 : α) < (RAND_MAX : α) + 1 := by positivity
  constructor
  · positivity
  · rw [div_lt_one hpos]
    have : ((rand g).1 : α) ≤ (RAND_MAX : α) := by exact_mod_cast h
    linarith

/-- C15: `random_float()` returns a real in `[0, 1)`: whenever the value `r` that `rand()`
returns satisfies `0 <= r <= RAND_MAX`, the result `r / (RAND_MAX + 1)` is at least 0 and
strictly below 1, in exact arithmetic. -/
theorem random_float_in_unit_interval (RAND_MAX : Nat) (g : RandState)
    (h : (rand g).1 ≤ RAND_MAX) :
    (random_float RAND_MAX g : α × RandState).1 = ((rand g).1 : α) / ((RAND_MAX : α) + 1) ∧
    0 ≤ (random_float RAND_MAX g : α × RandState).1 ∧
    (random_float RAND_MAX g : α × RandState).1 < 1 :=
  ⟨rfl, random_float_bounds RAND_MAX g h⟩

theorem random_float_in_unit_interval_witness :
    (rand half_rand).1 ≤ 32767 ∧
    (0 : ℚ) ≤ (random_float 32767 half_rand : ℚ × RandState).1 ∧
    (random_float 32767 half_rand : ℚ × RandState).1 < 1 :=
  ⟨by decide, (random_float_in_unit_interval 32767 half_rand (by decide)).2⟩

theorem random_float_range_bounds (RAND_MAX : Nat) (min max : α) (hlt : min < max)
    (g : RandState)
    (hd : 0 ≤ (random_float RAND_MAX g : α × RandState).1 ∧
      (random_float RAND_MAX g : α × RandState).1 < 1) :
    min ≤ (random_float_range RAND_MAX min max g).1 ∧
      (random_float_range RAND_MAX min max g).1 < max := by
  simp only [random_float_range]
  generalize (random_float RAND_MAX g : α × RandState).1 = d at hd
  constructor
  · nlinarith [mul_nonneg (sub_nonneg.mpr hlt.le) hd.1]
  · nlinarith [mul_lt_mul_of_pos_left hd.2 (sub_pos.mpr hlt)]

theorem random_float_range_state (RAND_MAX : Nat) (min max : α) (seq : Nat → Nat) (p : Nat) :
    (random_float_range RAND_MAX min max ⟨seq, p⟩).2 = ⟨seq, p + 1⟩ := rfl

/-- C16 (the code at the failing input): for `RAND_MAX = 2^31 - 1` and `rand() = 2^31 - 2^7`
the draw of `random_float()` is `1 - 2^-24`, the largest `float` below 1, and
`random_float(0.5, 1)` returns `1`, its `max`: the product `(max - min) * draw = 1/2 - 2^-25`
is exact, and the sum `1 - 2^-25` lies halfway between the `float`s `1 - 2^-24` and `1` and is
rounded to the even one. So do the three components of `vec3::random(0.5, 1)`. In exact
arithmetic the value `min + (max - min) * draw` is below `max`. -/
theorem random_float_range_returns_max_in_single_precision :
    ((1 / 2 : ℚ) < 1 ∧ (rand top_rand).1 ≤ 2147483647) ∧
    ((random_float_f32 2147483647 top_rand).1 = 1 - 1 / 2 ^ 24 ∧
      (random_float 2147483647 top_rand : ℚ × RandState).1 = 1 - 1 / 2 ^ 24) ∧
    (random_float_range 2147483647 (1 / 2 : ℚ) 1 top_rand).1 < 1 ∧
    (random_float_range_f32 2147483647 (1 / 2) 1 top_rand).1 = 1 ∧
    (∀ order : call_order,
      (vec3.random_range_f32 order 2147483647 (1 / 2) 1 top_rand).1 = ⟨1, 1, 1⟩) := by
  refine ⟨by decide!, by decide!, by decide!, by decide!, ?_⟩
  intro order
  cases order <;> decide!

end RandomClaims

/-! ## Reflection and refraction -/

section VectorAlgebra

variable {α : Type} [LinearOrderedField α]

@[simp]
theorem vec3.sub_def (u v : vec3 α) : u - v = ⟨u.x - v.x, u.y - v.y, u.z - v.z⟩ := rfl

@[simp]
theorem vec3.neg_def (v : vec3 α) : -v = ⟨-v.x, -v.y, -v.z⟩ := rfl

/-- C13: `refract` is guarded for every input: for all vectors `uv` and `n`, unit length or
not, and every ratio `etai_over_etat`, the cosine it uses is at most 1 and the argument of its
square root, `|1 - |r_out_perp|^2|`, is at least 0; so with a square root that fails on a
negative argument `refract` never fails, and gives what `refract` gives. -/
theorem refract_is_guarded (sqrt : α → α) (uv n : vec3 α) (etai_over_etat : α) :
    refract_cos_theta uv n ≤ 1 ∧
    0 ≤ abs (1.0 - (refract_r_out_perp uv n etai_over_etat).length_squared) ∧
    refract sqrt uv n etai_over_etat
      = refract_r_out_perp uv n etai_over_etat
        + (-(sqrt (abs (1.0 - (refract_r_out_perp uv n etai_over_etat).length_squared)))) * n ∧
    refract_checked sqrt uv n etai_over_etat = some (refract sqrt uv n etai_over_etat) := by
  refine ⟨?_, abs_nonneg _, rfl, ?_⟩
  · unfold refract_cos_theta
    norm_num
  · simp only [refract_checked, refract, checked_sqrt]
    rw [if_neg (not_lt.mpr (abs_nonneg _))]

/-- C18: `reflect` is the mirror reflection about the normal: for every vector `v` and every
unit vector `n`, the normal component of `reflect(v, n)` is the negated normal component of
`v`, its tangential component is that of `v`, its length is the length of `v`, and reflecting
twice gives `v` back. -/
theorem reflect_is_mirror (v n : vec3 α) (hn : n.length_squared = 1) :
    dot (reflect v n) n = -dot v n ∧
    reflect v n - dot (reflect v n) n * n = v - dot v n * n ∧
    (reflect v n).length_squared = v.length_squared ∧
    (∀ sqrt : α → α, (reflect v n).length sqrt = v.length sqrt) ∧
    reflect (reflect v n) n = v := by
  simp only [vec3.length_squared] at hn
  have h3 : (reflect v n).length_squared = v.length_squared := by
    simp only [reflect, dot, vec3.length_squared, vec3.sub_def, vec3.smul_def]
    linear_combination (4 * (v.x * n.x + v.y * n.y + v.z * n.z) ^ 2) * hn
  refine ⟨?_, ?_, h3, ?_, ?_⟩
  · simp only [reflect, dot, vec3.sub_def, vec3.smul_def]
    linear_combination (-2 * (v.x * n.x + v.y * n.y + v.z * n.z)) * hn
  · simp only [reflect, dot, vec3.sub_def, vec3.smul_def]
    ext
    · simp only
      linear_combination (2 * (v.x * n.x + v.y * n.y + v.z * n.z) * n.x) * hn
    · simp only
      linear_combination (2 * (v.x * n.x + v.y * n.y + v.z * n.z) * n.y) * hn
    · simp only
      linear_combination (2 * (v.x * n.x + v.y * n.y + v.z * n.z) * n.z) * hn
  · intro sqrt
    simp only [vec3.length, h3]
  · simp only [reflect, dot, vec3.sub_def, vec3.smul_def]
    ext
    · simp only
      linear_combination (4 * (v.x * n.x + v.y * n.y + v.z * n.z) * n.x) * hn
    · simp only
      linear_combination (4 * (v.x * n.x + v.y * n.y + v.z * n.z) * n.y) * hn
    · simp only
      linear_combination (4 * (v.x * n.x + v.y * n.y + v.z * n.z) * n.z) * hn

theorem reflect_is_mirror_witness :
    (⟨0, 1, 0⟩ : vec3 ℚ).length_squared = 1 ∧
    dot (reflect (⟨1, 2, 3⟩ : vec3 ℚ) ⟨0, 1, 0⟩) ⟨0, 1, 0⟩ = -dot (⟨1, 2, 3⟩ : vec3 ℚ) ⟨0, 1, 0⟩ ∧
    reflect (reflect (⟨1, 2, 3⟩ : vec3 ℚ) ⟨0, 1, 0⟩) ⟨0, 1, 0⟩ = ⟨1, 2, 3⟩ :=
  ⟨by norm_num [vec3.length_squared],
   (reflect_is_mirror (⟨1, 2, 3⟩ : vec3 ℚ) ⟨0, 1, 0⟩ (by norm_num [vec3.length_squared])).1,
   (reflect_is_mirror (⟨1, 2, 3⟩ : vec3 ℚ) ⟨0, 1, 0⟩
     (by norm_num [vec3.length_squared])).2.2.2.2⟩


theorem dot_add_left (u v w : vec3 α) : dot (u + v) w = dot u w + dot v w := by
  simp only [dot, vec3.add_def]
  ring

theorem dot_add_right (u v w : vec3 α) : dot u (v + w) = dot u v + dot u w := by
  simp only [dot, vec3.add_def]
  ring

theorem dot_smul_left (t : α) (v w : vec3 α) : dot (t * v) w = t * dot v w := by
  simp only [dot, vec3.smul_def]
  ring

theorem dot_smul_right (t : α) (v w : vec3 α) : dot v (t * w) = t * dot v w := by
  simp only [dot, vec3.smul_def]
  ring

theorem dot_neg_left (v w : vec3 α) : dot (-v) w = -dot v w := by
  simp only [dot, vec3.neg_def]
  ring

theorem dot_comm (v w : vec3 α) : dot v w = dot w v := by
  simp only [dot]
  ring

theorem length_squared_eq_dot (v : vec3 α) : v.length_squared = dot v v := rfl

theorem dot_neg_le_one (uv n : vec3 α) (huv : uv.length_squared = 1)
    (hn : n.length_squared = 1) : dot (-uv) n ≤ 1 := by
  simp only [vec3.length_squared] at huv hn
  simp only [dot, vec3.neg_def]
  nlinarith [sq_nonneg (uv.x + n.x), sq_nonneg (uv.y + n.y), sq_nonneg (uv.z + n.z)]

theorem refract_r_out_perp_of_unit (uv n : vec3 α) (eta : α) (huv : uv.length_squared = 1)
    (hn : n.length_squared = 1) :
    refract_r_out_perp uv n eta = eta * (uv + (-dot uv n) * n) := by
  unfold refract_r_out_perp refract_cos_theta
  have h1 : (1.0 : α) = 1 := by norm_num
  rw [h1, min_eq_left (dot_neg_le_one uv n huv hn), dot_neg_left]

theorem refract_r_out_perp_dot (uv n : vec3 α) (eta : α) (huv : uv.length_squared = 1)
    (hn : n.length_squared = 1) : dot (refract_r_out_perp uv n eta) n = 0 := by
  rw [refract_r_out_perp_of_unit uv n eta huv hn, dot_smul_left, dot_add_left, dot_smul_left,
    ← length_squared_eq_dot n, hn]
  ring

theorem refract_r_out_perp_length_squared (uv n : vec3 α) (eta : α)
    (huv : uv.length_squared = 1) (hn : n.length_squared = 1) :
    (refract_r_out_perp uv n eta).length_squared = eta ^ 2 * (1 - (dot uv n) ^ 2) := by
  rw [refract_r_out_perp_of_unit uv n eta huv hn, length_squared_eq_dot]
  simp only [dot_smul_left, dot_smul_right, dot_add_left, dot_add_right]
  rw [← length_squared_eq_dot uv, ← length_squared_eq_dot n, huv, hn, dot_comm n uv]
  ring

end VectorAlgebra

section Refraction

end Refraction

/-! ## Rejection sampling -/

section Rejection

variable {α : Type} [LinearOrderedField α]

theorem sphere_candidate_succ (order : call_order) (RAND_MAX : Nat) (seq : Nat → Nat)
    (pos m : Nat) :
    (sphere_candidate order RAND_MAX ⟨seq, pos + 3⟩ m : vec3 α)
      = sphere_candidate order RAND_MAX ⟨seq, pos⟩ (m + 1) := by
  simp only [sphere_candidate]
  rw [show pos + 3 + 3 * m = pos + 3 * (m + 1) from by omega]

theorem disk_candidate_succ (order : call_order) (RAND_MAX : Nat) (seq : Nat → Nat)
    (pos m : Nat) :
    (disk_candidate order RAND_MAX ⟨seq, pos + 2⟩ m : vec3 α)
      = disk_candidate order RAND_MAX ⟨seq, pos⟩ (m + 1) := by
  simp only [disk_candidate]
  rw [show pos + 2 + 2 * m = pos + 2 * (m + 1) from by omega]

theorem random_in_unit_sphere_step (order : call_order) (RAND_MAX : Nat) (fuel : Nat)
    (seq : Nat → Nat) (pos : Nat) :
    (random_in_unit_sphere order RAND_MAX (fuel + 1) ⟨seq, pos⟩ : Option (vec3 α × RandState))
      = if (sphere_candidate order RAND_MAX ⟨seq, pos⟩ 0 : vec3 α).length_squared ≥ 1
        then random_in_unit_sphere order RAND_MAX fuel ⟨seq, pos + 3⟩
        else some (sphere_candidate order RAND_MAX ⟨seq, pos⟩ 0, ⟨seq, pos + 3⟩) := rfl

theorem random_in_unit_disk_step (order : call_order) (RAND_MAX : Nat) (fuel : Nat)
    (seq : Nat → Nat) (pos : Nat) :
    (random_in_unit_disk order RAND_MAX (fuel + 1) ⟨seq, pos⟩ : Option (vec3 α × RandState))
      = if (disk_candidate order RAND_MAX ⟨seq, pos⟩ 0 : vec3 α).length_squared ≥ 1
        then random_in_unit_disk order RAND_MAX fuel ⟨seq, pos + 2⟩
        else some (disk_candidate order RAND_MAX ⟨seq, pos⟩ 0, ⟨seq, pos + 2⟩) := by
  cases order <;> rfl

theorem disk_candidate_z (order : call_order) (RAND_MAX : Nat) (g : RandState) (m : Nat) :
    (disk_candidate order RAND_MAX g m : vec3 α).z = 0 := by
  cases order <;> rfl

/-- What a rejection loop over the candidates `cand 0, cand 1, ...` returns within `fuel`
rounds, for a loop function `loop` that satisfies the step equation of the two samplers with
`w` draws for each candidate. -/
theorem rejection_loop_spec (w : Nat)
    (loop : Nat → RandState → Option (vec3 α × RandState))
    (cand : RandState → Nat → vec3 α)
    (hzero : ∀ g, loop 0 g = none)
    (hstep : ∀ fuel seq pos, loop (fuel + 1) ⟨seq, pos⟩
      = if (cand ⟨seq, pos⟩ 0).length_squared ≥ 1 then loop fuel ⟨seq, pos + w⟩
        else some (cand ⟨seq, pos⟩ 0, ⟨seq, pos + w⟩))
    (hsucc : ∀ seq pos m, cand ⟨seq, pos + w⟩ m = cand ⟨seq, pos⟩ (m + 1)) :
    ∀ (fuel : Nat) (seq : Nat → Nat) (pos : Nat),
      (∀ p g', loop fuel ⟨seq, pos⟩ = some (p, g') →
        ∃ n, n < fuel ∧ (∀ m, m < n → 1 ≤ (cand ⟨seq, pos⟩ m).length_squared) ∧
          p = cand ⟨seq, pos⟩ n ∧ p.length_squared < 1 ∧ g' = ⟨seq, pos + w * (n + 1)⟩) ∧
      (∀ n, n < fuel → (∀ m, m < n → 1 ≤ (cand ⟨seq, pos⟩ m).length_squared) →
        (cand ⟨seq, pos⟩ n).length_squared < 1 →
        loop fuel ⟨seq, pos⟩ = some (cand ⟨seq, pos⟩ n, ⟨seq, pos + w * (n + 1)⟩)) := by
  intro fuel
  induction fuel with
  | zero =>
    intro seq pos
    refine ⟨?_, ?_⟩
    · intro p g' h
      rw [hzero] at h
      exact absurd h (by simp)
    · intro n hn
      exact absurd hn (by omega)
  | succ fuel ih =>
    intro seq pos
    obtain ⟨ih1, ih2⟩ := ih seq (pos + w)
    refine ⟨?_, ?_⟩
    · intro p g' h
      rw [hstep] at h
      by_cases hc : (cand ⟨seq, pos⟩ 0).length_squared ≥ 1
      · rw [if_pos hc] at h
        obtain ⟨n, hn, hrej, hp, hlt, hg⟩ := ih1 p g' h
        refine ⟨n + 1, by omega, ?_, ?_, hlt, ?_⟩
        · intro m hm
          cases m with
          | zero => exact hc
          | succ m =>
            rw [← hsucc]
            exact hrej m (by omega)
        · rw [hp, hsucc]
        · rw [hg]
          congr 1
          ring
      · rw [if_neg hc] at h
        simp only [Option.some.injEq, Prod.mk.injEq] at h
        obtain ⟨hp, hg⟩ := h
        refine ⟨0, by omega, ?_, hp.symm, ?_, ?_⟩
        · intro m hm
          exact absurd hm (by omega)
        · rw [← hp]
          exact not_le.mp hc
        · rw [← hg]
          simp
    · intro n hn hrej hacc
      rw [hstep]
      cases n with
      | zero =>
        rw [if_neg (not_le.mpr hacc)]
        simp
      | succ n =>
        rw [if_pos (hrej 0 (by omega))]
        have h := ih2 n (by omega)
          (fun m hm => by rw [hsucc]; exact hrej (m + 1) (by omega))
          (by rw [hsucc]; exact hacc)
        rw [h, hsucc]
        congr 3
        ring

/-- C19 (counterexample): in single precision the samplers do not return the first candidate
whose squared length is below 1. For `RAND_MAX = 2^31 - 1` and the `rand()` values
`2^31 - 2^7`, `2^30 + 2^19 - 2^7`, `2^30`, `2^30`, ..., in whatever order the arguments are
evaluated, the first candidate has the components `1 - 2^-23`, `2^-11 - 2^-23` and `0`, which
the program computes without rounding; its squared length `1 - 2^-33 + 2^-45` is below 1, but
`length_squared()` returns `1`, so the loop rejects it and returns the second candidate
`(0, 0, 0)` after six draws (`random_in_unit_disk`: after four). In exact arithmetic the loop
returns the first candidate after three draws (two). -/
theorem samplers_reject_a_candidate_inside_in_single_precision :
    (∀ n, boundary_rand.seq n ≤ 2147483647) ∧
    (∀ order : call_order,
      (vec3.random_range_f32 order 2147483647 (-1) 1 boundary_rand).1
        = sphere_candidate order 2147483647 boundary_rand 0 ∧
      (sphere_candidate order 2147483647 boundary_rand 0 : vec3 ℚ).length_squared
        = 1 - 1 / 2 ^ 33 + 1 / 2 ^ 45 ∧
      (sphere_candidate order 2147483647 boundary_rand 0 : vec3 ℚ).length_squared < 1 ∧
      (sphere_candidate order 2147483647 boundary_rand 0 : vec3 ℚ).length_squared_f32 = 1 ∧
      (random_in_unit_sphere_f32 order 2147483647 2 boundary_rand).map
          (fun q => (q.1, q.2.pos)) = some (⟨0, 0, 0⟩, 6) ∧
      (random_in_unit_sphere order 2147483647 2 boundary_rand).map (fun q => (q.1, q.2.pos))
        = some ((sphere_candidate order 2147483647 boundary_rand 0 : vec3 ℚ), 3)) ∧
    (∀ order : call_order,
      (disk_candidate order 2147483647 boundary_rand 0 : vec3 ℚ).length_squared < 1 ∧
      (disk_candidate order 2147483647 boundary_rand 0 : vec3 ℚ).length_squared_f32 = 1 ∧
      (random_in_unit_disk_f32 order 2147483647 2 boundary_rand).map
          (fun q => (q.1, q.2.pos)) = some (⟨0, 0, 0⟩, 4) ∧
      (random_in_unit_disk order 2147483647 2 boundary_rand).map (fun q => (q.1, q.2.pos))
        = some ((disk_candidate order 2147483647 boundary_rand 0 : vec3 ℚ), 2)) := by
  refine ⟨?_, ?_, ?_⟩
  · intro n
    simp only [boundary_rand]
    split_ifs <;> norm_num
  · intro order
    cases order <;> decide!
  · intro order
    cases order <;> decide!

/-- C19 (amended): in exact arithmetic, and in whatever order the arguments of the constructor
are evaluated, `random_in_unit_sphere` and `random_in_unit_disk` return the first accepted
candidate of the random stream. Whenever the loop returns `p` (within `fuel` rounds), there is
an `n` such that the candidates before the `n`-th have squared length at least 1, `p` is the
`n`-th candidate, its squared length is strictly below 1, and `3*(n + 1)` draws (`2*(n + 1)`
for the disk) have been consumed; for the disk `p.z = 0`. Conversely, when the `n`-th candidate
is the first with squared length below 1, the loop returns it as soon as `fuel` exceeds `n`. -/
theorem rejection_samplers_return_first_accepted (order : call_order) (RAND_MAX : Nat)
    (fuel : Nat) (g : RandState) :
    ((∀ (p : vec3 α) (g' : RandState),
        random_in_unit_sphere order RAND_MAX fuel g = some (p, g') →
        ∃ n, n < fuel ∧
          (∀ m, m < n → 1 ≤ (sphere_candidate order RAND_MAX g m : vec3 α).length_squared) ∧
          p = sphere_candidate order RAND_MAX g n ∧ p.length_squared < 1 ∧
          g' = ⟨g.seq, g.pos + 3 * (n + 1)⟩) ∧
      (∀ n, n < fuel →
        (∀ m, m < n → 1 ≤ (sphere_candidate order RAND_MAX g m : vec3 α).length_squared) →
        (sphere_candidate order RAND_MAX g n : vec3 α).length_squared < 1 →
        random_in_unit_sphere order RAND_MAX fuel g
          = some ((sphere_candidate order RAND_MAX g n : vec3 α),
              ⟨g.seq, g.pos + 3 * (n + 1)⟩))) ∧
    ((∀ (p : vec3 α) (g' : RandState),
        random_in_unit_disk order RAND_MAX fuel g = some (p, g') →
        ∃ n, n < fuel ∧
          (∀ m, m < n → 1 ≤ (disk_candidate order RAND_MAX g m : vec3 α).length_squared) ∧
          p = disk_candidate order RAND_MAX g n ∧ p.length_squared < 1 ∧ p.z = 0 ∧
          g' = ⟨g.seq, g.pos + 2 * (n + 1)⟩) ∧
      (∀ n, n < fuel →
        (∀ m, m < n → 1 ≤ (disk_candidate order RAND_MAX g m : vec3 α).length_squared) →
        (disk_candidate order RAND_MAX g n : vec3 α).length_squared < 1 →
        random_in_unit_disk order RAND_MAX fuel g
          = some ((disk_candidate order RAND_MAX g n : vec3 α),
              ⟨g.seq, g.pos + 2 * (n + 1)⟩))) := by
  obtain ⟨seq, pos⟩ := g
  have hs := rejection_loop_spec (α := α) 3 (random_in_unit_sphere order RAND_MAX)
    (sphere_candidate order RAND_MAX) (fun _ => rfl) (random_in_unit_sphere_step order RAND_MAX)
    (sphere_candidate_succ order RAND_MAX) fuel seq pos
  have hd := rejection_loop_spec (α := α) 2 (random_in_unit_disk order RAND_MAX)
    (disk_candidate order RAND_MAX) (fun _ => rfl) (random_in_unit_disk_step order RAND_MAX)
    (disk_candidate_succ order RAND_MAX) fuel seq pos
  refine ⟨hs, ?_, hd.2⟩
  intro p g' h
  obtain ⟨n, hn, hrej, hp, hlt, hg⟩ := hd.1 p g' h
  exact ⟨n, hn, hrej, hp, hlt, by rw [hp]; exact disk_candidate_z order RAND_MAX _ n, hg⟩

theorem sphere_candidate_half_rand (order : call_order) :
    (sphere_candidate order 32767 half_rand 0 : vec3 α) = ⟨0, 0, 0⟩ := by
  cases order <;>
  · simp only [sphere_candidate, vec3.random_range, random_float_range, random_float, rand,
      half_rand, call_order.turns]
    norm_num

theorem random_in_unit_sphere_half_rand (order : call_order) :
    (random_in_unit_sphere order 32767 1 half_rand : Option (vec3 α × RandState))
      = some (⟨0, 0, 0⟩, ⟨half_rand.seq, 3⟩) := by
  have h := random_in_unit_sphere_step (α := α) order 32767 0 half_rand.seq 0
  have hc : ¬ (sphere_candidate order 32767 ⟨half_rand.seq, 0⟩ 0 : vec3 α).length_squared
      ≥ 1 := by
    have h0 := sphere_candidate_half_rand (α := α) order
    simp only [half_rand] at h0
    simp only [half_rand, h0, vec3.length_squared]
    norm_num
  rw [if_neg hc] at h
  have h0 := sphere_candidate_half_rand (α := α) order
  simp only [half_rand] at h0 h ⊢
  rw [h, h0]

theorem rejection_samplers_return_first_accepted_witness :
    (0 < 1 ∧ (sphere_candidate call_order.cba 32767 half_rand 0 : vec3 ℚ).length_squared < 1) ∧
    random_in_unit_sphere call_order.cba 32767 1 half_rand
      = some ((sphere_candidate call_order.cba 32767 half_rand 0 : vec3 ℚ),
          ⟨half_rand.seq, half_rand.pos + 3 * (0 + 1)⟩) :=
  have hacc : (sphere_candidate call_order.cba 32767 half_rand 0 : vec3 ℚ).length_squared
      < 1 := by
    rw [sphere_candidate_half_rand]
    norm_num [vec3.length_squared]
  ⟨⟨by decide, hacc⟩,
   (rejection_samplers_return_first_accepted (α := ℚ) call_order.cba 32767 1 half_rand).1.2 0
     (by decide) (fun m hm => absurd hm (by omega)) hacc⟩

end Rejection

/-! ## Normalization -/

section Normalization

theorem unit_vector_checked_eq {α : Type} [LinearOrderedField α] (sqrt : α → α) (v : vec3 α) :
    unit_vector_checked sqrt v
      = if v.length sqrt = 0 then none else some (unit_vector sqrt v) := by
  unfold unit_vector_checked checked_div unit_vector
  by_cases h : v.length sqrt = 0
  · simp [h]
  · simp [h]

theorem length_eq_zero_iff (v : vec3 ℝ) : v.length Real.sqrt = 0 ↔ v = ⟨0, 0, 0⟩ := by
  unfold vec3.length vec3.length_squared
  have hx0 := mul_self_nonneg v.x
  have hy0 := mul_self_nonneg v.y
  have hz0 := mul_self_nonneg v.z
  rw [Real.sqrt_eq_zero (by linarith)]
  constructor
  · intro h
    have hx : v.x = 0 := mul_self_eq_zero.mp (by linarith)
    have hy : v.y = 0 := mul_self_eq_zero.mp (by linarith)
    have hz : v.z = 0 := mul_self_eq_zero.mp (by linarith)
    ext
    · exact hx
    · exact hy
    · exact hz
  · intro h
    rw [h]
    norm_num

theorem length_squared_pos_of_bound (v : vec3 ℝ) (h : 1 / 2 ^ 100 ≤ v.length_squared) :
    v ≠ ⟨0, 0, 0⟩ := by
  intro hv
  rw [hv] at h
  norm_num [vec3.length_squared] at h

/-- C12 (counterexample): with every division checked, `unit_vector` of the zero vector is a
division by zero; and on the stream whose draws are all `1/2` (`rand()` returns `16384` for
`RAND_MAX = 32767`) `random_in_unit_sphere` returns `(0, 0, 0)` at once, in whatever order the
arguments are evaluated, so `random_unit_vector` divides by zero. -/
theorem unit_vector_of_zero_divides_by_zero :
    unit_vector_checked Real.sqrt (⟨0, 0, 0⟩ : vec3 ℝ) = none ∧
    (∀ order : call_order,
      (random_in_unit_sphere order 32767 1 half_rand : Option (vec3 ℝ × RandState))
        = some (⟨0, 0, 0⟩, ⟨half_rand.seq, 3⟩) ∧
      random_unit_vector_checked Real.sqrt order 32767 1 half_rand
        = some (none, ⟨half_rand.seq, 3⟩)) := by
  have h0 : unit_vector_checked Real.sqrt (⟨0, 0, 0⟩ : vec3 ℝ) = none := by
    rw [unit_vector_checked_eq, if_pos ((length_eq_zero_iff _).mpr rfl)]
  refine ⟨h0, fun order => ⟨random_in_unit_sphere_half_rand order, ?_⟩⟩
  unfold random_unit_vector_checked
  rw [random_in_unit_sphere_half_rand]
  simp only [Option.map_some', h0]

/-- C12 (amended): normalization is not guarded. `unit_vector(v)` divides each component by
the length of `v` and tests nothing: whatever the function `sqrt` computes, a division is by
zero exactly when the computed length is zero. That is the case for the zero vector, and it
is not the case for any `v` whose squared length is at least `2^-100`, for which the checked
function returns what `unit_vector` returns. `random_unit_vector` hands the vector that
`random_in_unit_sphere` returns to `unit_vector`: on a stream whose first three draws are
`1/2` that vector is `(0, 0, 0)` and the divisions are by zero. -/
theorem unit_vector_divides_by_its_length (v : vec3 ℝ) :
    (∀ sqrt : ℝ → ℝ, unit_vector_checked sqrt v
      = if v.length sqrt = 0 then none else some (unit_vector sqrt v)) ∧
    (v = ⟨0, 0, 0⟩ → unit_vector_checked Real.sqrt v = none) ∧
    (1 / 2 ^ 100 ≤ v.length_squared →
      unit_vector_checked Real.sqrt v = some (unit_vector Real.sqrt v)) ∧
    (∀ order : call_order,
      random_unit_vector_checked Real.sqrt order 32767 1 half_rand
        = some (none, ⟨half_rand.seq, 3⟩)) := by
  refine ⟨fun sqrt => unit_vector_checked_eq sqrt v, ?_, ?_, ?_⟩
  · intro hv
    rw [unit_vector_checked_eq, if_pos ((length_eq_zero_iff v).mpr hv)]
  · intro hv
    rw [unit_vector_checked_eq,
      if_neg (fun h => length_squared_pos_of_bound v hv ((length_eq_zero_iff v).mp h))]
  · intro order
    have h0 : unit_vector_checked Real.sqrt (⟨0, 0, 0⟩ : vec3 ℝ) = none := by
      rw [unit_vector_checked_eq, if_pos ((length_eq_zero_iff _).mpr rfl)]
    unfold random_unit_vector_checked
    rw [random_in_unit_sphere_half_rand]
    simp only [Option.map_some', h0]

theorem unit_vector_divides_by_its_length_witness :
    (1 : ℝ) / 2 ^ 100 ≤ (⟨3, 0, 4⟩ : vec3 ℝ).length_squared ∧
    unit_vector_checked Real.sqrt (⟨3, 0, 4⟩ : vec3 ℝ)
      = some (unit_vector Real.sqrt (⟨3, 0, 4⟩ : vec3 ℝ)) :=
  have h : (1 : ℝ) / 2 ^ 100 ≤ (⟨3, 0, 4⟩ : vec3 ℝ).length_squared := by
    norm_num [vec3.length_squared]
  ⟨h, (unit_vector_divides_by_its_length (⟨3, 0, 4⟩ : vec3 ℝ)).2.2.1 h⟩

/-- In single precision the length of a vector that is not zero can be zero: the square of
`2^-77` is below half of the least positive `float`, `2^-149`, and rounds to zero, so that
`unit_vector` divides by zero. The squares of the components of a vector of squared length
`2^-100` or more do not all round to zero. -/
theorem unit_vector_f32_underflow :
    (⟨1 / 2 ^ 77, 0, 0⟩ : vec3 ℚ) ≠ ⟨0, 0, 0⟩ ∧
    (⟨1 / 2 ^ 77, 0, 0⟩ : vec3 ℚ).length_f32 = 0 ∧
    unit_vector_f32 ⟨1 / 2 ^ 77, 0, 0⟩ = none := by
  decide!

end Normalization

/-! ## Termination and the bounce chain -/

section Bounces

variable {α M : Type} [LinearOrderedField α]

theorem ray_color_fuel_eq (sqrt : α → α) (world : hittable α M) :
    ∀ (fuel : Nat) (r : ray α) (depth : Int) (g : RandState), depth.toNat ≤ fuel →
      ray_color_fuel sqrt world fuel r depth g = some (ray_color sqrt world r depth g) := by
  intro fuel
  induction fuel with
  | zero =>
    intro r depth g h
    have hd : depth ≤ 0 := by omega
    rw [ray_color_of_nonpos sqrt world r depth g hd]
    unfold ray_color_fuel
    rw [if_pos hd]
  | succ fuel ih =>
    intro r depth g h
    by_cases hd : depth ≤ 0
    · rw [ray_color_of_nonpos sqrt world r depth g hd]
      unfold ray_color_fuel
      rw [if_pos hd]
    · have hpos : 0 < depth := not_le.mp hd
      unfold ray_color_fuel
      rw [if_neg hd]
      rcases hh : world.hit r 0.001 ⊤ g with ⟨o, g1⟩
      cases o with
      | none =>
        rw [ray_color_of_miss sqrt world r depth g g1 hpos hh]
        rfl
      | some rec =>
        rcases hs : world.scatter rec.mat_ptr r rec g1 with ⟨o2, g2⟩
        cases o2 with
        | none =>
          rw [ray_color_of_absorb sqrt world r depth g g1 g2 rec hpos hh hs]
          simp only [hs]
        | some as =>
          obtain ⟨attenuation, scattered⟩ := as
          rw [ray_color_of_scatter sqrt world r depth g g1 g2 rec attenuation scattered hpos
            hh hs]
          simp only [hs, ih scattered (depth - 1) g2 (by omega), Option.map_some']

/-- C14: `ray_color` always runs to completion: for every ray, every scene (total `hit` and
`scatter`) and every integer depth, negative ones included, `ray_color` is a total function,
and its calls nest at most `max(depth, 0)` deep: the version that counts the recursive calls
and gives up when more than `fuel` are nested returns the value of `ray_color` as soon as
`fuel` is at least `depth` (at least 0 for a negative depth). -/
theorem ray_color_terminates (sqrt : α → α) (world : hittable α M) (fuel : Nat) (r : ray α)
    (depth : Int) (g : RandState) (h : depth.toNat ≤ fuel) :
    ray_color_fuel sqrt world fuel r depth g = some (ray_color sqrt world r depth g) ∧
    ray_color_fuel sqrt world depth.toNat r depth g = some (ray_color sqrt world r depth g) :=
  ⟨ray_color_fuel_eq sqrt world fuel r depth g h,
   ray_color_fuel_eq sqrt world depth.toNat r depth g (le_refl _)⟩

theorem ray_color_terminates_witness :
    ((50 : Int).toNat ≤ 50 ∧
      ray_color_fuel (fun x : ℚ => x) (mirror_world ℚ) 50 ⟨⟨0, 0, 0⟩, ⟨1, 2, 3⟩⟩ 50 zero_rand
        = some (ray_color (fun x : ℚ => x) (mirror_world ℚ) ⟨⟨0, 0, 0⟩, ⟨1, 2, 3⟩⟩ 50
            zero_rand)) ∧
    ((-7 : Int).toNat ≤ 0 ∧
      ray_color_fuel (fun x : ℚ => x) (mirror_world ℚ) 0 ⟨⟨0, 0, 0⟩, ⟨1, 2, 3⟩⟩ (-7) zero_rand
        = some (ray_color (fun x : ℚ => x) (mirror_world ℚ) ⟨⟨0, 0, 0⟩, ⟨1, 2, 3⟩⟩ (-7)
            zero_rand)) :=
  ⟨⟨by decide, (ray_color_terminates _ _ 50 _ 50 _ (by decide)).1⟩,
   ⟨by decide, (ray_color_terminates _ _ 0 _ (-7) _ (by decide)).1⟩⟩

theorem mul_black (a : color α) : a * (⟨0, 0, 0⟩ : color α) = ⟨0, 0, 0⟩ := by
  ext <;> simp

/-- C17: attenuation composes multiplicatively along the bounce chain: when a ray is hit and
scattered `k` times in succession with attenuations `a_1, ..., a_k` and the `k`-th scattered
ray (the ray itself for `k = 0`) then misses the scene, `ray_color` at a depth above `k`
returns the component-wise product `a_1 * (... * (a_k * sky))` with the miss gradient `sky` of
the last ray; at a depth of at most `k` the result is black. -/
theorem attenuation_composes_along_chain (sqrt : α → α) (world : hittable α M)
    (attenuations : List (color α)) (r last : ray α) (g g' : RandState) (depth : Int)
    (hchain : bounce_chain world attenuations r g last g') :
    (∀ g'', (attenuations.length : Int) < depth → world.hit last 0.001 ⊤ g' = (none, g'') →
      ray_color sqrt world r depth g
        = (attenuations.foldr (fun a c => a * c) (sky sqrt last.dir), g'')) ∧
    (depth ≤ (attenuations.length : Int) →
      (ray_color sqrt world r depth g).1 = ⟨0, 0, 0⟩) := by
  induction attenuations generalizing r g depth with
  | nil =>
    obtain ⟨hr, hg⟩ := hchain
    subst hr hg
    refine ⟨?_, ?_⟩
    · intro g'' hlen hmiss
      simp only [List.length_nil, Nat.cast_zero] at hlen
      rw [ray_color_of_miss sqrt world r depth g g'' hlen hmiss]
      rfl
    · intro hle
      simp only [List.length_nil, Nat.cast_zero] at hle
      rw [ray_color_of_nonpos sqrt world r depth g hle]
  | cons a rest ih =>
    obtain ⟨rec, g1, scattered, g2, hh, hs, hrest⟩ := hchain
    obtain ⟨ih1, ih2⟩ := ih scattered g2 (depth - 1) hrest
    refine ⟨?_, ?_⟩
    · intro g'' hlen hmiss
      simp only [List.length_cons, Nat.cast_add, Nat.cast_one] at hlen
      rw [ray_color_of_scatter sqrt world r depth g g1 g2 rec a scattered (by omega) hh hs,
        ih1 g'' (by omega) hmiss]
      rfl
    · intro hle
      simp only [List.length_cons, Nat.cast_add, Nat.cast_one] at hle
      by_cases hd : depth ≤ 0
      · rw [ray_color_of_nonpos sqrt world r depth g hd]
      · rw [ray_color_of_scatter sqrt world r depth g g1 g2 rec a scattered (by omega) hh hs]
        simp only
        rw [ih2 (by omega)]
        exact mul_black a

theorem one_bounce_chain :
    bounce_chain (one_bounce_world ℚ) [⟨1 / 2, 1 / 2, 1 / 2⟩] ⟨⟨0, 0, 0⟩, ⟨1, 0, 0⟩⟩ zero_rand
      ⟨⟨0, 0, 0⟩, ⟨0, 1, 0⟩⟩ zero_rand :=
  ⟨⟨⟨0, 0, 0⟩, ⟨0, 1, 0⟩, (), 1, true⟩, zero_rand, ⟨⟨0, 0, 0⟩, ⟨0, 1, 0⟩⟩, zero_rand,
    by simp [one_bounce_world], rfl, rfl, rfl⟩

theorem attenuation_composes_along_chain_witness :
    bounce_chain (one_bounce_world ℚ) [⟨1 / 2, 1 / 2, 1 / 2⟩] ⟨⟨0, 0, 0⟩, ⟨1, 0, 0⟩⟩ zero_rand
      ⟨⟨0, 0, 0⟩, ⟨0, 1, 0⟩⟩ zero_rand ∧
    ((([⟨1 / 2, 1 / 2, 1 / 2⟩] : List (color ℚ)).length : Int) < 50 ∧
      ray_color (fun x : ℚ => x) (one_bounce_world ℚ) ⟨⟨0, 0, 0⟩, ⟨1, 0, 0⟩⟩ 50 zero_rand
        = (([⟨1 / 2, 1 / 2, 1 / 2⟩] : List (color ℚ)).foldr (fun a c => a * c)
            (sky (fun x : ℚ => x) (⟨0, 1, 0⟩ : vec3 ℚ)), zero_rand)) ∧
    ((1 : Int) ≤ (([⟨1 / 2, 1 / 2, 1 / 2⟩] : List (color ℚ)).length : Int) ∧
      (ray_color (fun x : ℚ => x) (one_bounce_world ℚ) ⟨⟨0, 0, 0⟩, ⟨1, 0, 0⟩⟩ 1 zero_rand).1
        = ⟨0, 0, 0⟩) :=
  ⟨one_bounce_chain,
   ⟨by decide,
    (attenuation_composes_along_chain (fun x : ℚ => x) (one_bounce_world ℚ) _ _ _ _ _ 50
      one_bounce_chain).1 zero_rand (by decide) (by simp [one_bounce_world])⟩,
   ⟨by decide,
    (attenuation_composes_along_chain (fun x : ℚ => x) (one_bounce_world ℚ) _ _ _ _ _ 1
      one_bounce_chain).2 (by decide)⟩⟩

end Bounces

/-! ## The range of the colors and closed scenes -/

section ColorRange

variable {α M : Type} [LinearOrderedField α]

theorem ray_color_checked_of_nonpos (sqrt : α → α) (world : hittable α M) (r : ray α)
    (depth : Int) (g : RandState) (h : depth ≤ 0) :
    ray_color_checked sqrt world r depth g = some (⟨0, 0, 0⟩, g) := by
  rw [ray_color_checked]
  simp [h]

theorem ray_color_checked_of_miss (sqrt : α → α) (world : hittable α M) (r : ray α)
    (depth : Int) (g g1 : RandState) (h : 0 < depth)
    (hm : world.hit r 0.001 ⊤ g = (none, g1)) :
    ray_color_checked sqrt world r depth g
      = (unit_vector_checked sqrt r.dir).map (fun unit_direction =>
          (((1.0 : α) - 0.5 * (unit_direction.y + 1.0)) * (⟨1.0, 1.0, 1.0⟩ : color α)
            + (0.5 * (unit_direction.y + 1.0)) * (⟨0.5, 0.7, 1.0⟩ : color α), g1)) := by
  rw [ray_color_checked]
  simp [not_le.mpr h, hm]

theorem ray_color_checked_of_absorb (sqrt : α → α) (world : hittable α M) (r : ray α)
    (depth : Int) (g g1 g2 : RandState) (rec : hit_record α M) (h : 0 < depth)
    (hh : world.hit r 0.001 ⊤ g = (some rec, g1))
    (hs : world.scatter rec.mat_ptr r rec g1 = (none, g2)) :
    ray_color_checked sqrt world r depth g = some (⟨0, 0, 0⟩, g2) := by
  rw [ray_color_checked]
  simp [not_le.mpr h, hh, hs]

theorem ray_color_checked_of_scatter (sqrt : α → α) (world : hittable α M) (r : ray α)
    (depth : Int) (g g1 g2 : RandState) (rec : hit_record α M) (attenuation : color α)
    (scattered : ray α) (h : 0 < depth) (hh : world.hit r 0.001 ⊤ g = (some rec, g1))
    (hs : world.scatter rec.mat_ptr r rec g1 = (some (attenuation, scattered), g2)) :
    ray_color_checked sqrt world r depth g
      = (ray_color_checked sqrt world scattered (depth - 1) g2).map
          (fun c => (attenuation * c.1, c.2)) := by
  rw [ray_color_checked]
  simp [not_le.mpr h, hh, hs]

theorem in_unit_range_black : in_unit_range (⟨0, 0, 0⟩ : color α) := by
  simp [in_unit_range]

theorem in_unit_range_mul (a c : color α) (ha : in_unit_range a) (hc : in_unit_range c) :
    in_unit_range (a * c) := by
  obtain ⟨⟨ax0, ax1⟩, ⟨ay0, ay1⟩, ⟨az0, az1⟩⟩ := ha
  obtain ⟨⟨cx0, cx1⟩, ⟨cy0, cy1⟩, ⟨cz0, cz1⟩⟩ := hc
  simp only [in_unit_range, vec3.mul_def]
  exact ⟨⟨mul_nonneg ax0 cx0, mul_le_one₀ ax1 cx0 cx1⟩,
    ⟨mul_nonneg ay0 cy0, mul_le_one₀ ay1 cy0 cy1⟩,
    ⟨mul_nonneg az0 cz0, mul_le_one₀ az1 cz0 cz1⟩⟩

theorem sky_in_unit_range (d : vec3 ℝ) (hd : d ≠ ⟨0, 0, 0⟩) :
    in_unit_range (sky Real.sqrt d) := by
  have hL0 : d.length Real.sqrt ≠ 0 := fun h => hd ((length_eq_zero_iff d).mp h)
  have hLpos : 0 < d.length Real.sqrt :=
    lt_of_le_of_ne (Real.sqrt_nonneg _) (Ne.symm hL0)
  have habs : |d.y| ≤ d.length Real.sqrt := by
    unfold vec3.length vec3.length_squared
    apply Real.abs_le_sqrt
    nlinarith [mul_self_nonneg d.x, mul_self_nonneg d.z]
  have hy := abs_le.mp habs
  have h1 : d.y / d.length Real.sqrt ≤ 1 := (div_le_one hLpos).mpr hy.2
  have h2 : -1 ≤ d.y / d.length Real.sqrt := by
    rw [le_div_iff₀ hLpos]
    linarith [hy.1]
  simp only [in_unit_range, sky, unit_vector, vec3.smul_def, vec3.add_def]
  generalize d.y / d.length Real.sqrt = q at h1 h2
  refine ⟨⟨?_, ?_⟩, ⟨?_, ?_⟩, ⟨?_, ?_⟩⟩ <;> norm_num <;> linarith


theorem ray_color_range_aux {M : Type} (world : hittable ℝ M)
    (hscatter : ∀ m r rec g a sc g2, world.scatter m r rec g = (some (a, sc), g2) →
      in_unit_range a ∧ sc.dir ≠ ⟨0, 0, 0⟩) :
    ∀ (n : Nat) (r : ray ℝ) (depth : Int) (g : RandState), depth.toNat ≤ n →
      r.dir ≠ ⟨0, 0, 0⟩ →
      ray_color_checked Real.sqrt world r depth g = some (ray_color Real.sqrt world r depth g) ∧
      in_unit_range (ray_color Real.sqrt world r depth g).1 := by
  intro n
  induction n with
  | zero =>
    intro r depth g hn _
    have hd : depth ≤ 0 := by omega
    rw [ray_color_checked_of_nonpos _ _ _ _ _ hd, ray_color_of_nonpos _ _ _ _ _ hd]
    exact ⟨rfl, in_unit_range_black⟩
  | succ n ih =>
    intro r depth g hn hdir
    by_cases hd : depth ≤ 0
    · rw [ray_color_checked_of_nonpos _ _ _ _ _ hd, ray_color_of_nonpos _ _ _ _ _ hd]
      exact ⟨rfl, in_unit_range_black⟩
    · have hpos : 0 < depth := not_le.mp hd
      rcases hh : world.hit r 0.001 ⊤ g with ⟨o, g1⟩
      cases o with
      | none =>
        rw [ray_color_checked_of_miss _ _ _ _ _ g1 hpos hh,
          ray_color_of_miss _ _ _ _ _ g1 hpos hh, unit_vector_checked_eq,
          if_neg (fun h => hdir ((length_eq_zero_iff r.dir).mp h))]
        exact ⟨rfl, sky_in_unit_range r.dir hdir⟩
      | some rec =>
        rcases hs : world.scatter rec.mat_ptr r rec g1 with ⟨o2, g2⟩
        cases o2 with
        | none =>
          rw [ray_color_checked_of_absorb _ _ _ _ _ g1 g2 rec hpos hh hs,
            ray_color_of_absorb _ _ _ _ _ g1 g2 rec hpos hh hs]
          exact ⟨rfl, in_unit_range_black⟩
        | some as =>
          obtain ⟨a, sc⟩ := as
          obtain ⟨ha, hsc⟩ := hscatter _ _ _ _ _ _ _ hs
          obtain ⟨ih1, ih2⟩ := ih sc (depth - 1) g2 (by omega) hsc
          rw [ray_color_checked_of_scatter _ _ _ _ _ g1 g2 rec a sc hpos hh hs,
            ray_color_of_scatter _ _ _ _ _ g1 g2 rec a sc hpos hh hs, ih1]
          exact ⟨rfl, in_unit_range_mul _ _ ha ih2⟩

theorem one_bounce_world_scatter :
    ∀ (m : Unit) (r : ray ℝ) (rec : hit_record ℝ Unit) (g : RandState) (a : color ℝ)
      (sc : ray ℝ) (g2 : RandState),
      (one_bounce_world ℝ).scatter m r rec g = (some (a, sc), g2) →
      ((0 ≤ a.x ∧ a.x ≤ 1) ∧ (0 ≤ a.y ∧ a.y ≤ 1) ∧ (0 ≤ a.z ∧ a.z ≤ 1)) ∧
        1 / 2 ^ 100 ≤ sc.dir.length_squared := by
  intro m r rec g a sc g2 h
  simp only [one_bounce_world, Prod.mk.injEq, Option.some.injEq] at h
  obtain ⟨⟨ha, hsc⟩, _⟩ := h
  rw [← ha, ← hsc]
  refine ⟨by norm_num, ?_⟩
  norm_num [vec3.length_squared]

theorem closed_scene_aux (sqrt : α → α) (world : hittable α M)
    (hclosed : ∀ r tmin tmax g, ∃ rec g1, world.hit r tmin tmax g = (some rec, g1)) :
    ∀ (n : Nat) (r : ray α) (depth : Int) (g : RandState), depth.toNat ≤ n →
      (ray_color sqrt world r depth g).1 = ⟨0, 0, 0⟩ ∧
      ray_color_checked sqrt world r depth g = some (ray_color sqrt world r depth g) := by
  intro n
  induction n with
  | zero =>
    intro r depth g hn
    have hd : depth ≤ 0 := by omega
    rw [ray_color_checked_of_nonpos _ _ _ _ _ hd, ray_color_of_nonpos _ _ _ _ _ hd]
    exact ⟨rfl, rfl⟩
  | succ n ih =>
    intro r depth g hn
    by_cases hd : depth ≤ 0
    · rw [ray_color_checked_of_nonpos _ _ _ _ _ hd, ray_color_of_nonpos _ _ _ _ _ hd]
      exact ⟨rfl, rfl⟩
    · have hpos : 0 < depth := not_le.mp hd
      obtain ⟨rec, g1, hh⟩ := hclosed r 0.001 ⊤ g
      rcases hs : world.scatter rec.mat_ptr r rec g1 with ⟨o2, g2⟩
      cases o2 with
      | none =>
        rw [ray_color_checked_of_absorb _ _ _ _ _ g1 g2 rec hpos hh hs,
          ray_color_of_absorb _ _ _ _ _ g1 g2 rec hpos hh hs]
        exact ⟨rfl, rfl⟩
      | some as =>
        obtain ⟨a, sc⟩ := as
        obtain ⟨ih1, ih2⟩ := ih sc (depth - 1) g2 (by omega)
        rw [ray_color_checked_of_scatter _ _ _ _ _ g1 g2 rec a sc hpos hh hs,
          ray_color_of_scatter _ _ _ _ _ g1 g2 rec a sc hpos hh hs, ih2]
        refine ⟨?_, rfl⟩
        simp only
        rw [ih1]
        exact mul_black a

end ColorRange

end Raytracer
